import Mathlib

/-!
Heimdall monitor scheduler: check cycle, status classification, notification throttle.

A shallow embedding of `tasks/scheduler.go`.  A Go `int` is 64 bits wide, as on
the platforms the server is built for: a field of type `int` is an integer
here, and the additions and multiplications that the scheduler makes on such
fields wrap as in Go (`wrapInt64`); a theorem that needs a field to lie in the
range of a Go `int` says so.  Instants are integers counting nanoseconds from
the zero `time.Time`, and a `time.Duration` is a number of nanoseconds, as in
Go.  Calls to collaborators (credential lookup, executors, repositories,
clock) take their answers from an explicit environment and are recorded in an
event list.
-/

namespace Heimdall

/-! ## Durations (`time.Second`, `time.Minute`, `time.Hour`) -/

/-- Go `time.Second`, in nanoseconds. -/
def Second : Int := 1000000000

/-- Go `time.Minute`, in nanoseconds. -/
def Minute : Int := 60 * Second

/-- Go `time.Hour`, in nanoseconds. -/
def Hour : Int := 60 * Minute

/-! ## Machine integers -/

/-- The value that 64-bit Go arithmetic yields for the exact result `x`: the integer of
[-2^63, 2^63) that differs from `x` by a multiple of 2^64. -/
def wrapInt64 (x : Int) : Int :=
  (x + 9223372036854775808) % 18446744073709551616 - 9223372036854775808

/-! ## Status classification and backoff (`scheduler.go` 595-610, 642-654) -/

/-- The function `getStatusFromCode` of `tasks/scheduler.go`: a Go `switch` with
no tag takes the first case whose condition holds. -/
def getStatusFromCode (code : Int) : String :=
  if code ≥ 200 ∧ code < 300 then "up"
  else if code ≥ 300 ∧ code < 400 then "redirect"
  else if code ≥ 400 ∧ code < 500 then "down"
  else if code ≥ 500 then "down"
  else if code = 401 then "unauthorized"
  else "down"

/-- The function `calculateNotificationInterval` of `tasks/scheduler.go`. -/
def calculateNotificationInterval (failureCount : Int) : Int :=
  if failureCount < 3 then 5 * Minute
  else if failureCount < 10 then 15 * Minute
  else if failureCount < 20 then 30 * Minute
  else 1 * Hour

/-! ## Data model (`types/monitor.go`, `types/log.go`, `types/notification_method.go`,
`services/credentials.go`) -/

/-- The struct `types.Monitor`; `time.Time` fields are instants in nanoseconds and
the Go field `Type` is `Type_`. -/
structure Monitor where
  ID : String
  ProfileID : String
  Name : String
  Type_ : String
  URL : String
  Method : String
  RequestType : String
  Headers : String
  Body : String
  CredentialID : String
  CheckInterval : Int
  FailureThreshold : Int
  FailureCount : Int
  Timeout : Int
  IsActive : Bool
  Status : String
  ResponseCode : Int
  ResponseTime : Int
  LastChecked : Int
  CreatedAt : Int
  UpdatedAt : Int
  DBHost : String
  DBPort : String
  DBName : String
  DBUsername : String
  DBPassword : String
  DBQuery : String
  DBExpectedValue : String
  deriving DecidableEq, Repr

/-- The struct `types.Log`. -/
structure Log where
  ID : String
  MonitorID : String
  Status : String
  Message : String
  CreatedAt : Int
  deriving DecidableEq, Repr

/-- The struct `types.NotificationMethod`; `Config` is the raw JSON text. -/
structure NotificationMethod where
  ID : String
  ProfileID : String
  Type_ : String
  Enabled : Bool
  Config : String
  CreatedAt : Int
  UpdatedAt : Int
  deriving DecidableEq, Repr

/-- The struct `services.Credential` (the OAuth2 bookkeeping fields included). -/
structure Credential where
  ID : String
  ProfileID : String
  Name : String
  Type_ : String
  Token : String
  Username : String
  Password : String
  HeaderName : String
  HeaderValue : String
  ClientID : String
  ClientSecret : String
  RedirectURI : String
  RefreshToken : String
  TokenExpiry : Int
  CreatedAt : Int
  UpdatedAt : Int
  deriving DecidableEq, Repr

/-- The method `CredentialsService.GetHeaderValue`. -/
def GetHeaderValue (cred : Credential) : String :=
  if cred.Type_ = "basic" then "Basic " ++ cred.Token
  else if cred.Type_ = "bearer" then
    if "Bearer ".isPrefixOf cred.Token then cred.Token else "Bearer " ++ cred.Token
  else if cred.Type_ = "oauth2" then
    if "Bearer ".isPrefixOf cred.Token then cred.Token else "Bearer " ++ cred.Token
  else if cred.Type_ = "api_key" then cred.Token
  else cred.HeaderValue

/-! ## Collaborators of one check cycle -/

/-- A Go `(value, error)` answer: either the error text or the value. -/
inductive Answer (α : Type) where
  | err (e : String)
  | ok (a : α)
  deriving DecidableEq, Repr

/-- The request handed to `http.Client.Do`: `http.NewRequest(Method, URL, nil)`
followed by the `Header.Add` calls, so the body is always absent. -/
structure HttpRequest where
  Method : String
  URL : String
  Header : List (String × String)
  Body : Option String
  deriving DecidableEq, Repr

/-- The part of `http.Response` that the scheduler reads. -/
structure HttpResponse where
  StatusCode : Int
  Status : String
  deriving DecidableEq, Repr

/-- One call to a collaborator, in program order. -/
inductive Event where
  | getCredential (credentialID : String)
  | executeCurlRequest (monitor : Monitor)
  | clientDo (req : HttpRequest)
  | getNotificationMethods (profileID : String)
  | sendNotification (monitor : Monitor) (status message : String)
      (methods : List NotificationMethod)
  | updateMonitor (monitor : Monitor)
  | createLog (entry : Log)
  deriving DecidableEq, Repr

/-- Whether the event is a call of `NotificationService.SendNotification`. -/
def Event.isSend : Event → Bool
  | .sendNotification _ _ _ _ => true
  | _ => false

/-- Whether the event is a call of `SendNotification` with the given status. -/
def Event.isSendWith (status : String) : Event → Bool
  | .sendNotification _ st _ _ => st == status
  | _ => false

/-- Whether the event runs an executor: `CurlService.ExecuteCurlRequest` or
`http.Client.Do`. -/
def Event.isExecutor : Event → Bool
  | .executeCurlRequest _ => true
  | .clientDo _ => true
  | _ => false

/-- What the outside world answers during one call of `checkMonitor`. -/
structure CycleEnv where
  /-- the answer of `s.credentials.GetCredential(monitor.CredentialID)` -/
  credential : Answer Credential
  /-- the answer of `curlService.ExecuteCurlRequest(monitor)`: `(code, msg)` or the error -/
  curl : Answer (Int × String)
  /-- the error of `http.NewRequest`, if any -/
  newRequest : Option String
  /-- what `json.Unmarshal` makes of a non-empty `Headers` (`none` on a parse error) -/
  parsedHeaders : Option (List (String × String))
  /-- the answer of `client.Do(req)` -/
  clientDo : Answer HttpResponse
  /-- the value of `time.Since(startTime).Milliseconds()` after `client.Do` -/
  elapsedMs : Int
  /-- the reading of `time.Now()` in the pending-too-long guard (line 475) -/
  nowGuard : Int
  /-- the reading of `time.Now()` stored in `LastChecked` (line 483) -/
  nowChecked : Int
  /-- the reading of the clock inside `time.Since(lastNotified)` (line 542) -/
  nowSince : Int
  /-- the reading of `time.Now()` stored in `lastNotifiedMap` (lines 541, 545) -/
  nowStamp : Int
  /-- the reading of `time.Now()` stored in the log entry (line 580) -/
  nowLog : Int
  /-- the answer of `profileRepo.GetNotificationMethods(monitor.ProfileID)` -/
  methods : Answer (List NotificationMethod)
  /-- the error of `notificationService.SendNotification`, if any -/
  sendErr : Option String
  /-- whether `notificationService.SendNotification` panics instead of returning (an
  unchecked type assertion of `SendEmail`, `SendSlack` or `SendTeams`) -/
  sendPanics : Bool
  /-- the error of `s.monitorRepo.UpdateMonitor`, if any -/
  updateErr : Option String
  /-- the error of `s.logRepo.CreateLog`, if any -/
  createLogErr : Option String
  /-- the value of `uuid.New().String()` -/
  logID : String
  deriving Repr

/-- The package-level `lastNotifiedMap`: monitor ID to last-notified instant. -/
abbrev ThrottleMap := List (String × Int)

/-- Map read `lastNotifiedMap[id]` with its `exists` flag. -/
def ThrottleMap.get (tm : ThrottleMap) (id : String) : Option Int :=
  List.lookup id tm

/-- Map write `lastNotifiedMap[id] = t`. -/
def ThrottleMap.set (tm : ThrottleMap) (id : String) (t : Int) : ThrottleMap :=
  (id, t) :: tm.filter (fun kv => kv.1 != id)

/-! ## One check cycle (`Scheduler.checkMonitor`, `scheduler.go` 295-593) -/

/-- Lines 306-310: an empty status is set to pending before anything else. -/
def defaultPending (monitor : Monitor) : Monitor :=
  if monitor.Status = "" then { monitor with Status := "pending" } else monitor

/-- Line 313: the local `previousStatus`, read after the empty status was defaulted. -/
def previousStatus (monitor : Monitor) : String :=
  (defaultPending monitor).Status

/-- Lines 320-331: the local `credentialError`; the lookup is made only when
`CredentialID` is set. -/
def credentialError (env : CycleEnv) (monitor : Monitor) : Bool :=
  if monitor.CredentialID = "" then false
  else
    match env.credential with
    | .err _ => true
    | .ok _ => false

/-- Lines 318-342: the local `credential` (`nil` is `none`). -/
def resolveCredential (env : CycleEnv) (monitor : Monitor) : Option Credential :=
  if monitor.CredentialID = "" then none
  else
    match env.credential with
    | .err _ => none
    | .ok c => some c

/-- The method `Monitor.GetHeadersMap`: `nil` for an empty or unparsable `Headers`. -/
def GetHeadersMap (env : CycleEnv) (monitor : Monitor) : Option (List (String × String)) :=
  if monitor.Headers = "" then none else env.parsedHeaders

/-- The locals and the `ResponseCode` field after the probe (lines 346-435). -/
structure Probe where
  status : String
  message : String
  responseCode : Int
  responseTime : Int
  events : List Event
  deriving DecidableEq, Repr

/-- Lines 346-435: the probe, by `RequestType`. -/
def runProbe (env : CycleEnv) (monitor : Monitor) (credential : Option Credential) : Probe :=
  if monitor.RequestType = "curl" then
    match env.curl with
    | .err e =>
      { status := "down", message := "CURL check failed: " ++ e, responseCode := 0,
        responseTime := 0, events := [Event.executeCurlRequest monitor] }
    | .ok (code, msg) =>
      { status := if code ≥ 200 ∧ code < 300 then "up" else getStatusFromCode code,
        message := msg, responseCode := code,
        responseTime := 0, events := [Event.executeCurlRequest monitor] }
  else
    match env.newRequest with
    | some e =>
      { status := "down", message := "Request creation failed: " ++ e, responseCode := 0,
        responseTime := 0, events := [] }
    | none =>
      let headers : List (String × String) :=
        match GetHeadersMap env monitor with
        | some hs => hs
        | none => []
      match credential with
      | none =>
        if monitor.CredentialID ≠ "" then
          { status := "down", message := "Internal error: credential is nil",
            responseCode := 0, responseTime := 0, events := [] }
        else
          let req : HttpRequest :=
            { Method := monitor.Method, URL := monitor.URL, Header := headers, Body := none }
          match env.clientDo with
          | .err e =>
            { status := "down", message := "Connection error: " ++ e, responseCode := 0,
              responseTime := env.elapsedMs, events := [Event.clientDo req] }
          | .ok resp =>
            { status := getStatusFromCode resp.StatusCode, message := resp.Status,
              responseCode := resp.StatusCode, responseTime := env.elapsedMs,
              events := [Event.clientDo req] }
      | some cred =>
        let headers :=
          if monitor.CredentialID ≠ "" then headers ++ [(cred.HeaderName, GetHeaderValue cred)]
          else headers
        let req : HttpRequest :=
          { Method := monitor.Method, URL := monitor.URL, Header := headers, Body := none }
        match env.clientDo with
        | .err e =>
          { status := "down", message := "Connection error: " ++ e, responseCode := 0,
            responseTime := env.elapsedMs, events := [Event.clientDo req] }
        | .ok resp =>
          { status := getStatusFromCode resp.StatusCode, message := resp.Status,
            responseCode := resp.StatusCode, responseTime := env.elapsedMs,
            events := [Event.clientDo req] }

/-- Lines 437-471: the status-change logic; returns the new local `status` and the new
`monitor.FailureCount`.  `monitor.FailureCount++` (line 440) is a 64-bit increment. -/
def transition (previousStatus status : String) (failureCount failureThreshold : Int) :
    String × Int :=
  if status = "down" ∨ status = "unauthorized" then
    if wrapInt64 (failureCount + 1) ≥ failureThreshold then
      ("down", wrapInt64 (failureCount + 1))
    else if previousStatus = "pending" then ("pending", wrapInt64 (failureCount + 1))
    else (previousStatus, wrapInt64 (failureCount + 1))
  else if status = "up" then
    (if previousStatus = "pending" then "up" else status, 0)
  else if status = "" then (previousStatus, failureCount)
  else (status, failureCount)

/-- Line 475: the duration `time.Duration(monitor.CheckInterval*3)*time.Second`; the
product of two `int` and the product of two `time.Duration` are 64-bit products. -/
def guardDuration (checkInterval : Int) : Int :=
  wrapInt64 (wrapInt64 (checkInterval * 3) * Second)

/-- Line 475: the condition of the pending-too-long guard, on the old `LastChecked`. -/
def pendingTooLong (env : CycleEnv) (previousStatus : String) (monitor : Monitor) : Bool :=
  previousStatus = "pending" ∧
    monitor.LastChecked + guardDuration monitor.CheckInterval < env.nowGuard

/-- Lines 529-550: the local `shouldNotify` and the throttle map afterwards. -/
def notifyDecision (env : CycleEnv) (lastNotifiedMap : ThrottleMap) (monitorID : String)
    (previousStatus status : String) (failureCount : Int) : Bool × ThrottleMap :=
  if status ≠ previousStatus then (true, lastNotifiedMap)
  else if status = "down" then
    match lastNotifiedMap.get monitorID with
    | none => (true, lastNotifiedMap.set monitorID env.nowStamp)
    | some lastNotified =>
      if env.nowSince - lastNotified > calculateNotificationInterval failureCount then
        (true, lastNotifiedMap.set monitorID env.nowStamp)
      else (false, lastNotifiedMap)
  else (false, lastNotifiedMap)

/-- Lines 325-331: the writes of the credential-error branch; `monitor.FailureCount++`
(line 330) is a 64-bit increment. -/
def credentialFailure (monitor : Monitor) : Monitor :=
  { monitor with ResponseCode := 0, FailureCount := wrapInt64 (monitor.FailureCount + 1) }

/-- Lines 437-483 together with the `ResponseCode` writes of the probe: the monitor
after the status-change logic, the pending-too-long guard and the field updates.  The
local `status` equals the `Status` field from line 481 on. -/
def applyOutcome (env : CycleEnv) (monitor : Monitor) (probe : Probe) : Monitor :=
  let previousStatus := monitor.Status
  let next := transition previousStatus probe.status monitor.FailureCount
    monitor.FailureThreshold
  let status := if pendingTooLong env previousStatus monitor then "down" else next.1
  { monitor with
    ResponseCode := probe.responseCode, FailureCount := next.2, Status := status,
    ResponseTime := probe.responseTime, LastChecked := env.nowChecked }

/-- What one call of `checkMonitor` leaves behind: the monitor, the throttle map, the
collaborator calls in order, the returned error, and whether the call did not return
because `SendNotification` panicked (nothing recovers the panic, so the cycle ends at
the call of line 555). -/
structure CycleResult where
  monitor : Monitor
  lastNotified : ThrottleMap
  events : List Event
  ret : Option String
  panicked : Bool
  deriving DecidableEq, Repr

/-- The method `Scheduler.checkMonitor`. -/
def checkMonitor (env : CycleEnv) (lastNotifiedMap : ThrottleMap) (monitor0 : Monitor) :
    CycleResult :=
  let monitor := defaultPending monitor0
  let previousStatus := monitor.Status
  let credEvents : List Event :=
    if monitor.CredentialID = "" then [] else [Event.getCredential monitor.CredentialID]
  if credentialError env monitor then
    -- lines 325-338: only `ResponseCode` and `FailureCount` are written; the block
    -- guarded by `!credentialError` (lines 345-591) is skipped
    { monitor := credentialFailure monitor, lastNotified := lastNotifiedMap,
      events := credEvents, ret := none, panicked := false }
  else
    let probe := runProbe env monitor (resolveCredential env monitor)
    let monitor := applyOutcome env monitor probe
    let status := monitor.Status
    let events := credEvents ++ probe.events ++ [Event.getNotificationMethods monitor.ProfileID]
    match env.methods with
    | .err e =>
      -- lines 507-510: early return
      { monitor := monitor, lastNotified := lastNotifiedMap, events := events, ret := some e,
        panicked := false }
    | .ok methods =>
      let decision := notifyDecision env lastNotifiedMap monitor.ID previousStatus status
        monitor.FailureCount
      let sendEvents : List Event :=
        if decision.1 then [Event.sendNotification monitor status probe.message methods] else []
      let logEntry : Log :=
        { ID := env.logID, MonitorID := monitor.ID, Status := status,
          Message := probe.message, CreatedAt := env.nowLog }
      -- a panic of `SendNotification` unwinds the cycle before lines 567 and 584
      let persistEvents : List Event :=
        if decision.1 && env.sendPanics then []
        else [Event.updateMonitor monitor, Event.createLog logEntry]
      { monitor := monitor, lastNotified := decision.2,
        events := events ++ sendEvents ++ persistEvents,
        ret := none, panicked := decision.1 && env.sendPanics }

/-- Consecutive check cycles of one monitor (the calls of `checkMonitor` made by
`runMonitor`), one environment per cycle, threading the monitor and the throttle map. -/
def runCycles : List CycleEnv → ThrottleMap → Monitor → Monitor × ThrottleMap
  | [], tm, m => (m, tm)
  | env :: rest, tm, m =>
    runCycles rest (checkMonitor env tm m).lastNotified (checkMonitor env tm m).monitor

/-- The raw state of a cycle: the local `status` when the probe is over and the
status-change logic starts (line 437). -/
def rawState (env : CycleEnv) (monitor : Monitor) : String :=
  (runProbe env (defaultPending monitor)
    (resolveCredential env (defaultPending monitor))).status

/-- Whether the cycle called `NotificationService.SendNotification`. -/
def CycleResult.notified (r : CycleResult) : Bool :=
  r.events.any Event.isSend

/-- Whether the cycle called `SendNotification` with the given status. -/
def CycleResult.notifiedWith (r : CycleResult) (status : String) : Bool :=
  r.events.any (Event.isSendWith status)

/-- The response code the executor delivered, when the probe reached the executor and
the executor answered without an error: the `code` of line 350 on the curl path, the
`resp.StatusCode` of line 412 on the HTTP path. -/
def probeCode (env : CycleEnv) (monitor : Monitor) : Option Int :=
  if monitor.RequestType = "curl" then
    match env.curl with
    | .err _ => none
    | .ok (code, _) => some code
  else
    match env.newRequest with
    | some _ => none
    | none =>
      match env.clientDo with
      | .err _ => none
      | .ok resp => some resp.StatusCode

/-- A cycle whose probe returns a 2xx code: the credential lookup does not fail and the
executor delivers a code in [200,300). -/
def SuccessCycle (env : CycleEnv) (monitor : Monitor) : Prop :=
  credentialError env monitor = false ∧
    ∃ c : Int, probeCode env monitor = some c ∧ 200 ≤ c ∧ c < 300

/-- A failing cycle in which the pending-too-long guard does not fire: no credential
error, raw state down or unauthorized, and the previous status is not pending or
`LastChecked` plus the guard duration is not before the current time. -/
def FailingCycle (env : CycleEnv) (monitor : Monitor) : Prop :=
  credentialError env monitor = false ∧
    (rawState env monitor = "down" ∨ rawState env monitor = "unauthorized") ∧
    (previousStatus monitor ≠ "pending" ∨
      ¬ (monitor.LastChecked + guardDuration monitor.CheckInterval < env.nowGuard))

/-- Every cycle of a run satisfies `P` at the monitor it starts from. -/
def RunAll (P : CycleEnv → Monitor → Prop) : List CycleEnv → ThrottleMap → Monitor → Prop
  | [], _, _ => True
  | env :: rest, tm, m =>
    P env m ∧ RunAll P rest (checkMonitor env tm m).lastNotified (checkMonitor env tm m).monitor

/-! ## The live set (`Scheduler.monitors`, `scheduler.go` 49-58, 89-293)

The slice of monitor pointers is a list of monitors; the steps below run without
interleaving of other goroutines. -/

/-- The method `Scheduler.RemoveMonitor`: the first monitor with the ID is cut out of
the slice and the loop breaks. -/
def RemoveMonitor : List Monitor → String → List Monitor
  | [], _ => []
  | m :: rest, monitorID =>
    if m.ID = monitorID then rest else m :: RemoveMonitor rest monitorID

/-- What one step of `runMonitor` (the immediate first step, lines 243-255, or one tick,
lines 268-280) leaves behind. -/
structure RunnerStep where
  /-- the slice `s.monitors` afterwards -/
  monitors : List Monitor
  /-- the check cycle that was performed, if any -/
  cycle : Option CycleResult
  /-- whether the runner goes on to the next tick (`false`: it returned) -/
  running : Bool
  deriving DecidableEq, Repr

/-- One step of `Scheduler.runMonitor`; `found` is the answer of `verifyMonitorExists`.
The slice holds pointers, so the entry of the checked monitor shows the cycle's writes. -/
def runMonitorStep (found : Bool) (env : CycleEnv) (lastNotifiedMap : ThrottleMap)
    (monitors : List Monitor) (monitor : Monitor) : RunnerStep :=
  if found then
    { monitors := monitors.map (fun m =>
        if m.ID = monitor.ID then (checkMonitor env lastNotifiedMap monitor).monitor else m),
      cycle := some (checkMonitor env lastNotifiedMap monitor),
      running := true }
  else
    { monitors := RemoveMonitor monitors monitor.ID, cycle := none, running := false }

/-- The order in which a Go `range` over a map visits the keys: some permutation of
them, not specified by the language. -/
structure MapOrder where
  order : List String → List String
  perm : ∀ l : List String, (order l).Perm l

/-- The keys of a map filled by `m[x.ID] = x` for every `x` of the list. -/
def mapKeys (monitors : List Monitor) : List String :=
  (monitors.map Monitor.ID).dedup

/-- The value of a map filled by `m[x.ID] = x` for every `x` of the list, in list
order: the last assignment to a key stays. -/
def mapGet (monitors : List Monitor) (id : String) : Option Monitor :=
  monitors.reverse.find? (fun x => x.ID == id)

/-- Lines 143-153: a monitor that is new to the scheduler gets a check interval of 60
when its own is below 10, and the status pending when its own is empty. -/
def prepareNew (monitor : Monitor) : Monitor :=
  defaultPending
    (if monitor.CheckInterval < 10 then { monitor with CheckInterval := 60 } else monitor)

/-- Lines 140-161: `monitorsToAdd`, the active repository monitors whose ID is not a key
of `existingMonitors`. -/
def monitorsToAdd (ord : MapOrder) (monitors live : List Monitor) : List Monitor :=
  (ord.order (mapKeys monitors)).filterMap (fun id =>
    match mapGet monitors id with
    | none => none
    | some monitor =>
      if live.any (fun x => x.ID == id) then none
      else if (prepareNew monitor).IsActive then some (prepareNew monitor)
      else none)

/-- Lines 163-181: `monitorsToRemove`, the keys of `existingMonitors` that are not keys
of `dbMonitors`.  (The forced `DELETE` of lines 170-179 acts on the database only.) -/
def monitorsToRemove (ord : MapOrder) (monitors live : List Monitor) : List String :=
  (ord.order (mapKeys live)).filter (fun id => !(monitors.any (fun x => x.ID == id)))

/-- Lines 186-198: every entry whose ID is listed is cut out of the slice. -/
def removeListed (live : List Monitor) (ids : List String) : List Monitor :=
  ids.foldl (fun acc id => acc.filter (fun m => m.ID != id)) live

/-- What `reloadMonitors` leaves behind. -/
structure ReloadResult where
  /-- the slice `s.monitors` afterwards -/
  monitors : List Monitor
  /-- the monitors for which a `runMonitor` goroutine was started -/
  started : List Monitor
  deriving DecidableEq, Repr

/-- Lines 200-221: a monitor to add joins the slice and gets a runner unless its ID is
already in the slice. -/
def addListed : List Monitor → ReloadResult → ReloadResult
  | [], acc => acc
  | monitor :: rest, acc =>
    if acc.monitors.any (fun m => m.ID == monitor.ID) then addListed rest acc
    else
      addListed rest
        { monitors := acc.monitors ++ [monitor], started := acc.started ++ [monitor] }

/-- The method `Scheduler.reloadMonitors`; `repo` is the answer of
`s.monitorRepo.GetAllMonitors()`, and the two map iterations have their own orders. -/
def reloadMonitors (ordNew ordOld : MapOrder) (repo : Answer (List Monitor))
    (live : List Monitor) : ReloadResult :=
  match repo with
  | .err _ => { monitors := live, started := [] }
  | .ok monitors =>
    if monitors.length = 0 then { monitors := [], started := [] }
    else
      addListed (monitorsToAdd ordNew monitors live)
        { monitors := removeListed live (monitorsToRemove ordOld monitors live),
          started := [] }

/-- The map order that visits the keys in the order of their first assignment. -/
def insertionOrder : MapOrder :=
  { order := fun l => l, perm := fun l => List.Perm.refl l }

/-! ## Notification dispatch (`services/notification.go`) -/

/-- A value stored in the `map[string]interface{}` that `json.Unmarshal` fills: its
dynamic type with the payload the dispatcher reads (of a `float64` the integer part that
`int(x)` takes; the contents of arrays and objects are never read). -/
inductive JsonValue where
  | null
  | bool (b : Bool)
  | float64 (intPart : Int)
  | string (s : String)
  | array
  | object
  deriving DecidableEq, Repr

/-- The local `config` after a successful `json.Unmarshal`: `none` is the nil map that
the JSON text `null` leaves. -/
abbrev ConfigMap := Option (List (String × JsonValue))

/-- The expression `config[key].(string)`: `none` is the run-time panic of the type
assertion (key absent, nil map, or a value of another type). -/
def assertString (config : ConfigMap) (key : String) : Option String :=
  match config with
  | none => none
  | some kvs =>
    match kvs.lookup key with
    | some (JsonValue.string s) => some s
    | _ => none

/-- The expression `config[key].(float64)`, `none` being the panic. -/
def assertFloat64 (config : ConfigMap) (key : String) : Option Int :=
  match config with
  | none => none
  | some kvs =>
    match kvs.lookup key with
    | some (JsonValue.float64 x) => some x
    | _ => none

/-- What the notification service meets outside itself during one call. -/
structure NotifyEnv where
  /-- the answer of `json.Unmarshal([]byte(method.Config), &config)` for a config text -/
  unmarshal : String → Answer ConfigMap
  /-- the error of `smtp.SendMail(addr, auth, from, to, msg)`, by address, sender and
  recipient -/
  sendMail : String → String → String → Option String
  /-- the answer of `http.Post(webhookURL, ...)`, by channel and URL: the error or the
  response status code -/
  post : String → String → Answer Int

/-- How a call of `SendEmail`, `SendSlack` or `SendTeams` ends. -/
inductive Delivered where
  | ok
  | err (e : String)
  | panic
  deriving DecidableEq, Repr

/-- The method `NotificationService.SendEmail` (lines 105-126; the texts of subject and
body do not influence how the call ends). -/
def SendEmail (env : NotifyEnv) (config : ConfigMap) : Delivered :=
  match assertString config "smtp_host" with
  | none => Delivered.panic
  | some smtpHost =>
    match assertFloat64 config "smtp_port" with
    | none => Delivered.panic
    | some smtpPort =>
      match assertString config "smtp_email" with
      | none => Delivered.panic
      | some smtpEmail =>
        match assertString config "smtp_password" with
        | none => Delivered.panic
        | some _ =>
          match assertString config "recipient_email" with
          | none => Delivered.panic
          | some recipientEmail =>
            match env.sendMail (smtpHost ++ ":" ++ toString smtpPort) smtpEmail
                recipientEmail with
            | none => Delivered.ok
            | some e => Delivered.err e

/-- The tail shared by `SendSlack` and `SendTeams`: post the payload and accept status
200 only. -/
def postWebhook (env : NotifyEnv) (channel apiName webhookURL : String) : Delivered :=
  match env.post channel webhookURL with
  | .err e => Delivered.err e
  | .ok statusCode =>
    if statusCode ≠ 200 then
      Delivered.err (apiName ++ " API returned status code: " ++ toString statusCode)
    else Delivered.ok

/-- The method `NotificationService.SendSlack`. -/
def SendSlack (env : NotifyEnv) (config : ConfigMap) : Delivered :=
  match assertString config "webhook_url" with
  | none => Delivered.panic
  | some webhookURL =>
    match assertString config "channel" with
    | none => Delivered.panic
    | some _ => postWebhook env "slack" "Slack" webhookURL

/-- The method `NotificationService.SendTeams`. -/
def SendTeams (env : NotifyEnv) (config : ConfigMap) : Delivered :=
  match assertString config "webhook_url" with
  | none => Delivered.panic
  | some webhookURL => postWebhook env "teams" "Teams" webhookURL

/-- The `switch method.Type` of `SendNotification`: the delivery made for a type,
`none` for a type without a case. -/
def deliver (env : NotifyEnv) (methodType : String) (config : ConfigMap) : Option Delivered :=
  if methodType = "email" then some (SendEmail env config)
  else if methodType = "slack" then some (SendSlack env config)
  else if methodType = "teams" then some (SendTeams env config)
  else none

/-- What the loop of `SendNotification` did with one method, when it did something. -/
inductive SendStep where
  | parseError (method : NotificationMethod) (e : String)
  | attempt (method : NotificationMethod) (result : Delivered)
  deriving DecidableEq, Repr

/-- The locals of `SendNotification` inside the loop, with the steps made so far. -/
structure SendState where
  errs : List String
  notificationSent : List String
  steps : List SendStep
  deriving DecidableEq, Repr

/-- How a call of `SendNotification` ends: it returns its error (`none` is nil), or a
type assertion panics. -/
inductive SendOutcome where
  | returned (err : Option String)
  | panicked
  deriving DecidableEq, Repr

/-- What one call of `SendNotification` did and how it ended. -/
structure SendResult where
  steps : List SendStep
  outcome : SendOutcome
  deriving DecidableEq, Repr

/-- The loop of `SendNotification` (lines 43-73) followed by the return (lines 75-78). -/
def sendLoop (env : NotifyEnv) : List NotificationMethod → SendState → SendResult
  | [], st =>
    { steps := st.steps,
      outcome := SendOutcome.returned
        (if st.errs.length > 0 then
          some ("notification errors: [" ++ " ".intercalate st.errs ++ "]")
        else none) }
  | method :: rest, st =>
    if method.Type_ ∈ st.notificationSent then sendLoop env rest st
    else
      match env.unmarshal method.Config with
      | .err e =>
        sendLoop env rest
          { st with
            errs := st.errs ++ ["config parse error for " ++ method.Type_ ++ ": " ++ e],
            steps := st.steps ++ [SendStep.parseError method e] }
      | .ok config =>
        match deliver env method.Type_ config with
        | none => sendLoop env rest st
        | some Delivered.panic =>
          { steps := st.steps ++ [SendStep.attempt method Delivered.panic],
            outcome := SendOutcome.panicked }
        | some Delivered.ok =>
          sendLoop env rest
            { errs := st.errs,
              notificationSent := method.Type_ :: st.notificationSent,
              steps := st.steps ++ [SendStep.attempt method Delivered.ok] }
        | some (Delivered.err e) =>
          sendLoop env rest
            { errs := st.errs ++ [method.Type_ ++ " error: " ++ e],
              notificationSent := method.Type_ :: st.notificationSent,
              steps := st.steps ++ [SendStep.attempt method (Delivered.err e)] }

/-- The method `NotificationService.SendNotification` for the service's `methods`. -/
def SendNotification (env : NotifyEnv) (methods : List NotificationMethod) : SendResult :=
  sendLoop env methods { errs := [], notificationSent := [], steps := [] }

/-- The methods handed to `SendEmail`, `SendSlack` or `SendTeams`, in order. -/
def attemptsOf : List SendStep → List NotificationMethod
  | [] => []
  | SendStep.attempt method _ :: rest => method :: attemptsOf rest
  | SendStep.parseError _ _ :: rest => attemptsOf rest

/-- Whether the step appended to `errs`: a config parse error or a delivery error. -/
def SendStep.isFailure : SendStep → Bool
  | .parseError _ _ => true
  | .attempt _ (Delivered.err _) => true
  | .attempt _ _ => false

/-- Whether the config of the method parses. -/
def parses (env : NotifyEnv) (method : NotificationMethod) : Bool :=
  match env.unmarshal method.Config with
  | .ok _ => true
  | .err _ => false

/-- Whether `SendNotification` has a case for the method type. -/
def deliverable (methodType : String) : Bool :=
  methodType = "email" ∨ methodType = "slack" ∨ methodType = "teams"

/-- The method `a` is, among `methods`, the first of its type whose config parses. -/
def FirstParsable (env : NotifyEnv) (methods : List NotificationMethod)
    (a : NotificationMethod) : Prop :=
  ∃ pre post, methods = pre ++ a :: post ∧ parses env a = true ∧
    ∀ b ∈ pre, b.Type_ = a.Type_ → parses env b = false

/-- The loop dealt with method `b`: a delivery of its type was attempted, or its config
failed to parse and the error was recorded, or its config parses and its type has no
case in the `switch`. -/
def Covered (env : NotifyEnv) (steps : List SendStep) (b : NotificationMethod) : Prop :=
  (∃ a ∈ attemptsOf steps, a.Type_ = b.Type_) ∨
  (∃ e, SendStep.parseError b e ∈ steps) ∨
  (parses env b = true ∧ deliverable b.Type_ = false)

/-- The loop invariant of `SendNotification` after the methods `done`. -/
structure SendInv (env : NotifyEnv) (done : List NotificationMethod) (st : SendState) :
    Prop where
  nodup : ((attemptsOf st.steps).map NotificationMethod.Type_).Nodup
  sent : ∀ t, t ∈ st.notificationSent ↔ t ∈ (attemptsOf st.steps).map NotificationMethod.Type_
  first : ∀ a ∈ attemptsOf st.steps, FirstParsable env done a
  recorded : ∀ b e, SendStep.parseError b e ∈ st.steps → parses env b = false
  errs : st.errs.length > 0 ↔ ∃ s ∈ st.steps, s.isFailure = true
  covered : ∀ b ∈ done, Covered env st.steps b

/-- What holds of a finished call of `SendNotification` on `methods`. -/
structure SendFinal (env : NotifyEnv) (methods : List NotificationMethod) (r : SendResult) :
    Prop where
  nodup : ((attemptsOf r.steps).map NotificationMethod.Type_).Nodup
  first : ∀ a ∈ attemptsOf r.steps, FirstParsable env methods a
  errs : ∀ e, r.outcome = SendOutcome.returned e →
    (e ≠ none ↔ ∃ s ∈ r.steps, s.isFailure = true)
  covered : ∀ e, r.outcome = SendOutcome.returned e → ∀ b ∈ methods, Covered env r.steps b

/-! ## Status line of the curl output (`services/curl_service.go` 208-262)

Go strings are read as lists of characters here. -/

/-- The newline character, the separator of `strings.Split(output, "\n")`. -/
def newline : Char := Char.ofNat 10

/-- The space character, the separator of `strings.Split(line, " ")`. -/
def space : Char := Char.ofNat 32

/-- Go `strings.Split(s, sep)` for a separator of one character. -/
def stringsSplit (sep : Char) : List Char → List (List Char)
  | [] => [[]]
  | c :: cs =>
    if c = sep then [] :: stringsSplit sep cs
    else
      match stringsSplit sep cs with
      | [] => [[c]]
      | part :: parts => (c :: part) :: parts

/-- The white space that `fmt` scanning skips (the table `space` of `fmt/scan.go`). -/
def isSpace (c : Char) : Bool :=
  (9 ≤ c.toNat ∧ c.toNat ≤ 13) ∨ c.toNat = 32 ∨ c.toNat = 133 ∨ c.toNat = 160 ∨
  c.toNat = 5760 ∨ (8192 ≤ c.toNat ∧ c.toNat ≤ 8202) ∨ (8232 ≤ c.toNat ∧ c.toNat ≤ 8233) ∨
  c.toNat = 8239 ∨ c.toNat = 8287 ∨ c.toNat = 12288

/-- The characters `0` to `9`, the digits that the verb `%d` accepts. -/
def isDecimalDigit (c : Char) : Bool :=
  48 ≤ c.toNat ∧ c.toNat ≤ 57

/-- The number that a run of decimal digits denotes. -/
def digitsValue (ds : List Char) : Nat :=
  ds.foldl (fun acc c => 10 * acc + (c.toNat - 48)) 0

/-- The call `fmt.Sscanf(tok, "%d", &statusCode)` on a token without newline: leading
white space is skipped, a sign is accepted, at least one digit is needed, what follows
the digits is left unread, and `strconv.ParseInt` refuses a number outside 64 bits.
`none` is the error, which leaves `statusCode` as it was. -/
def scanInt (tok : List Char) : Option Int :=
  let s := tok.dropWhile isSpace
  let neg : Bool := s.head? = some '-'
  let s :=
    match s with
    | '+' :: r => r
    | '-' :: r => r
    | _ => s
  let ds := s.takeWhile isDecimalDigit
  if ds = [] then none
  else
    let i : Int := if neg then -(digitsValue ds : Int) else (digitsValue ds : Int)
    if -(2 : Int) ^ 63 ≤ i ∧ i < (2 : Int) ^ 63 then some i else none

/-- Lines 213-226: the status code taken from the first line that starts with `HTTP/`
and has at least two space-separated parts; 0 when there is none or the scan fails. -/
def findStatusCode : List (List Char) → Int
  | [] => 0
  | line :: rest =>
    if "HTTP/".toList.isPrefixOf line then
      match stringsSplit space line with
      | _ :: second :: _ => (scanInt second).getD 0
      | _ => findStatusCode rest
    else findStatusCode rest

/-- Lines 234-255: the message for a status code. -/
def statusMessage (url : String) (statusCode : Int) : String :=
  if statusCode ≥ 200 ∧ statusCode < 300 then
    url ++ " returned status code " ++ toString statusCode ++ " (Success)"
  else if statusCode = 401 then url ++ " returned status code 401 (Unauthorized)"
  else if statusCode = 403 then url ++ " returned status code 403 (Forbidden)"
  else if statusCode = 404 then url ++ " returned status code 404 (Not Found)"
  else if statusCode = 500 then url ++ " returned status code 500 (Internal Server Error)"
  else if statusCode = 502 then url ++ " returned status code 502 (Bad Gateway)"
  else if statusCode = 503 then url ++ " returned status code 503 (Service Unavailable)"
  else if statusCode = 504 then url ++ " returned status code 504 (Gateway Timeout)"
  else url ++ " returned status code " ++ toString statusCode

/-- Lines 208-261 of `CurlService.executeCurlCommand`: from the captured output of a
curl run that exited without error to the returned `(code, message)` or error. -/
def parseCurlOutput (url output : String) : Answer (Int × String) :=
  if findStatusCode (stringsSplit newline output.toList) = 0 then
    Answer.err "failed to parse status code"
  else
    Answer.ok (findStatusCode (stringsSplit newline output.toList),
      statusMessage url (findStatusCode (stringsSplit newline output.toList)))

/-- The text of a decimal integer: an optional minus sign and the digits. -/
def numeral (neg : Bool) (digits : List Char) : List Char :=
  if neg then '-' :: digits else digits

/-- The integer that `numeral neg digits` denotes. -/
def numeralValue (neg : Bool) (digits : List Char) : Int :=
  if neg then -(digitsValue digits : Int) else (digitsValue digits : Int)

/-- The values that `Status` takes: the four of the status logic and the classifier's
"redirect". -/
def KnownStatus (status : String) : Prop :=
  status = "pending" ∨ status = "up" ∨ status = "down" ∨ status = "unauthorized" ∨
    status = "redirect"

/-- The deliveries that the `SendNotification` calls of a cycle attempt: each call runs
on the methods it was created with (lines 513-527 copy every fetched method, field by
field, into the service). -/
def cycleAttempts (nenv : NotifyEnv) : List Event → List NotificationMethod
  | [] => []
  | Event.sendNotification _ _ _ methods :: rest =>
    attemptsOf (SendNotification nenv methods).steps ++ cycleAttempts nenv rest
  | _ :: rest => cycleAttempts nenv rest

/-- The requests handed to `http.Client.Do` in a list of collaborator calls. -/
def requestsOf : List Event → List HttpRequest
  | [] => []
  | Event.clientDo req :: rest => req :: requestsOf rest
  | _ :: rest => requestsOf rest

/-- An access to the shared notification-throttle state of lines 19-24: a call on
`notifyMutex`, or a read or write of `lastNotifiedMap`. -/
inductive ThrottleOp where
  | lock
  | unlock
  | readMap (monitorID : String)
  | writeMap (monitorID : String) (t : Int)
  deriving DecidableEq, Repr

/-- Lines 529-550 as the accesses to the shared throttle state that they make, in
program order. -/
def throttleOps (env : CycleEnv) (lastNotifiedMap : ThrottleMap) (monitorID : String)
    (previousStatus status : String) (failureCount : Int) : List ThrottleOp :=
  if status ≠ previousStatus then []
  else if status = "down" then
    match lastNotifiedMap.get monitorID with
    | none => [ThrottleOp.readMap monitorID, ThrottleOp.writeMap monitorID env.nowStamp]
    | some lastNotified =>
      if env.nowSince - lastNotified > calculateNotificationInterval failureCount then
        [ThrottleOp.readMap monitorID, ThrottleOp.writeMap monitorID env.nowStamp]
      else [ThrottleOp.readMap monitorID]
  else []

/-! ## The reference classifier and the cycle outcome by classifier -/

/-- The reference classifier: up for a code from 200 to 299, unauthorized for 401, down
otherwise.  It is also the method `MonitorService.getStatusFromCode` of
`services/monitor.go` (lines 218-227). -/
def referenceClassifier (code : Int) : String :=
  if code ≥ 200 ∧ code < 300 then "up"
  else if code = 401 then "unauthorized"
  else "down"

/-- The monitor after a check cycle without credential error whose executor delivered
`code`, with the raw state computed by `classify`: on the curl path a code from 200 to
299 is "up" whatever the classifier says (lines 359-366), on the HTTP path the raw state
is the classification (line 424); then lines 437-483 apply. -/
def outcomeWith (classify : Int → String) (env : CycleEnv) (monitor : Monitor) (code : Int) :
    Monitor :=
  applyOutcome env (defaultPending monitor)
    { runProbe env (defaultPending monitor)
        (resolveCredential env (defaultPending monitor)) with
      status :=
        if monitor.RequestType = "curl" ∧ code ≥ 200 ∧ code < 300 then "up"
        else classify code }

/-! ## Monitor creation (`controllers/monitor_controller.go` 28-125,
`repository/monitor.go` 21-43) -/

/-- The text `--form`, which marks a form field in a curl body. -/
def formSep : List Char := "--form".toList

/-- Whether the text holds `--form` (`strings.Contains(s, "--form")`). -/
def containsForm : List Char → Bool
  | [] => false
  | c :: cs => formSep.isPrefixOf (c :: cs) || containsForm cs

/-- What `CreateMonitor` meets outside itself. -/
structure CreateEnv where
  /-- the error answer of the credential check of lines 60-75, if it fails -/
  credentialCheck : Option String
  /-- the error answer of the header check of lines 78-91, if it fails -/
  headersCheck : Option String
  /-- whether `json.Unmarshal` accepts the body as an object (line 102) -/
  bodyIsObject : Bool
  /-- the value of `uuid.New().String()` -/
  uuid : String
  /-- the reading of `time.Now()` of line 111 -/
  nowCreated : Int
  /-- the reading of `time.Now()` of line 112 -/
  nowUpdated : Int
  /-- the ID of the active profile, or of the default profile made for the monitor -/
  profileID : String
  /-- the error of the repository's `CreateMonitor`, if any -/
  createErr : Option String

/-- The table `validMethods` of lines 44-52. -/
def validMethod (method : String) : Bool :=
  method ∈ ["GET", "POST", "PUT", "DELETE", "HEAD", "OPTIONS", "PATCH"]

/-- Lines 110-115 and line 41 of the repository: the fields that creation sets.  Every
other field, `LastChecked` among them, stays as the request was bound. -/
def stampCreated (env : CreateEnv) (monitor : Monitor) : Monitor :=
  { monitor with
    ID := env.uuid, CreatedAt := env.nowCreated, UpdatedAt := env.nowUpdated,
    Status := "pending", IsActive := true, FailureCount := 0, ProfileID := env.profileID }

/-- Lines 39-41: a request without method is a GET. -/
def defaultMethod (request : Monitor) : Monitor :=
  if request.Method = "" then { request with Method := "GET" } else request

/-- The handler `MonitorController.CreateMonitor`; `request` is the monitor as
`ShouldBindJSON` bound it (a field the request does not supply has its zero value), the
answer is the stored monitor or the error message. -/
def CreateMonitor (env : CreateEnv) (request : Monitor) : Answer Monitor :=
  let monitor := defaultMethod request
  if validMethod monitor.Method = false then Answer.err "Invalid HTTP method"
  else
    match (if monitor.CredentialID ≠ "" then env.credentialCheck else none) with
    | some e => Answer.err e
    | none =>
      match (if monitor.Headers ≠ "" then env.headersCheck else none) with
      | some e => Answer.err e
      | none =>
        if (monitor.Method = "POST" ∨ monitor.Method = "PUT") ∧ monitor.Body ≠ "" ∧
            ¬ (monitor.RequestType = "curl" ∧ containsForm monitor.Body.toList = true) ∧
            env.bodyIsObject = false then
          Answer.err "Invalid body format"
        else
          match env.createErr with
          | some _ => Answer.err "Failed to create monitor"
          | none => Answer.ok (stampCreated env monitor)

/-! ## Form data of a curl body (`services/curl_service.go` 280-317) -/

/-- Go `strings.Split(formStr, "--form")`: the text is cut at every `--form`, found from
left to right; a text without `--form` is one part. -/
def splitForm : List Char → List (List Char)
  | [] => [[]]
  | '-' :: '-' :: 'f' :: 'o' :: 'r' :: 'm' :: rest => [] :: splitForm rest
  | c :: cs =>
    match splitForm cs with
    | [] => [[c]]
    | part :: parts => (c :: part) :: parts

/-- Go `strings.TrimFunc`: the characters that satisfy `p` are dropped at both ends. -/
def trimWith (p : Char → Bool) (s : List Char) : List Char :=
  ((s.dropWhile p).reverse.dropWhile p).reverse

/-- Go `strings.TrimSpace`; `unicode.IsSpace` holds of the characters of `isSpace`. -/
def trimSpace (s : List Char) : List Char :=
  trimWith isSpace s

/-- The single quote, character 39. -/
def singleQuote : Char := Char.ofNat 39

/-- The double quote, character 34. -/
def doubleQuote : Char := Char.ofNat 34

/-- The cutset of `strings.Trim(part, ...)` in lines 299, 308 and 309: both quotes. -/
def isQuote (c : Char) : Bool :=
  c = singleQuote ∨ c = doubleQuote

/-- Go `strings.Trim(s, cutset)` with the cutset of both quotes. -/
def trimQuotes (s : List Char) : List Char :=
  trimWith isQuote s

/-- Go `strings.Index(s, c)` for a text `c` of one character: the position of the first
`c`, or -1. -/
def stringsIndex (c : Char) (s : List Char) : Int :=
  if c ∈ s then (s.indexOf c : Nat) else -1

/-- The Go map `map[string]string` as a keyed list without repeated keys, in the order
in which the keys were first set. -/
abbrev FormMap := List (List Char × List Char)

/-- The assignment `formData[key] = value`. -/
def formSet : FormMap → List Char → List Char → FormMap
  | [], key, value => [(key, value)]
  | (k, v) :: rest, key, value =>
    if k = key then (k, value) :: rest else (k, v) :: formSet rest key value

/-- The body of the loop of lines 289-314 for one part. -/
def parseFormPart (formData : FormMap) (part : List Char) : FormMap :=
  let part := trimSpace part
  if part = [] then formData
  else
    let part := trimSpace (trimQuotes part)
    let idx := stringsIndex '=' part
    if idx > 0 then
      formSet formData (trimQuotes (trimSpace (part.take idx.toNat)))
        (trimQuotes (trimSpace (part.drop (idx.toNat + 1))))
    else formData

/-- The function `parseFormData`. -/
def parseFormData (formStr : List Char) : FormMap :=
  (splitForm formStr).foldl parseFormPart []

/-- One field of the documented form encoding: `--form 'key=value'`. -/
def formField (key value : List Char) : List Char :=
  formSep ++ space :: singleQuote :: ((key ++ '=' :: value) ++ [singleQuote])

/-- The documented form encoding (comment of line 280): the fields of the pairs in
order, with one space between two fields. -/
def formEncoding : List (List Char × List Char) → List Char
  | [] => []
  | [(key, value)] => formField key value
  | (key, value) :: rest => formField key value ++ space :: formEncoding rest

/-- A text without white space, quote, `=` and `--form`. -/
def plainText (s : List Char) : Bool :=
  s.all (fun c => !isSpace c && !isQuote c && c != '=') && !containsForm s

/-! ## Concrete inputs -/

/-- A monitor with every field empty or zero. -/
def blankMonitor : Monitor :=
  { ID := "", ProfileID := "", Name := "", Type_ := "", URL := "", Method := "",
    RequestType := "", Headers := "", Body := "", CredentialID := "", CheckInterval := 0,
    FailureThreshold := 0, FailureCount := 0, Timeout := 0, IsActive := false, Status := "",
    ResponseCode := 0, ResponseTime := 0, LastChecked := 0, CreatedAt := 0, UpdatedAt := 0,
    DBHost := "", DBPort := "", DBName := "", DBUsername := "", DBPassword := "",
    DBQuery := "", DBExpectedValue := "" }

/-- An HTTP monitor of profile `p1`, checked every 60 seconds, threshold 3, pending,
last checked at instant 1000 s. -/
def sampleMonitor : Monitor :=
  { blankMonitor with
    ID := "m1", ProfileID := "p1", Name := "api", Type_ := "http",
    URL := "http://example.test/health", Method := "GET", RequestType := "http",
    CheckInterval := 60, FailureThreshold := 3, Timeout := 10, IsActive := true,
    Status := "pending", LastChecked := 1000 * Second }

/-- A cycle at instant 1060 s in which `client.Do` answers with the given code, the
credential lookup fails if asked, and the profile has no notification method. -/
def envWithCode (code : Int) : CycleEnv :=
  { credential := Answer.err "record not found",
    curl := Answer.ok (code, "HTTP request successful"),
    newRequest := none, parsedHeaders := none,
    clientDo := Answer.ok { StatusCode := code, Status := "status" },
    elapsedMs := 12, nowGuard := 1060 * Second, nowChecked := 1060 * Second,
    nowSince := 1060 * Second, nowStamp := 1060 * Second, nowLog := 1060 * Second,
    methods := Answer.ok [], sendErr := none, sendPanics := false, updateErr := none,
    createLogErr := none,
    logID := "log-1" }

/-- The cycle of `envWithCode` moved to instant `t` seconds. -/
def envAt (t : Int) (code : Int) : CycleEnv :=
  { envWithCode code with
    nowGuard := t * Second, nowChecked := t * Second, nowSince := t * Second,
    nowStamp := t * Second, nowLog := t * Second }

/-- The sample monitor after it went down: count 3 at threshold 3. -/
def downMonitor : Monitor :=
  { sampleMonitor with Status := "down", FailureCount := 3 }

/-- The sample monitor, up, with threshold 1 and a credential that cannot be resolved. -/
def credMonitor : Monitor :=
  { sampleMonitor with Status := "up", FailureThreshold := 1, CredentialID := "c9" }

/-- The monitor `credMonitor` probed through the external process. -/
def credCurlMonitor : Monitor :=
  { credMonitor with RequestType := "curl" }

/-- The sample monitor as created and never checked: `LastChecked` is the zero instant. -/
def staleMonitor : Monitor :=
  { sampleMonitor with LastChecked := 0 }

/-- The sample monitor, up. -/
def upMonitor : Monitor :=
  { sampleMonitor with Status := "up" }

/-- The sample monitor, up, with the largest count a Go `int` holds. -/
def maxCountMonitor : Monitor :=
  { upMonitor with FailureCount := 9223372036854775807 }

/-- The sample monitor (pending, last checked at 1000 s) with a check interval of
4000000000 seconds. -/
def longIntervalMonitor : Monitor :=
  { sampleMonitor with CheckInterval := 4000000000 }

/-- The monitor `downMonitor` with a credential that cannot be resolved. -/
def credDownMonitor : Monitor :=
  { downMonitor with CredentialID := "c9" }

/-- A cycle at instant `t` seconds in which `client.Do` fails to connect. -/
def envConnError (t : Int) : CycleEnv :=
  { envAt t 0 with clientDo := Answer.err "connection refused" }

/-- A cycle like `envWithCode` in which the notification methods cannot be fetched. -/
def envNoMethods (code : Int) : CycleEnv :=
  { envWithCode code with methods := Answer.err "database is locked" }

/-- Three failing cycles one minute apart: a 500, a 404, a refused connection. -/
def failingRun : List CycleEnv :=
  [envAt 1060 500, envAt 1120 404, envConnError 1180]

/-- Three successful cycles one minute apart: 200, 204, 299. -/
def successRun : List CycleEnv :=
  [envAt 1060 200, envAt 1120 204, envAt 1180 299]

/-- The throttle map in which monitor `m1` was last notified at instant `t` seconds. -/
def notifiedAt (t : Int) : ThrottleMap :=
  [("m1", t * Second)]

/-- Whether the event is a call of `MonitorRepository.UpdateMonitor`. -/
def Event.isUpdate : Event → Bool
  | .updateMonitor _ => true
  | _ => false

/-- Whether the event is a call of `LogRepository.CreateLog`. -/
def Event.isCreateLog : Event → Bool
  | .createLog _ => true
  | _ => false

/-- The sample monitor, deactivated in storage. -/
def inactiveMonitor : Monitor :=
  { sampleMonitor with IsActive := false }

/-- A second monitor, active, with an empty status and a check interval of 5. -/
def secondMonitor : Monitor :=
  { sampleMonitor with ID := "m2", Name := "web", Status := "", CheckInterval := 5 }

/-- A third monitor, not active. -/
def thirdMonitor : Monitor :=
  { sampleMonitor with ID := "m3", Name := "db", IsActive := false }

/-- A fourth monitor, live in the scheduler and deleted from storage. -/
def fourthMonitor : Monitor :=
  { sampleMonitor with ID := "m4", Name := "old", Status := "up" }

/-- A complete email config. -/
def emailConfig : ConfigMap :=
  some [("smtp_host", JsonValue.string "mail.example.test"),
        ("smtp_port", JsonValue.float64 587),
        ("smtp_email", JsonValue.string "alerts@example.test"),
        ("smtp_password", JsonValue.string "secret"),
        ("recipient_email", JsonValue.string "ops@example.test")]

/-- A notification environment: the text `email.json` parses to `emailConfig`, a text
that starts with `https://` parses to a webhook config for that URL, `null` parses to
the nil map, every other text is a parse error; mail is accepted, and a webhook answers
503 when its URL ends in `/down` and 200 otherwise. -/
def sampleNotifyEnv : NotifyEnv :=
  { unmarshal := fun text =>
      if text = "email.json" then Answer.ok emailConfig
      else if text = "null" then Answer.ok none
      else if "https://".toList.isPrefixOf text.toList then
        Answer.ok (some [("webhook_url", JsonValue.string text),
                         ("channel", JsonValue.string "ops")])
      else Answer.err "invalid character",
    sendMail := fun _ _ _ => none,
    post := fun _ url =>
      if "/down".toList.isSuffixOf url.toList then Answer.ok 503 else Answer.ok 200 }

/-- A notification method of the given type and config text. -/
def methodOf (id methodType config : String) : NotificationMethod :=
  { ID := id, ProfileID := "p1", Type_ := methodType, Enabled := true, Config := config,
    CreatedAt := 0, UpdatedAt := 0 }

/-- An email method whose config does not parse. -/
def emailBroken : NotificationMethod := methodOf "n1" "email" "smtp_host=mail"

/-- An email method with a complete config. -/
def emailGood : NotificationMethod := methodOf "n2" "email" "email.json"

/-- A Slack method whose webhook answers 503. -/
def slackDown : NotificationMethod := methodOf "n3" "slack" "https://hooks.example.test/down"

/-- A Teams method whose webhook answers 200. -/
def teamsGood : NotificationMethod := methodOf "n4" "teams" "https://hooks.example.test/t"

/-- A second email method with a complete config. -/
def emailSecond : NotificationMethod := methodOf "n5" "email" "email.json"

/-- A blank credential of the given type and token, with header value `raw`. -/
def credentialOf (credType token : String) : Credential :=
  { ID := "c1", ProfileID := "p1", Name := "api token", Type_ := credType, Token := token,
    Username := "", Password := "", HeaderName := "Authorization", HeaderValue := "raw",
    ClientID := "", ClientSecret := "", RedirectURI := "", RefreshToken := "",
    TokenExpiry := 0, CreatedAt := 0, UpdatedAt := 0 }

/-- A curl output: the status line `HTTP/1.1 200 OK`, a header line and an empty line. -/
def sampleOutput : String :=
  String.mk ("HTTP/1.1 200 OK".toList ++ newline :: "Content-Type: text/plain".toList ++
    [newline])

/-- An email method whose config is the JSON text `null`. -/
def emailNull : NotificationMethod := methodOf "n6" "email" "null"

/-- An email method whose config is a JSON object without `smtp_host`. -/
def emailNoHost : NotificationMethod := methodOf "n7" "email" "https://hooks.example.test/e"

/-- A Slack method that was switched off. -/
def slackDisabled : NotificationMethod :=
  { methodOf "n8" "slack" "https://hooks.example.test/s" with Enabled := false }

/-- A cycle like `envWithCode` whose profile has the given notification methods. -/
def envWithMethods (code : Int) (methods : List NotificationMethod) : CycleEnv :=
  { envWithCode code with methods := Answer.ok methods }

/-- A POST monitor on the direct-HTTP path with a header and a JSON body (`\x7b\x7d`). -/
def postMonitor : Monitor :=
  { sampleMonitor with
    Method := "POST", Status := "up", Headers := "X-Token header", Body := "\x7b\x7d" }

/-- A cycle like `envWithCode 200` in which `Headers` parses to one header. -/
def envWithHeader : CycleEnv :=
  { envWithCode 200 with parsedHeaders := some [("X-Token", "abc")] }

/-- A creation in which every check passes. -/
def sampleCreateEnv : CreateEnv :=
  { credentialCheck := none, headersCheck := none, bodyIsObject := true, uuid := "m9",
    nowCreated := 2000 * Second, nowUpdated := 2000 * Second, profileID := "p1",
    createErr := none }

/-- A creation request without `last_checked`, which tries to set status and count. -/
def sampleRequest : Monitor :=
  { blankMonitor with
    Name := "shop", Type_ := "http", URL := "http://shop.example.test", Method := "GET",
    RequestType := "http", CheckInterval := 60, FailureThreshold := 3, Timeout := 10, Status := "up",
    FailureCount := 7 }

/-- A request like `sampleRequest` with a credential. -/
def credRequest : Monitor :=
  { sampleRequest with CredentialID := "c9" }

/-- Two form fields. -/
def samplePairs : List (List Char × List Char) :=
  [("user".toList, "bob".toList), ("id".toList, "7".toList)]

/-! ## Facts about 64-bit arithmetic -/

/-- An exact result inside the 64-bit range is not changed. -/
theorem wrapInt64_of_range (x : Int)
    (hlo : -9223372036854775808 ≤ x) (hhi : x < 9223372036854775808) :
    wrapInt64 x = x := by
  unfold wrapInt64
  omega

/-- The wrapped value lies in the 64-bit range. -/
theorem wrapInt64_range (x : Int) :
    -9223372036854775808 ≤ wrapInt64 x ∧ wrapInt64 x < 9223372036854775808 := by
  unfold wrapInt64
  omega

/-- Wrapping never raises an exact result that is not below the range. -/
theorem wrapInt64_le (x : Int) (hlo : -9223372036854775808 ≤ x) : wrapInt64 x ≤ x := by
  unfold wrapInt64
  omega

/-- The two 64-bit products of the guard duration give the wrapped exact product. -/
theorem guardDuration_eq_wrap (ci : Int) :
    guardDuration ci = wrapInt64 (ci * 3 * Second) := by
  unfold guardDuration wrapInt64 Second
  omega

/-- For a check interval up to 3074457345 (and not below -3074457345) the guard duration
is three check intervals in nanoseconds. -/
theorem guardDuration_exact (ci : Int)
    (hlo : -3074457345 ≤ ci) (hhi : ci ≤ 3074457345) :
    guardDuration ci = ci * 3 * Second := by
  rw [guardDuration_eq_wrap]
  apply wrapInt64_of_range <;> unfold Second <;> omega

/-- For a check interval not below -3074457345 the guard duration is at most three check
intervals in nanoseconds. -/
theorem guardDuration_le (ci : Int) (hlo : -3074457345 ≤ ci) :
    guardDuration ci ≤ ci * 3 * Second := by
  rw [guardDuration_eq_wrap]
  apply wrapInt64_le
  unfold Second
  omega

/-! ## Facts about one cycle used by several theorems -/

@[simp] theorem defaultPending_CredentialID (m : Monitor) :
    (defaultPending m).CredentialID = m.CredentialID := by
  unfold defaultPending; split <;> rfl

@[simp] theorem defaultPending_RequestType (m : Monitor) :
    (defaultPending m).RequestType = m.RequestType := by
  unfold defaultPending; split <;> rfl

@[simp] theorem defaultPending_FailureCount (m : Monitor) :
    (defaultPending m).FailureCount = m.FailureCount := by
  unfold defaultPending; split <;> rfl

@[simp] theorem defaultPending_FailureThreshold (m : Monitor) :
    (defaultPending m).FailureThreshold = m.FailureThreshold := by
  unfold defaultPending; split <;> rfl

@[simp] theorem defaultPending_LastChecked (m : Monitor) :
    (defaultPending m).LastChecked = m.LastChecked := by
  unfold defaultPending; split <;> rfl

@[simp] theorem defaultPending_CheckInterval (m : Monitor) :
    (defaultPending m).CheckInterval = m.CheckInterval := by
  unfold defaultPending; split <;> rfl

@[simp] theorem defaultPending_ID (m : Monitor) : (defaultPending m).ID = m.ID := by
  unfold defaultPending; split <;> rfl

@[simp] theorem defaultPending_ProfileID (m : Monitor) :
    (defaultPending m).ProfileID = m.ProfileID := by
  unfold defaultPending; split <;> rfl

@[simp] theorem credentialError_defaultPending (env : CycleEnv) (m : Monitor) :
    credentialError env (defaultPending m) = credentialError env m := by
  simp [credentialError]

@[simp] theorem applyOutcome_Status (env : CycleEnv) (m : Monitor) (p : Probe) :
    (applyOutcome env m p).Status =
      if pendingTooLong env m.Status m then "down"
      else (transition m.Status p.status m.FailureCount m.FailureThreshold).1 := rfl

@[simp] theorem applyOutcome_FailureCount (env : CycleEnv) (m : Monitor) (p : Probe) :
    (applyOutcome env m p).FailureCount =
      (transition m.Status p.status m.FailureCount m.FailureThreshold).2 := rfl

@[simp] theorem applyOutcome_FailureThreshold (env : CycleEnv) (m : Monitor) (p : Probe) :
    (applyOutcome env m p).FailureThreshold = m.FailureThreshold := rfl

@[simp] theorem applyOutcome_ID (env : CycleEnv) (m : Monitor) (p : Probe) :
    (applyOutcome env m p).ID = m.ID := rfl

/-- The shape of a cycle without credential error whose notification methods are
fetched: probe, outcome, notification decision, then the two writes. -/
theorem checkMonitor_ok (env : CycleEnv) (tm : ThrottleMap) (m : Monitor)
    (ms : List NotificationMethod)
    (hcred : credentialError env m = false) (hm : env.methods = Answer.ok ms) :
    checkMonitor env tm m =
      { monitor := applyOutcome env (defaultPending m)
          (runProbe env (defaultPending m) (resolveCredential env (defaultPending m))),
        lastNotified :=
          (notifyDecision env tm m.ID (previousStatus m)
            (checkMonitor env tm m).monitor.Status
            (checkMonitor env tm m).monitor.FailureCount).2,
        events :=
          (if m.CredentialID = "" then [] else [Event.getCredential m.CredentialID]) ++
          (runProbe env (defaultPending m) (resolveCredential env (defaultPending m))).events ++
          [Event.getNotificationMethods m.ProfileID] ++
          (if (notifyDecision env tm m.ID (previousStatus m)
                (checkMonitor env tm m).monitor.Status
                (checkMonitor env tm m).monitor.FailureCount).1
           then [Event.sendNotification (checkMonitor env tm m).monitor
                  (checkMonitor env tm m).monitor.Status
                  (runProbe env (defaultPending m)
                    (resolveCredential env (defaultPending m))).message ms]
           else []) ++
          (if (notifyDecision env tm m.ID (previousStatus m)
                (checkMonitor env tm m).monitor.Status
                (checkMonitor env tm m).monitor.FailureCount).1 && env.sendPanics
           then []
           else
            [Event.updateMonitor (checkMonitor env tm m).monitor,
             Event.createLog
               { ID := env.logID, MonitorID := m.ID,
                 Status := (checkMonitor env tm m).monitor.Status,
                 Message := (runProbe env (defaultPending m)
                   (resolveCredential env (defaultPending m))).message,
                 CreatedAt := env.nowLog }]),
        ret := none,
        panicked :=
          (notifyDecision env tm m.ID (previousStatus m)
            (checkMonitor env tm m).monitor.Status
            (checkMonitor env tm m).monitor.FailureCount).1 && env.sendPanics } := by
  unfold checkMonitor
  simp only [credentialError_defaultPending, hcred, hm]
  simp [previousStatus, applyOutcome]

/-- The monitor after a cycle without credential error, whether or not the
notification methods could be fetched. -/
theorem checkMonitor_monitor (env : CycleEnv) (tm : ThrottleMap) (m : Monitor)
    (hcred : credentialError env m = false) :
    (checkMonitor env tm m).monitor =
      applyOutcome env (defaultPending m)
        (runProbe env (defaultPending m) (resolveCredential env (defaultPending m))) := by
  unfold checkMonitor
  simp only [credentialError_defaultPending, hcred]
  cases env.methods <;> rfl

/-- Without a credential error the new `Status` is the outcome of the status-change
logic, overridden by the pending-too-long guard. -/
theorem checkMonitor_Status (env : CycleEnv) (tm : ThrottleMap) (m : Monitor)
    (h : credentialError env m = false) :
    (checkMonitor env tm m).monitor.Status =
      if previousStatus m = "pending" ∧
          m.LastChecked + guardDuration m.CheckInterval < env.nowGuard then "down"
      else (transition (previousStatus m) (rawState env m) m.FailureCount
        m.FailureThreshold).1 := by
  rw [checkMonitor_monitor env tm m h]
  simp [pendingTooLong, previousStatus, rawState]

/-- Without a credential error the new `FailureCount` is the one computed by the
status-change logic. -/
theorem checkMonitor_FailureCount (env : CycleEnv) (tm : ThrottleMap) (m : Monitor)
    (h : credentialError env m = false) :
    (checkMonitor env tm m).monitor.FailureCount =
      (transition (previousStatus m) (rawState env m) m.FailureCount
        m.FailureThreshold).2 := by
  rw [checkMonitor_monitor env tm m h]
  simp [previousStatus, rawState]

/-- With a credential error only `ResponseCode` and `FailureCount` are written, and no
collaborator other than the credential lookup is called. -/
theorem checkMonitor_credentialError (env : CycleEnv) (tm : ThrottleMap) (m : Monitor)
    (h : credentialError env m = true) :
    checkMonitor env tm m =
      { monitor := credentialFailure (defaultPending m),
        lastNotified := tm,
        events := [Event.getCredential m.CredentialID],
        ret := none, panicked := false } := by
  have hid : m.CredentialID ≠ "" := by
    intro h0
    simp [credentialError, h0] at h
  unfold checkMonitor
  simp [h, hid]

/-- The threshold is configuration: no cycle changes it. -/
theorem checkMonitor_FailureThreshold (env : CycleEnv) (tm : ThrottleMap) (m : Monitor) :
    (checkMonitor env tm m).monitor.FailureThreshold = m.FailureThreshold := by
  cases hcred : credentialError env m
  · rw [checkMonitor_monitor env tm m hcred]
    simp
  · rw [checkMonitor_credentialError env tm m hcred]
    simp [credentialFailure]

/-- The probe never calls `SendNotification`. -/
theorem runProbe_no_send (env : CycleEnv) (m : Monitor) (c : Option Credential) :
    (runProbe env m c).events.any Event.isSend = false := by
  unfold runProbe
  repeat' split
  all_goals rfl

/-- The probe never calls `SendNotification`, with any status. -/
theorem runProbe_no_sendWith (env : CycleEnv) (m : Monitor) (c : Option Credential)
    (st : String) :
    (runProbe env m c).events.any (Event.isSendWith st) = false := by
  unfold runProbe
  repeat' split
  all_goals rfl

/-- In a cycle without credential error whose notification methods are fetched,
`SendNotification` is called exactly when `shouldNotify` is set. -/
theorem checkMonitor_notified (env : CycleEnv) (tm : ThrottleMap) (m : Monitor)
    (ms : List NotificationMethod)
    (hcred : credentialError env m = false) (hm : env.methods = Answer.ok ms) :
    (checkMonitor env tm m).notified =
      (notifyDecision env tm m.ID (previousStatus m) (checkMonitor env tm m).monitor.Status
        (checkMonitor env tm m).monitor.FailureCount).1 := by
  generalize hd : (notifyDecision env tm m.ID (previousStatus m)
    (checkMonitor env tm m).monitor.Status (checkMonitor env tm m).monitor.FailureCount).1 = d
  unfold CycleResult.notified
  rw [checkMonitor_ok env tm m ms hcred hm]
  simp only [hd, List.any_append, runProbe_no_send]
  cases d <;> by_cases hid : m.CredentialID = "" <;> simp [hid, Event.isSend]

/-- When the executor delivered code `c`, the raw state is the classification of `c`
(the curl path's extra 2xx test agrees with it). -/
theorem rawState_of_probeCode (env : CycleEnv) (m : Monitor) (c : Int)
    (hcred : credentialError env m = false) (hc : probeCode env m = some c) :
    rawState env m = getStatusFromCode c := by
  unfold rawState runProbe
  unfold probeCode at hc
  unfold credentialError at hcred
  simp only [defaultPending_RequestType, defaultPending_CredentialID, resolveCredential]
  by_cases hr : m.RequestType = "curl"
  · simp only [hr, if_true] at hc ⊢
    cases hcurl : env.curl with
    | err e => simp [hcurl] at hc
    | ok a =>
      obtain ⟨code, msg⟩ := a
      simp only [hcurl, Option.some.injEq] at hc ⊢
      subst hc
      by_cases h2 : code ≥ 200 ∧ code < 300
      · simp [h2, getStatusFromCode]
      · simp [h2]
  · simp only [hr, if_false] at hc ⊢
    cases hn : env.newRequest with
    | some e => simp [hn] at hc
    | none =>
      simp only [hn] at hc ⊢
      cases hd : env.clientDo with
      | err e => simp [hd] at hc
      | ok resp =>
        simp only [hd, Option.some.injEq] at hc ⊢
        subst hc
        by_cases hid : m.CredentialID = ""
        · simp [hid]
        · cases hk : env.credential with
          | err e => simp [hid, hk] at hcred
          | ok cr => simp [hid, hk]

/-- The probe always sets the local `status`. -/
theorem rawState_ne_empty (env : CycleEnv) (m : Monitor) : rawState env m ≠ "" := by
  have hg : ∀ c : Int, getStatusFromCode c ≠ "" := by
    intro c
    unfold getStatusFromCode
    split_ifs <;> decide
  have hd : "down" ≠ "" := by decide
  have hu : "up" ≠ "" := by decide
  unfold rawState runProbe
  repeat' split
  all_goals first | exact hd | exact hg _ | exact hu

/-- One cycle whose probe returns a 2xx code, the guard not firing. -/
theorem success_step (env : CycleEnv) (tm : ThrottleMap) (m : Monitor)
    (h : SuccessCycle env m)
    (hguard : previousStatus m ≠ "pending" ∨
      ¬ (m.LastChecked + guardDuration m.CheckInterval < env.nowGuard)) :
    (checkMonitor env tm m).monitor.FailureCount = 0 ∧
      (checkMonitor env tm m).monitor.Status = "up" := by
  obtain ⟨hcred, c, hc, h1, h2⟩ := h
  have hraw : rawState env m = "up" := by
    rw [rawState_of_probeCode env m c hcred hc]
    simp [getStatusFromCode, h1, h2]
  have hg : ¬ (previousStatus m = "pending" ∧
      m.LastChecked + guardDuration m.CheckInterval < env.nowGuard) := by tauto
  rw [checkMonitor_FailureCount env tm m hcred, checkMonitor_Status env tm m hcred]
  simp [if_neg hg, transition, hraw]

/-- One failing cycle, the guard not firing: the count is incremented as a Go `int`
and the status follows the threshold rule on the new count. -/
theorem failing_step_wrap (env : CycleEnv) (tm : ThrottleMap) (m : Monitor)
    (hcred : credentialError env m = false)
    (hraw : rawState env m = "down" ∨ rawState env m = "unauthorized")
    (hguard : previousStatus m ≠ "pending" ∨
      ¬ (m.LastChecked + guardDuration m.CheckInterval < env.nowGuard)) :
    (checkMonitor env tm m).monitor.FailureCount = wrapInt64 (m.FailureCount + 1) ∧
    (checkMonitor env tm m).monitor.Status =
      if wrapInt64 (m.FailureCount + 1) ≥ m.FailureThreshold then "down"
      else if previousStatus m = "pending" then "pending" else previousStatus m := by
  have hg : ¬ (previousStatus m = "pending" ∧
      m.LastChecked + guardDuration m.CheckInterval < env.nowGuard) := by tauto
  rw [checkMonitor_FailureCount env tm m hcred, checkMonitor_Status env tm m hcred]
  simp only [if_neg hg, transition, if_pos hraw]
  split_ifs <;> exact ⟨rfl, rfl⟩

/-- One failing cycle, the guard not firing, of a monitor whose count is a Go `int`
other than the largest: the count grows by one and the status follows the threshold
rule. -/
theorem failing_step (env : CycleEnv) (tm : ThrottleMap) (m : Monitor)
    (hcred : credentialError env m = false)
    (hraw : rawState env m = "down" ∨ rawState env m = "unauthorized")
    (hguard : previousStatus m ≠ "pending" ∨
      ¬ (m.LastChecked + guardDuration m.CheckInterval < env.nowGuard))
    (hlo : -9223372036854775808 ≤ m.FailureCount)
    (hhi : m.FailureCount < 9223372036854775807) :
    (checkMonitor env tm m).monitor.FailureCount = m.FailureCount + 1 ∧
    (checkMonitor env tm m).monitor.Status =
      if m.FailureCount + 1 ≥ m.FailureThreshold then "down"
      else if previousStatus m = "pending" then "pending" else previousStatus m := by
  have hw : wrapInt64 (m.FailureCount + 1) = m.FailureCount + 1 :=
    wrapInt64_of_range _ (by omega) (by omega)
  have h := failing_step_wrap env tm m hcred hraw hguard
  rw [hw] at h
  exact h

/-- A status that is set is its own `previousStatus`. -/
theorem previousStatus_of_ne_empty (m : Monitor) (h : m.Status ≠ "") :
    previousStatus m = m.Status := by
  simp [previousStatus, defaultPending, h]

/-- A prefix of a run is a run. -/
theorem RunAll_take (P : CycleEnv → Monitor → Prop) (envs : List CycleEnv) :
    ∀ (k : Nat) (tm : ThrottleMap) (m : Monitor),
      RunAll P envs tm m → RunAll P (envs.take k) tm m := by
  induction envs with
  | nil => intro k tm m _; simp [RunAll]
  | cons env rest ih =>
    intro k tm m h
    cases k with
    | zero => simp [RunAll]
    | succ k =>
      simp only [List.take_succ_cons, RunAll] at h ⊢
      exact ⟨h.1, ih k _ _ h.2⟩

/-- A run of failing cycles in which the guard never applies: the status is held while
the count is below the threshold and is "down" from the cycle that reaches it. -/
theorem failing_run (envs : List CycleEnv) :
    ∀ (tm : ThrottleMap) (m : Monitor),
      (m.Status = "pending" ∨ m.Status = "up" ∨ m.Status = "down") →
      RunAll FailingCycle envs tm m →
      -9223372036854775808 ≤ m.FailureCount →
      m.FailureCount + envs.length < 9223372036854775808 →
      (m.FailureCount + envs.length < m.FailureThreshold →
        (runCycles envs tm m).1.Status = m.Status) ∧
      (1 ≤ envs.length → m.FailureCount + envs.length ≥ m.FailureThreshold →
        (runCycles envs tm m).1.Status = "down") := by
  induction envs with
  | nil =>
    intro tm m _ _ _ _
    simp [runCycles]
  | cons env rest ih =>
    intro tm m hs hrun hlo hhi
    obtain ⟨⟨hcred, hraw, hguard⟩, hrest⟩ := hrun
    have hne : m.Status ≠ "" := by
      rcases hs with h | h | h <;> rw [h] <;> decide
    have hprev := previousStatus_of_ne_empty m hne
    simp only [List.length_cons, Nat.cast_add, Nat.cast_one] at hhi
    obtain ⟨hfc, hst⟩ := failing_step env tm m hcred hraw hguard hlo (by omega)
    have hth := checkMonitor_FailureThreshold env tm m
    rw [hprev] at hst
    have hst2 : (checkMonitor env tm m).monitor.Status =
        if m.FailureCount + 1 ≥ m.FailureThreshold then "down" else m.Status := by
      rw [hst]
      split_ifs with h1 h2
      · rfl
      · exact h2.symm
      · rfl
    have hs2 : (checkMonitor env tm m).monitor.Status = "pending" ∨
        (checkMonitor env tm m).monitor.Status = "up" ∨
        (checkMonitor env tm m).monitor.Status = "down" := by
      rw [hst2]
      split_ifs
      · exact Or.inr (Or.inr rfl)
      · exact hs
    obtain ⟨ih1, ih2⟩ := ih _ _ hs2 hrest (by rw [hfc]; omega) (by rw [hfc]; omega)
    rw [hfc, hth] at ih1 ih2
    simp only [runCycles, List.length_cons, Nat.cast_add, Nat.cast_one]
    constructor
    · intro hlt
      have h1 : ¬ (m.FailureCount + 1 ≥ m.FailureThreshold) := by omega
      rw [ih1 (by omega), hst2, if_neg h1]
    · intro _ hge
      cases rest with
      | nil =>
        simp only [List.length_nil, Nat.cast_zero, zero_add] at hge
        simp only [runCycles]
        rw [hst2, if_pos hge]
      | cons e2 rest2 =>
        apply ih2
        · simp
        · simp only [List.length_cons, Nat.cast_add, Nat.cast_one] at hge ⊢
          omega

/-- The collaborator calls of a cycle without credential error whose notification
methods are fetched. -/
theorem checkMonitor_events (env : CycleEnv) (tm : ThrottleMap) (m : Monitor)
    (ms : List NotificationMethod)
    (hcred : credentialError env m = false) (hm : env.methods = Answer.ok ms) :
    (checkMonitor env tm m).events =
      (if m.CredentialID = "" then [] else [Event.getCredential m.CredentialID]) ++
      (runProbe env (defaultPending m) (resolveCredential env (defaultPending m))).events ++
      [Event.getNotificationMethods m.ProfileID] ++
      (if (notifyDecision env tm m.ID (previousStatus m)
            (checkMonitor env tm m).monitor.Status
            (checkMonitor env tm m).monitor.FailureCount).1
       then [Event.sendNotification (checkMonitor env tm m).monitor
              (checkMonitor env tm m).monitor.Status
              (runProbe env (defaultPending m)
                (resolveCredential env (defaultPending m))).message ms]
       else []) ++
      (if (notifyDecision env tm m.ID (previousStatus m)
            (checkMonitor env tm m).monitor.Status
            (checkMonitor env tm m).monitor.FailureCount).1 && env.sendPanics
       then []
       else
        [Event.updateMonitor (checkMonitor env tm m).monitor,
         Event.createLog
           { ID := env.logID, MonitorID := m.ID,
             Status := (checkMonitor env tm m).monitor.Status,
             Message := (runProbe env (defaultPending m)
               (resolveCredential env (defaultPending m))).message,
             CreatedAt := env.nowLog }]) :=
  congrArg CycleResult.events (checkMonitor_ok env tm m ms hcred hm)

/-- A map read after a write of the same key sees the written value. -/
theorem ThrottleMap.get_set (tm : ThrottleMap) (id : String) (t : Int) :
    (tm.set id t).get id = some t := by
  simp [ThrottleMap.get, ThrottleMap.set, List.lookup]

/-- No cycle changes the monitor's ID. -/
theorem checkMonitor_ID (env : CycleEnv) (tm : ThrottleMap) (m : Monitor) :
    (checkMonitor env tm m).monitor.ID = m.ID := by
  cases hcred : credentialError env m
  · rw [checkMonitor_monitor env tm m hcred]
    simp
  · rw [checkMonitor_credentialError env tm m hcred]
    simp [credentialFailure]

/-- The shape of a cycle without credential error whose notification methods cannot be
fetched: the monitor is written in memory and the cycle returns the error. -/
theorem checkMonitor_methodsErr (env : CycleEnv) (tm : ThrottleMap) (m : Monitor)
    (e : String)
    (hcred : credentialError env m = false) (hm : env.methods = Answer.err e) :
    checkMonitor env tm m =
      { monitor := applyOutcome env (defaultPending m)
          (runProbe env (defaultPending m) (resolveCredential env (defaultPending m))),
        lastNotified := tm,
        events :=
          (if m.CredentialID = "" then [] else [Event.getCredential m.CredentialID]) ++
          (runProbe env (defaultPending m) (resolveCredential env (defaultPending m))).events ++
          [Event.getNotificationMethods m.ProfileID],
        ret := some e, panicked := false } := by
  unfold checkMonitor
  simp only [credentialError_defaultPending, hcred, hm]
  simp [applyOutcome]

/-- A cycle that calls `SendNotification` while the call panics does not return: it is
marked as panicked and calls neither `UpdateMonitor` nor `CreateLog`; the monitor and
the throttle map were written before the call. -/
theorem checkMonitor_panicked (env : CycleEnv) (tm : ThrottleMap) (m : Monitor)
    (ms : List NotificationMethod)
    (hcred : credentialError env m = false) (hm : env.methods = Answer.ok ms)
    (hn : (checkMonitor env tm m).notified = true) (hp : env.sendPanics = true) :
    (checkMonitor env tm m).panicked = true ∧
    (checkMonitor env tm m).events.any Event.isUpdate = false ∧
    (checkMonitor env tm m).events.any Event.isCreateLog = false := by
  rw [checkMonitor_notified env tm m ms hcred hm] at hn
  have hpan : (checkMonitor env tm m).panicked = true := by
    have h := congrArg CycleResult.panicked (checkMonitor_ok env tm m ms hcred hm)
    rw [h, hn, hp]
    rfl
  have hno : ∀ (c : Option Credential),
      (runProbe env (defaultPending m) c).events.any Event.isUpdate = false ∧
      (runProbe env (defaultPending m) c).events.any Event.isCreateLog = false := by
    intro c
    unfold runProbe
    repeat' split
    all_goals exact ⟨rfl, rfl⟩
  refine ⟨hpan, ?_, ?_⟩
  · rw [checkMonitor_events env tm m ms hcred hm, hn, hp]
    simp only [List.any_append, (hno _).1]
    by_cases hid : m.CredentialID = "" <;> simp [hid, Event.isUpdate]
  · rw [checkMonitor_events env tm m ms hcred hm, hn, hp]
    simp only [List.any_append, (hno _).2]
    by_cases hid : m.CredentialID = "" <;> simp [hid, Event.isCreateLog]

/-- A cycle that calls `SendNotification` had no credential error and fetched the
notification methods. -/
theorem notified_imp (env : CycleEnv) (tm : ThrottleMap) (m : Monitor)
    (hn : (checkMonitor env tm m).notified = true) :
    credentialError env m = false ∧ ∃ ms, env.methods = Answer.ok ms := by
  cases hcred : credentialError env m
  · refine ⟨rfl, ?_⟩
    cases hm : env.methods with
    | ok ms => exact ⟨ms, rfl⟩
    | err e =>
      exfalso
      rw [checkMonitor_methodsErr env tm m e hcred hm] at hn
      unfold CycleResult.notified at hn
      simp only [List.any_append, runProbe_no_send] at hn
      by_cases hid : m.CredentialID = "" <;> simp [hid, Event.isSend] at hn
  · exfalso
    rw [checkMonitor_credentialError env tm m hcred] at hn
    simp [CycleResult.notified, Event.isSend] at hn

/-- The throttle map after a cycle without credential error whose notification methods
are fetched. -/
theorem checkMonitor_lastNotified (env : CycleEnv) (tm : ThrottleMap) (m : Monitor)
    (ms : List NotificationMethod)
    (hcred : credentialError env m = false) (hm : env.methods = Answer.ok ms) :
    (checkMonitor env tm m).lastNotified =
      (notifyDecision env tm m.ID (previousStatus m) (checkMonitor env tm m).monitor.Status
        (checkMonitor env tm m).monitor.FailureCount).2 :=
  congrArg CycleResult.lastNotified (checkMonitor_ok env tm m ms hcred hm)

/-- The notification decision when the status is "down" as before: the first time and
after the interval the notification is due and the map is stamped. -/
theorem notifyDecision_down (env : CycleEnv) (tm : ThrottleMap) (id : String) (fc : Int) :
    notifyDecision env tm id "down" "down" fc =
      match tm.get id with
      | none => (true, tm.set id env.nowStamp)
      | some t =>
        if env.nowSince - t > calculateNotificationInterval fc then
          (true, tm.set id env.nowStamp)
        else (false, tm) := by
  simp [notifyDecision]

/-- A cycle that ends "down" as before and notifies stamps the throttle map. -/
theorem notified_down_stamps (env : CycleEnv) (tm : ThrottleMap) (m : Monitor)
    (hs : (checkMonitor env tm m).monitor.Status = "down")
    (hp : previousStatus m = "down")
    (hn : (checkMonitor env tm m).notified = true) :
    (checkMonitor env tm m).lastNotified.get m.ID = some env.nowStamp := by
  obtain ⟨hcred, ms, hm⟩ := notified_imp env tm m hn
  rw [checkMonitor_notified env tm m ms hcred hm, hs, hp, notifyDecision_down] at hn
  rw [checkMonitor_lastNotified env tm m ms hcred hm, hs, hp, notifyDecision_down]
  cases hg : tm.get m.ID with
  | none => simp [ThrottleMap.get_set]
  | some t =>
    rw [hg] at hn
    by_cases hlt : env.nowSince - t > calculateNotificationInterval
        (checkMonitor env tm m).monitor.FailureCount
    · simp [hlt, ThrottleMap.get_set]
    · simp [hlt] at hn

/-- A cycle that ends "down" as before, with a recorded instant `t0`, notifies only if
the elapsed time exceeds the interval. -/
theorem notified_down_elapsed (env : CycleEnv) (tm : ThrottleMap) (m : Monitor) (t0 : Int)
    (hs : (checkMonitor env tm m).monitor.Status = "down")
    (hp : previousStatus m = "down")
    (ht : tm.get m.ID = some t0)
    (hn : (checkMonitor env tm m).notified = true) :
    env.nowSince - t0 >
      calculateNotificationInterval (checkMonitor env tm m).monitor.FailureCount := by
  obtain ⟨hcred, ms, hm⟩ := notified_imp env tm m hn
  rw [checkMonitor_notified env tm m ms hcred hm, hs, hp, notifyDecision_down, ht] at hn
  by_contra hlt
  simp [hlt] at hn

/-- Below a slice without repeated IDs, `RemoveMonitor` drops exactly the entries with
the ID. -/
theorem RemoveMonitor_eq_filter (monitors : List Monitor) (id : String)
    (h : (monitors.map Monitor.ID).Nodup) :
    RemoveMonitor monitors id = monitors.filter (fun x => x.ID != id) := by
  induction monitors with
  | nil => rfl
  | cons m rest ih =>
    simp only [List.map_cons, List.nodup_cons] at h
    by_cases hm : m.ID = id
    · have hrest : rest.filter (fun x => x.ID != id) = rest := by
        apply List.filter_eq_self.mpr
        intro x hx
        have : x.ID ≠ id := by
          intro hx2
          exact h.1 (hm ▸ hx2 ▸ List.mem_map_of_mem Monitor.ID hx)
        simpa using this
      simp [RemoveMonitor, hm, hrest]
    · simp [RemoveMonitor, hm, ih h.2]

/-- The entries left by `removeListed` are those whose ID is not listed. -/
theorem mem_removeListed (ids : List String) :
    ∀ (live : List Monitor) (x : Monitor),
      x ∈ removeListed live ids ↔ x ∈ live ∧ x.ID ∉ ids := by
  induction ids with
  | nil => intro live x; simp [removeListed]
  | cons id rest ih =>
    intro live x
    have := ih (live.filter (fun m => m.ID != id)) x
    simp only [removeListed, List.foldl_cons] at this ⊢
    rw [this]
    simp only [List.mem_filter, List.mem_cons, not_or, bne_iff_ne, ne_eq]
    tauto

/-- The IDs to remove are the live IDs that the repository did not return. -/
theorem mem_monitorsToRemove (ord : MapOrder) (monitors live : List Monitor) (id : String) :
    id ∈ monitorsToRemove ord monitors live ↔
      id ∈ live.map Monitor.ID ∧ id ∉ monitors.map Monitor.ID := by
  simp only [monitorsToRemove, List.mem_filter, (ord.perm _).mem_iff, mapKeys, List.mem_dedup]
  simp

/-- The value stored under a key is a list element with that ID. -/
theorem mapGet_some (monitors : List Monitor) (id : String) (y : Monitor)
    (h : mapGet monitors id = some y) : y ∈ monitors ∧ y.ID = id := by
  unfold mapGet at h
  have h1 := List.mem_of_find?_eq_some h
  have h2 := List.find?_some h
  exact ⟨by simpa using h1, by simpa using h2⟩

/-- In a list without repeated IDs, `find?` by ID finds the element itself. -/
theorem find_by_ID (l : List Monitor) (y : Monitor)
    (hn : (l.map Monitor.ID).Nodup) (hy : y ∈ l) :
    l.find? (fun x => x.ID == y.ID) = some y := by
  induction l with
  | nil => cases hy
  | cons m rest ih =>
    simp only [List.map_cons, List.nodup_cons] at hn
    rcases List.mem_cons.mp hy with rfl | hrest
    · simp
    · have hne : m.ID ≠ y.ID := by
        intro heq
        exact hn.1 (heq ▸ List.mem_map_of_mem Monitor.ID hrest)
      simp [List.find?_cons, hne, ih hn.2 hrest]

/-- When the repository returns no ID twice, every returned monitor is the map value of
its ID. -/
theorem mapGet_of_mem (monitors : List Monitor) (y : Monitor)
    (hn : (monitors.map Monitor.ID).Nodup) (hy : y ∈ monitors) :
    mapGet monitors y.ID = some y := by
  unfold mapGet
  apply find_by_ID
  · rw [List.map_reverse]
    exact List.nodup_reverse.mpr hn
  · simpa using hy

@[simp] theorem prepareNew_ID (m : Monitor) : (prepareNew m).ID = m.ID := by
  unfold prepareNew
  split <;> simp

@[simp] theorem prepareNew_IsActive (m : Monitor) : (prepareNew m).IsActive = m.IsActive := by
  unfold prepareNew defaultPending
  split <;> split <;> rfl

/-- The monitors to add are the prepared map values of the returned IDs that are not
live and are active. -/
theorem mem_monitorsToAdd (ord : MapOrder) (monitors live : List Monitor) (x : Monitor) :
    x ∈ monitorsToAdd ord monitors live ↔
      ∃ y, mapGet monitors y.ID = some y ∧ y.ID ∉ live.map Monitor.ID ∧
        y.IsActive = true ∧ x = prepareNew y := by
  simp only [monitorsToAdd, List.mem_filterMap, (ord.perm _).mem_iff, mapKeys, List.mem_dedup]
  constructor
  · rintro ⟨id, _, hx⟩
    cases hg : mapGet monitors id with
    | none => simp [hg] at hx
    | some y =>
      have hy := mapGet_some monitors id y hg
      simp only [hg] at hx
      split_ifs at hx with h1 h2
      · refine ⟨y, by rw [hy.2]; exact hg, ?_, by simpa using h2, by simpa using hx.symm⟩
        · simpa [hy.2] using h1
  · rintro ⟨y, hg, hlive, hact, rfl⟩
    have hy := mapGet_some monitors y.ID y hg
    refine ⟨y.ID, List.mem_map_of_mem Monitor.ID hy.1, ?_⟩
    have h1 : ¬ (live.any (fun x => x.ID == y.ID) = true) := by simpa using hlive
    simp [hg, h1, hact]

/-- The IDs in the slice after `addListed`: those before and those of the list. -/
theorem addListed_IDs (l : List Monitor) :
    ∀ (acc : ReloadResult) (id : String),
      id ∈ (addListed l acc).monitors.map Monitor.ID ↔
        id ∈ acc.monitors.map Monitor.ID ∨ id ∈ l.map Monitor.ID := by
  induction l with
  | nil => intro acc id; simp [addListed]
  | cons m rest ih =>
    intro acc id
    unfold addListed
    split_ifs with hdup
    · rw [ih]
      simp only [List.map_cons, List.mem_cons]
      constructor
      · rintro (h | h)
        · exact Or.inl h
        · exact Or.inr (Or.inr h)
      · rintro (h | h | h)
        · exact Or.inl h
        · left
          rw [h]
          simpa using hdup
        · exact Or.inr h
    · rw [ih]
      simp only [List.map_append, List.map_cons, List.map_nil, List.mem_append,
        List.mem_singleton, List.mem_cons]
      tauto

/-- The IDs in the live set after a reload whose repository read returned `monitors`,
no ID twice: the returned IDs whose monitor is active or was already live. -/
theorem reload_IDs (ordNew ordOld : MapOrder) (monitors live : List Monitor)
    (hn : (monitors.map Monitor.ID).Nodup) (id : String) :
    id ∈ (reloadMonitors ordNew ordOld (Answer.ok monitors) live).monitors.map Monitor.ID ↔
      ∃ x ∈ monitors, x.ID = id ∧ (x.IsActive = true ∨ id ∈ live.map Monitor.ID) := by
  unfold reloadMonitors
  by_cases h0 : monitors.length = 0
  · have : monitors = [] := List.length_eq_zero.mp h0
    subst this
    simp
  · simp only [h0, if_false]
    rw [addListed_IDs]
    simp only [List.mem_map, mem_removeListed, mem_monitorsToRemove, mem_monitorsToAdd]
    constructor
    · rintro (⟨x, ⟨hx, hrem⟩, rfl⟩ | ⟨x, ⟨y, hg, hlive, hact, rfl⟩, rfl⟩)
      · have hin : x.ID ∈ List.map Monitor.ID monitors := by
          by_contra hnot
          exact hrem ⟨⟨x, hx, rfl⟩, by simpa using hnot⟩
        obtain ⟨z, hz, hzid⟩ := List.mem_map.mp hin
        exact ⟨z, hz, hzid, Or.inr ⟨x, hx, rfl⟩⟩
      · have hy := mapGet_some monitors y.ID y hg
        exact ⟨y, hy.1, by simp, Or.inl hact⟩
    · rintro ⟨x, hx, rfl, hor⟩
      by_cases hl : x.ID ∈ live.map Monitor.ID
      · obtain ⟨z, hz, hzid⟩ := List.mem_map.mp hl
        left
        refine ⟨z, ⟨hz, ?_⟩, hzid⟩
        rintro ⟨_, hnot⟩
        exact hnot ⟨x, hx, hzid.symm⟩
      · right
        have hact : x.IsActive = true := by
          rcases hor with h | h
          · exact h
          · exact absurd (List.mem_map.mpr h) hl
        refine ⟨prepareNew x, ⟨x, mapGet_of_mem monitors x hn hx, ?_, hact, rfl⟩, by simp⟩
        simpa using hl

/-- The attempts of a concatenation of steps. -/
theorem attemptsOf_append (a b : List SendStep) :
    attemptsOf (a ++ b) = attemptsOf a ++ attemptsOf b := by
  induction a with
  | nil => rfl
  | cons s rest ih =>
    cases s <;> simp [attemptsOf, ih]

/-- Being the first parsable method of a type survives appending methods. -/
theorem FirstParsable_append (env : NotifyEnv) (l l2 : List NotificationMethod)
    (a : NotificationMethod) (h : FirstParsable env l a) : FirstParsable env (l ++ l2) a := by
  obtain ⟨pre, post, hl, hp, hpre⟩ := h
  exact ⟨pre, post ++ l2, by simp [hl], hp, hpre⟩

/-- A method that was dealt with stays dealt with when more steps follow. -/
theorem Covered_append (env : NotifyEnv) (steps more : List SendStep) (b : NotificationMethod)
    (h : Covered env steps b) : Covered env (steps ++ more) b := by
  rcases h with ⟨a, ha, hat⟩ | ⟨e, he⟩ | h
  · exact Or.inl ⟨a, by rw [attemptsOf_append]; exact List.mem_append_left _ ha, hat⟩
  · exact Or.inr (Or.inl ⟨e, List.mem_append_left _ he⟩)
  · exact Or.inr (Or.inr h)

/-- A delivery is made only for the types email, slack and teams. -/
theorem deliver_some (env : NotifyEnv) (t : String) (c : ConfigMap) (d : Delivered)
    (h : deliver env t c = some d) : deliverable t = true := by
  unfold deliver at h
  unfold deliverable
  by_cases h1 : t = "email"
  · simp [h1]
  by_cases h2 : t = "slack"
  · simp [h2]
  by_cases h3 : t = "teams"
  · simp [h3]
  simp [h1, h2, h3] at h

/-- No delivery is made only for a type other than email, slack and teams. -/
theorem deliver_none (env : NotifyEnv) (t : String) (c : ConfigMap)
    (h : deliver env t c = none) : deliverable t = false := by
  unfold deliver at h
  unfold deliverable
  split_ifs at h with h1 h2 h3
  simp [h1, h2, h3]

/-- Before a method whose type was not yet sent, every method of that type failed to
parse, provided the type has a case in the `switch`. -/
theorem SendInv.earlier_unparsable {env : NotifyEnv} {done : List NotificationMethod}
    {st : SendState} (inv : SendInv env done st) (t : String)
    (hsent : t ∉ st.notificationSent) (hdel : deliverable t = true) :
    ∀ b ∈ done, b.Type_ = t → parses env b = false := by
  intro b hb hbt
  rcases inv.covered b hb with ⟨a, ha, hat⟩ | ⟨e, he⟩ | ⟨_, hnd⟩
  · exfalso
    apply hsent
    rw [inv.sent]
    exact List.mem_map.mpr ⟨a, ha, hat.trans hbt⟩
  · exact inv.recorded b e he
  · rw [hbt, hdel] at hnd
    cases hnd

/-- The invariant after a method that was skipped because its type was already sent or
has no case. -/
theorem SendInv.skip {env : NotifyEnv} {done : List NotificationMethod} {st : SendState}
    (inv : SendInv env done st) (method : NotificationMethod)
    (hcov : Covered env st.steps method) : SendInv env (done ++ [method]) st where
  nodup := inv.nodup
  sent := inv.sent
  first := fun a ha => FirstParsable_append env done [method] a (inv.first a ha)
  recorded := inv.recorded
  errs := inv.errs
  covered := by
    intro b hb
    rcases List.mem_append.mp hb with h | h
    · exact inv.covered b h
    · rw [List.mem_singleton.mp h]
      exact hcov

/-- The invariant after a config parse error. -/
theorem SendInv.parseError {env : NotifyEnv} {done : List NotificationMethod}
    {st : SendState} (inv : SendInv env done st) (method : NotificationMethod) (e msg : String)
    (hparse : env.unmarshal method.Config = Answer.err e) :
    SendInv env (done ++ [method])
      { st with errs := st.errs ++ [msg],
                steps := st.steps ++ [SendStep.parseError method e] } where
  nodup := by
    simp only [attemptsOf_append, attemptsOf, List.append_nil]
    exact inv.nodup
  sent := by
    simp only [attemptsOf_append, attemptsOf, List.append_nil]
    exact inv.sent
  first := by
    simp only [attemptsOf_append, attemptsOf, List.append_nil]
    exact fun a ha => FirstParsable_append env done [method] a (inv.first a ha)
  recorded := by
    intro b e2 hmem
    rcases List.mem_append.mp hmem with h | h
    · exact inv.recorded b e2 h
    · simp only [List.mem_singleton, SendStep.parseError.injEq] at h
      rw [h.1]
      simp [parses, hparse]
  errs := by
    constructor
    · intro _
      exact ⟨SendStep.parseError method e, by simp, rfl⟩
    · intro _
      simp
  covered := by
    intro b hb
    rcases List.mem_append.mp hb with h | h
    · exact Covered_append env _ _ b (inv.covered b h)
    · rw [List.mem_singleton.mp h]
      exact Or.inr (Or.inl ⟨e, by simp⟩)

/-- The invariant after a delivery attempt that returned. -/
theorem SendInv.attempt {env : NotifyEnv} {done : List NotificationMethod}
    {st : SendState} (inv : SendInv env done st) (method : NotificationMethod)
    (d : Delivered) (errs2 : List String) (config : ConfigMap)
    (hsent : method.Type_ ∉ st.notificationSent)
    (hparse : env.unmarshal method.Config = Answer.ok config)
    (hdel : deliverable method.Type_ = true)
    (herrs : errs2.length > 0 ↔ (st.errs.length > 0 ∨ (SendStep.attempt method d).isFailure = true)) :
    SendInv env (done ++ [method])
      { errs := errs2,
        notificationSent := method.Type_ :: st.notificationSent,
        steps := st.steps ++ [SendStep.attempt method d] } where
  nodup := by
    simp only [attemptsOf_append, attemptsOf, List.map_append, List.map_cons, List.map_nil]
    rw [List.nodup_append]
    refine ⟨inv.nodup, by simp, ?_⟩
    intro t ht1 ht2
    rw [List.mem_singleton] at ht2
    subst ht2
    exact hsent ((inv.sent _).mpr ht1)
  sent := by
    intro t
    simp only [attemptsOf_append, attemptsOf, List.map_append, List.map_cons, List.map_nil,
      List.mem_append, List.mem_singleton, List.mem_cons]
    rw [inv.sent t]
    tauto
  first := by
    intro a ha
    simp only [attemptsOf_append, attemptsOf, List.mem_append, List.mem_singleton] at ha
    rcases ha with h | h
    · exact FirstParsable_append env done [method] a (inv.first a h)
    · subst h
      exact ⟨done, [], rfl, by simp [parses, hparse],
        inv.earlier_unparsable a.Type_ hsent hdel⟩
  recorded := by
    intro b e2 hmem
    rcases List.mem_append.mp hmem with h | h
    · exact inv.recorded b e2 h
    · simp at h
  errs := by
    rw [herrs, inv.errs]
    constructor
    · rintro (⟨s, hs, hf⟩ | hf)
      · exact ⟨s, List.mem_append_left _ hs, hf⟩
      · exact ⟨_, by simp, hf⟩
    · rintro ⟨s, hs, hf⟩
      rcases List.mem_append.mp hs with h | h
      · exact Or.inl ⟨s, h, hf⟩
      · rw [List.mem_singleton.mp h] at hf
        exact Or.inr hf
  covered := by
    intro b hb
    rcases List.mem_append.mp hb with h | h
    · exact Covered_append env _ _ b (inv.covered b h)
    · rw [List.mem_singleton.mp h]
      exact Or.inl ⟨method, by simp [attemptsOf_append, attemptsOf], rfl⟩

/-- The loop of `SendNotification` keeps its invariant up to the end of the call. -/
theorem sendLoop_final (env : NotifyEnv) (rest : List NotificationMethod) :
    ∀ (done : List NotificationMethod) (st : SendState),
      SendInv env done st → SendFinal env (done ++ rest) (sendLoop env rest st) := by
  induction rest with
  | nil =>
    intro done st inv
    rw [List.append_nil]
    refine ⟨inv.nodup, inv.first, ?_, ?_⟩
    · intro e he
      simp only [sendLoop, SendOutcome.returned.injEq] at he ⊢
      rw [← inv.errs, ← he]
      by_cases h0 : st.errs.length > 0 <;> simp [h0]
    · intro e _
      exact inv.covered
  | cons method rest ih =>
    intro done st inv
    have happ : done ++ method :: rest = (done ++ [method]) ++ rest := by simp
    rw [happ]
    unfold sendLoop
    by_cases hsent : method.Type_ ∈ st.notificationSent
    · rw [if_pos hsent]
      apply ih
      apply inv.skip
      obtain ⟨a, ha, hat⟩ := List.mem_map.mp ((inv.sent _).mp hsent)
      exact Or.inl ⟨a, ha, hat⟩
    · rw [if_neg hsent]
      cases hparse : env.unmarshal method.Config with
      | err e =>
        simp only
        exact ih _ _ (inv.parseError method e _ hparse)
      | ok config =>
        simp only
        cases hdel : deliver env method.Type_ config with
        | none =>
          simp only
          apply ih
          apply inv.skip
          exact Or.inr (Or.inr ⟨by simp [parses, hparse], deliver_none env _ _ hdel⟩)
        | some d =>
          have hd := deliver_some env _ _ _ hdel
          cases d with
          | ok =>
            simp only
            apply ih
            exact inv.attempt method Delivered.ok st.errs config hsent hparse hd
              (by simp [SendStep.isFailure])
          | err e =>
            simp only
            apply ih
            exact inv.attempt method (Delivered.err e) _ config hsent hparse hd
              (by simp [SendStep.isFailure])
          | panic =>
            simp only
            refine ⟨?_, ?_, ?_, ?_⟩
            · simp only [attemptsOf_append, attemptsOf, List.map_append, List.map_cons,
                List.map_nil]
              rw [List.nodup_append]
              refine ⟨inv.nodup, by simp, ?_⟩
              intro t ht1 ht2
              rw [List.mem_singleton] at ht2
              subst ht2
              exact hsent ((inv.sent _).mpr ht1)
            · intro a ha
              simp only [attemptsOf_append, attemptsOf, List.mem_append,
                List.mem_singleton] at ha
              rcases ha with h | h
              · exact FirstParsable_append env _ rest a
                  (FirstParsable_append env done [method] a (inv.first a h))
              · subst h
                exact ⟨done, rest, by simp, by simp [parses, hparse],
                  inv.earlier_unparsable a.Type_ hsent hd⟩
            · intro e he
              cases he
            · intro e he
              cases he

/-- Every call of `SendNotification` ends in a state described by `SendFinal`. -/
theorem SendNotification_final (env : NotifyEnv) (methods : List NotificationMethod) :
    SendFinal env methods (SendNotification env methods) := by
  have h := sendLoop_final env methods [] { errs := [], notificationSent := [], steps := [] }
    { nodup := by simp [attemptsOf]
      sent := by simp [attemptsOf]
      first := by simp [attemptsOf]
      recorded := by simp
      errs := by simp
      covered := by simp }
  simpa [SendNotification] using h


/-- Splitting at the first separator. -/
theorem stringsSplit_append (sep : Char) (a b : List Char) (h : sep ∉ a) :
    stringsSplit sep (a ++ sep :: b) = a :: stringsSplit sep b := by
  induction a with
  | nil => simp [stringsSplit]
  | cons c cs ih =>
    have hc : c ≠ sep := fun e => h (e ▸ List.mem_cons_self c cs)
    have hcs : sep ∉ cs := fun e => h (List.mem_cons_of_mem c e)
    simp [stringsSplit, hc, ih hcs]

/-- A text without the separator is its own single part. -/
theorem stringsSplit_self (sep : Char) (a : List Char) (h : sep ∉ a) :
    stringsSplit sep a = [a] := by
  induction a with
  | nil => rfl
  | cons c cs ih =>
    have hc : c ≠ sep := fun e => h (e ▸ List.mem_cons_self c cs)
    have hcs : sep ∉ cs := fun e => h (List.mem_cons_of_mem c e)
    simp [stringsSplit, hc, ih hcs]

/-- Lines that do not start with `HTTP/` are passed over. -/
theorem findStatusCode_skip (pre : List (List Char)) (rest : List (List Char))
    (h : ∀ l ∈ pre, "HTTP/".toList.isPrefixOf l = false) :
    findStatusCode (pre ++ rest) = findStatusCode rest := by
  induction pre with
  | nil => rfl
  | cons l ls ih =>
    have hl := h l (List.mem_cons_self l ls)
    simp only [List.cons_append, findStatusCode, hl]
    exact ih (fun x hx => h x (List.mem_cons_of_mem l hx))

/-- A decimal digit is not white space. -/
theorem not_isSpace_of_digit (c : Char) (h : isDecimalDigit c = true) : isSpace c = false := by
  simp only [isDecimalDigit, decide_eq_true_eq] at h
  simp only [isSpace, decide_eq_false_iff_not]
  omega

/-- A decimal digit is not the space character. -/
theorem digit_ne_space (c : Char) (h : isDecimalDigit c = true) : c ≠ space := by
  intro e
  rw [e] at h
  revert h
  decide

/-- Scanning a run of digits takes them all. -/
theorem takeWhile_digits (ds : List Char) (h : ∀ c ∈ ds, isDecimalDigit c = true) :
    ds.takeWhile isDecimalDigit = ds := by
  induction ds with
  | nil => rfl
  | cons c cs ih =>
    simp [List.takeWhile, h c (List.mem_cons_self c cs),
      ih (fun x hx => h x (List.mem_cons_of_mem c hx))]

/-- The scan of the text of a decimal integer that fits 64 bits yields the integer. -/
theorem scanInt_numeral (neg : Bool) (ds : List Char)
    (hne : ds ≠ []) (hd : ∀ c ∈ ds, isDecimalDigit c = true)
    (hlo : -(2 : Int) ^ 63 ≤ numeralValue neg ds) (hhi : numeralValue neg ds < (2 : Int) ^ 63) :
    scanInt (numeral neg ds) = some (numeralValue neg ds) := by
  obtain ⟨c, cs, rfl⟩ := List.exists_cons_of_ne_nil hne
  have hc := hd c (List.mem_cons_self c cs)
  have hsp := not_isSpace_of_digit c hc
  have hcm : c ≠ '-' := by
    intro e; rw [e] at hc; revert hc; decide
  have hcp : c ≠ '+' := by
    intro e; rw [e] at hc; revert hc; decide
  have htw := takeWhile_digits (c :: cs) hd
  cases neg with
  | false =>
    simp only [numeral, numeralValue, Bool.false_eq_true, if_false] at hlo hhi ⊢
    unfold scanInt
    have hdrop : (c :: cs).dropWhile isSpace = c :: cs := by
      simp [List.dropWhile, hsp]
    simp only [hdrop]
    have hmatch : (match c :: cs with
        | '+' :: r => r
        | '-' :: r => r
        | _ => c :: cs) = c :: cs := by
      split
      · rename_i heq; exact absurd (List.cons.inj heq).1 hcp
      · rename_i heq; exact absurd (List.cons.inj heq).1 hcm
      · rfl
    rw [hmatch, htw]
    have h63 : (2 : Int) ^ 63 = 9223372036854775808 := by norm_num
    rw [h63] at hlo hhi
    simp [hcm]
    constructor <;> omega
  | true =>
    simp only [numeral, numeralValue, if_true] at hlo hhi ⊢
    unfold scanInt
    have hdrop : ('-' :: c :: cs).dropWhile isSpace = '-' :: c :: cs := by
      have : isSpace '-' = false := by decide
      simp [List.dropWhile, this]
    simp only [hdrop]
    rw [htw]
    have h63 : (2 : Int) ^ 63 = 9223372036854775808 := by norm_num
    rw [h63] at hlo hhi
    simp
    constructor <;> omega

/-- The text of a decimal integer holds no space. -/
theorem space_not_mem_numeral (neg : Bool) (ds : List Char)
    (hd : ∀ c ∈ ds, isDecimalDigit c = true) : space ∉ numeral neg ds := by
  have hds : space ∉ ds := fun h => digit_ne_space space (hd space h) rfl
  cases neg with
  | false => simpa [numeral] using hds
  | true =>
    simp only [numeral, if_true, List.mem_cons, not_or]
    exact ⟨by decide, hds⟩

/-- The status code found when the first line that starts with `HTTP/` reads
`HTTP/<version> <n>`, alone or followed by a space and more. -/
theorem findStatusCode_of_line (pre post : List (List Char))
    (version digits rest : List Char) (neg : Bool)
    (hpre : ∀ l ∈ pre, "HTTP/".toList.isPrefixOf l = false)
    (hver : space ∉ version)
    (hne : digits ≠ []) (hd : ∀ c ∈ digits, isDecimalDigit c = true)
    (hrest : rest = [] ∨ ∃ r, rest = space :: r)
    (hlo : -(2 : Int) ^ 63 ≤ numeralValue neg digits)
    (hhi : numeralValue neg digits < (2 : Int) ^ 63) :
    findStatusCode
      (pre ++ ("HTTP/".toList ++ version ++ space :: (numeral neg digits ++ rest)) :: post) =
      numeralValue neg digits := by
  rw [findStatusCode_skip pre _ hpre]
  have hpfx : "HTTP/".toList.isPrefixOf
      ("HTTP/".toList ++ version ++ space :: (numeral neg digits ++ rest)) = true := by
    rw [List.isPrefixOf_iff_prefix, List.append_assoc]
    exact List.prefix_append _ _
  have hhead : space ∉ "HTTP/".toList ++ version := by
    rw [List.mem_append, not_or]
    exact ⟨by decide, hver⟩
  have hnum := space_not_mem_numeral neg digits hd
  have hsplit : ∃ more, stringsSplit space
      ("HTTP/".toList ++ version ++ space :: (numeral neg digits ++ rest)) =
        ("HTTP/".toList ++ version) :: numeral neg digits :: more := by
    rw [stringsSplit_append space _ _ hhead]
    rcases hrest with h | ⟨r, h⟩
    · subst h
      rw [List.append_nil, stringsSplit_self space _ hnum]
      exact ⟨[], rfl⟩
    · subst h
      rw [stringsSplit_append space _ _ hnum]
      exact ⟨_, rfl⟩
  obtain ⟨more, hmore⟩ := hsplit
  simp only [findStatusCode, hpfx, if_true, hmore]
  rw [scanInt_numeral neg digits hne hd hlo hhi]
  rfl

/-- The comparison loop of `String.isPrefixOf` succeeds on a common prefix. -/
theorem substrEq_loop_prefix (p : List Char) :
    ∀ (l r1 r2 : List Char),
      String.substrEq.loop ⟨l ++ (p ++ r1)⟩ ⟨l ++ (p ++ r2)⟩ ⟨String.utf8Len l⟩
        ⟨String.utf8Len l⟩ ⟨String.utf8Len l + String.utf8Len p⟩ = true := by
  induction p with
  | nil =>
    intro l r1 r2
    rw [String.substrEq.loop]
    simp
  | cons c p ih =>
    intro l r1 r2
    rw [String.substrEq.loop]
    have hlt : String.utf8Len l < String.utf8Len l + String.utf8Len (c :: p) := by
      have := Char.utf8Size_pos c
      simp only [String.utf8Len_cons]
      omega
    simp only [hlt, dite_true]
    rw [String.get_of_valid l (c :: p ++ r1), String.get_of_valid l (c :: p ++ r2)]
    simp only [List.cons_append, List.headD_cons, beq_self_eq_true, Bool.true_and]
    have h := ih (l ++ [c]) r1 r2
    simp only [List.append_assoc, List.singleton_append, String.utf8Len_append,
      String.utf8Len_cons, String.utf8Len_nil, Nat.zero_add] at h
    have hpos : (⟨String.utf8Len l⟩ : String.Pos) + c = ⟨String.utf8Len l + c.utf8Size⟩ := rfl
    rw [hpos]
    have hstop : String.utf8Len l + String.utf8Len (c :: p) =
        String.utf8Len l + c.utf8Size + String.utf8Len p := by
      simp only [String.utf8Len_cons]
      omega
    rw [hstop]
    exact h

/-- A string is a prefix of itself followed by anything. -/
theorem isPrefixOf_append (p t : String) : p.isPrefixOf (p ++ t) = true := by
  unfold String.isPrefixOf String.substrEq
  have h := substrEq_loop_prefix p.data [] [] t.data
  simp only [List.nil_append, List.append_nil, String.utf8Len_nil, Nat.zero_add] at h
  simp only [Bool.and_eq_true, decide_eq_true_eq]
  refine ⟨⟨?_, ?_⟩, ?_⟩
  · simp
  · show 0 + String.utf8Len p.data ≤ String.utf8Len (p.data ++ t.data)
    simp
  · have e : (⟨String.Pos.byteIdx 0 + p.endPos.byteIdx⟩ : String.Pos) =
        ⟨String.utf8Len p.data⟩ := by
      simp [String.endPos, String.utf8ByteSize]
    rw [e]
    exact h

/-- The classifier has three results. -/
theorem getStatusFromCode_range (c : Int) :
    getStatusFromCode c = "up" ∨ getStatusFromCode c = "redirect" ∨
      getStatusFromCode c = "down" := by
  unfold getStatusFromCode
  split_ifs <;> first | omega | simp

/-- The classifier says "redirect" for the codes from 300 to 399 only. -/
theorem getStatusFromCode_redirect (c : Int) (h : getStatusFromCode c = "redirect") :
    300 ≤ c ∧ c < 400 := by
  unfold getStatusFromCode at h
  split_ifs at h <;> first | omega | exact absurd h (by decide)

/-- The raw state of a cycle is "down", "up", or the classification of the code that
the executor delivered. -/
theorem rawState_source (env : CycleEnv) (m : Monitor) :
    rawState env m = "down" ∨ rawState env m = "up" ∨
      ∃ c : Int, probeCode env m = some c ∧ rawState env m = getStatusFromCode c := by
  unfold rawState runProbe probeCode
  simp only [defaultPending_RequestType, defaultPending_CredentialID]
  by_cases hr : m.RequestType = "curl"
  · simp only [hr, if_true]
    cases hcurl : env.curl with
    | err e => exact Or.inl rfl
    | ok a =>
      obtain ⟨code, msg⟩ := a
      simp only
      by_cases h2 : code ≥ 200 ∧ code < 300
      · simp [h2]
      · simp only [h2, if_false]
        exact Or.inr (Or.inr ⟨code, rfl, rfl⟩)
  · simp only [hr, if_false]
    cases hn : env.newRequest with
    | some e => exact Or.inl rfl
    | none =>
      simp only
      cases hd : env.clientDo with
      | err e =>
        simp only
        split
        · split <;> exact Or.inl rfl
        · exact Or.inl rfl
      | ok resp =>
        simp only
        split
        · split
          · exact Or.inl rfl
          · exact Or.inr (Or.inr ⟨resp.StatusCode, rfl, rfl⟩)
        · exact Or.inr (Or.inr ⟨resp.StatusCode, rfl, rfl⟩)

/-- The raw state of a cycle is "down", "up" or "redirect", and "redirect" comes from a
delivered code between 300 and 399. -/
theorem rawState_cases (env : CycleEnv) (m : Monitor) :
    rawState env m = "down" ∨ rawState env m = "up" ∨
      (rawState env m = "redirect" ∧
        ∃ c : Int, probeCode env m = some c ∧ 300 ≤ c ∧ c < 400) := by
  rcases rawState_source env m with h | h | ⟨c, hc, h⟩
  · exact Or.inl h
  · exact Or.inr (Or.inl h)
  · rcases getStatusFromCode_range c with h2 | h2 | h2
    · exact Or.inr (Or.inl (h.trans h2))
    · exact Or.inr (Or.inr ⟨h.trans h2, c, hc, getStatusFromCode_redirect c h2⟩)
    · exact Or.inl (h.trans h2)

/-- The status after a cycle stays among the known values, and it is "redirect" only
when it was so before or the executor delivered a code between 300 and 399. -/
theorem status_known_step (env : CycleEnv) (tm : ThrottleMap) (m : Monitor)
    (h : m.Status = "" ∨ KnownStatus m.Status) :
    KnownStatus (checkMonitor env tm m).monitor.Status ∧
    ((checkMonitor env tm m).monitor.Status = "redirect" →
      m.Status = "redirect" ∨ ∃ c : Int, probeCode env m = some c ∧ 300 ≤ c ∧ c < 400) := by
  have hprev : KnownStatus (previousStatus m) := by
    rcases h with h | h
    · simp [previousStatus, defaultPending, h, KnownStatus]
    · have hne : m.Status ≠ "" := by
        rcases h with h | h | h | h | h <;> rw [h] <;> decide
      rw [previousStatus_of_ne_empty m hne]
      exact h
  have hprevred : previousStatus m = "redirect" → m.Status = "redirect" := by
    intro hp
    by_cases hne : m.Status = ""
    · simp [previousStatus, defaultPending, hne] at hp
    · rwa [previousStatus_of_ne_empty m hne] at hp
  have hdr : "down" ≠ "redirect" := by decide
  have hpr : "pending" ≠ "redirect" := by decide
  have hur : "up" ≠ "redirect" := by decide
  cases hcred : credentialError env m
  · rw [checkMonitor_Status env tm m hcred]
    split_ifs with hg
    · exact ⟨Or.inr (Or.inr (Or.inl rfl)), fun hr => absurd hr hdr⟩
    · unfold transition
      rcases rawState_cases env m with hraw | hraw | ⟨hraw, hc⟩
      · simp only [hraw, true_or, if_true]
        split_ifs
        · exact ⟨Or.inr (Or.inr (Or.inl rfl)), fun hr => absurd hr hdr⟩
        · exact ⟨Or.inl rfl, fun hr => absurd hr hpr⟩
        · exact ⟨hprev, fun hr => Or.inl (hprevred hr)⟩
      · have hnd : ¬ ("up" = "down" ∨ "up" = "unauthorized") := by decide
        simp only [hraw, hnd, if_false, if_true]
        split_ifs <;> exact ⟨Or.inr (Or.inl rfl), fun hr => absurd hr hur⟩
      · have hnd : ¬ ("redirect" = "down" ∨ "redirect" = "unauthorized") := by decide
        have hnu : ¬ ("redirect" = "up") := by decide
        have hnn : ¬ ("redirect" = "") := by decide
        simp only [hraw, hnd, hnu, hnn, if_false]
        exact ⟨Or.inr (Or.inr (Or.inr (Or.inr rfl))), fun _ => Or.inr hc⟩
  · rw [checkMonitor_credentialError env tm m hcred]
    exact ⟨hprev, fun hr => Or.inl (hprevred hr)⟩

/-- What `removeListed` leaves is the slice filtered by "ID not listed". -/
theorem removeListed_eq_filter (ids : List String) :
    ∀ live : List Monitor,
      removeListed live ids = live.filter (fun m => decide (m.ID ∉ ids)) := by
  induction ids with
  | nil => intro live; simp [removeListed]
  | cons id rest ih =>
    intro live
    have h := ih (live.filter (fun m => m.ID != id))
    simp only [removeListed, List.foldl_cons] at h ⊢
    rw [h, List.filter_filter]
    apply List.filter_congr
    intro x _
    by_cases hx : x.ID = id <;> simp [hx]

/-- The slice after `addListed` is the slice before followed by the monitors that were
appended, and exactly those got a runner. -/
theorem addListed_shape (l : List Monitor) :
    ∀ acc : ReloadResult, ∃ added : List Monitor,
      (addListed l acc).monitors = acc.monitors ++ added ∧
      (addListed l acc).started = acc.started ++ added ∧
      ∀ x ∈ added, x ∈ l := by
  induction l with
  | nil => intro acc; exact ⟨[], by simp [addListed]⟩
  | cons m rest ih =>
    intro acc
    unfold addListed
    split_ifs with hdup
    · obtain ⟨added, h1, h2, h3⟩ := ih acc
      exact ⟨added, h1, h2, fun x hx => List.mem_cons_of_mem m (h3 x hx)⟩
    · obtain ⟨added, h1, h2, h3⟩ :=
        ih { monitors := acc.monitors ++ [m], started := acc.started ++ [m] }
      refine ⟨m :: added, by simpa using h1, by simpa using h2, ?_⟩
      intro x hx
      rcases List.mem_cons.mp hx with h | h
      · rw [h]
        exact List.mem_cons_self m rest
      · exact List.mem_cons_of_mem m (h3 x h)

/-- The duplicate guard of `addListed` keeps the slice free of repeated IDs. -/
theorem addListed_nodup (l : List Monitor) :
    ∀ acc : ReloadResult, (acc.monitors.map Monitor.ID).Nodup →
      ((addListed l acc).monitors.map Monitor.ID).Nodup := by
  induction l with
  | nil => intro acc h; simpa [addListed] using h
  | cons m rest ih =>
    intro acc h
    unfold addListed
    split_ifs with hdup
    · exact ih acc h
    · apply ih
      simp only [List.map_append, List.map_cons, List.map_nil]
      rw [List.nodup_append]
      refine ⟨h, by simp, ?_⟩
      intro t ht1 ht2
      rw [List.mem_singleton] at ht2
      subst ht2
      apply hdup
      obtain ⟨x, hx, hxid⟩ := List.mem_map.mp ht1
      simp only [List.any_eq_true, beq_iff_eq]
      exact ⟨x, hx, hxid⟩

/-- A reload leaves the entries of an ID that is live and returned by the repository as
they are: none dropped, none changed, none added. -/
theorem reload_common (ordNew ordOld : MapOrder) (monitors live : List Monitor)
    (id : String) (hrepo : id ∈ monitors.map Monitor.ID) (hlive : id ∈ live.map Monitor.ID) :
    (reloadMonitors ordNew ordOld (Answer.ok monitors) live).monitors.filter
        (fun x => x.ID == id) =
      live.filter (fun x => x.ID == id) := by
  have h0 : monitors.length ≠ 0 := by
    intro h
    rw [List.length_eq_zero.mp h] at hrepo
    simp at hrepo
  unfold reloadMonitors
  simp only [h0, if_false]
  obtain ⟨added, h1, _, h3⟩ := addListed_shape (monitorsToAdd ordNew monitors live)
    { monitors := removeListed live (monitorsToRemove ordOld monitors live), started := [] }
  rw [h1, List.filter_append]
  have hadded : added.filter (fun x => x.ID == id) = [] := by
    rw [List.filter_eq_nil_iff]
    intro x hx hxid
    obtain ⟨y, _, hy, _, rfl⟩ := (mem_monitorsToAdd ordNew monitors live x).mp (h3 x hx)
    simp only [prepareNew_ID, beq_iff_eq] at hxid
    exact hy (hxid ▸ hlive)
  rw [hadded, List.append_nil, removeListed_eq_filter, List.filter_filter]
  apply List.filter_congr
  intro x _
  by_cases hx : x.ID = id
  · subst hx
    have : x.ID ∉ monitorsToRemove ordOld monitors live := by
      rw [mem_monitorsToRemove]
      exact fun h => h.2 hrepo
    simp [this]
  · simp [hx]

/-- A reload keeps a live set free of repeated IDs so, and the monitors it starts a
runner for are exactly those it appended behind the kept ones. -/
theorem reload_nodup (ordNew ordOld : MapOrder) (repo : Answer (List Monitor))
    (live : List Monitor) (hlive : (live.map Monitor.ID).Nodup) :
    ((reloadMonitors ordNew ordOld repo live).monitors.map Monitor.ID).Nodup ∧
    ∃ kept : List Monitor, kept.Sublist live ∧
      (reloadMonitors ordNew ordOld repo live).monitors =
        kept ++ (reloadMonitors ordNew ordOld repo live).started := by
  unfold reloadMonitors
  cases repo with
  | err e => exact ⟨hlive, live, List.Sublist.refl live, by simp⟩
  | ok monitors =>
    by_cases h0 : monitors.length = 0
    · simp only [h0, if_true]
      exact ⟨by simp, [], List.nil_sublist live, by simp⟩
    · simp only [h0, if_false]
      have hsub : (removeListed live (monitorsToRemove ordOld monitors live)).Sublist live := by
        rw [removeListed_eq_filter]
        exact List.filter_sublist live
      constructor
      · apply addListed_nodup
        exact (hsub.map Monitor.ID).nodup hlive
      · obtain ⟨added, h1, h2, _⟩ := addListed_shape (monitorsToAdd ordNew monitors live)
          { monitors := removeListed live (monitorsToRemove ordOld monitors live),
            started := [] }
        refine ⟨_, hsub, ?_⟩
        rw [h1, h2]
        simp

/-- The status logic does not tell a raw "unauthorized" from a raw "down". -/
theorem transition_unauthorized (prev : String) (fc ft : Int) :
    transition prev "unauthorized" fc ft = transition prev "down" fc ft := by
  simp [transition]

/-- Outside 300 to 399 the two classifiers differ at most by "unauthorized" for
"down". -/
theorem classifiers_agree (c : Int) (h : ¬ (300 ≤ c ∧ c < 400)) :
    referenceClassifier c = getStatusFromCode c ∨
      (referenceClassifier c = "unauthorized" ∧ getStatusFromCode c = "down") := by
  unfold referenceClassifier getStatusFromCode
  split_ifs <;> first | omega | simp

/-- With the scheduler's own classifier, `outcomeWith` is the monitor that the check
cycle leaves. -/
theorem outcomeWith_own (env : CycleEnv) (tm : ThrottleMap) (m : Monitor) (c : Int)
    (hcred : credentialError env m = false) (hc : probeCode env m = some c) :
    outcomeWith getStatusFromCode env m c = (checkMonitor env tm m).monitor := by
  rw [checkMonitor_monitor env tm m hcred]
  unfold outcomeWith
  have hraw := rawState_of_probeCode env m c hcred hc
  unfold rawState at hraw
  have hst : (if m.RequestType = "curl" ∧ c ≥ 200 ∧ c < 300 then "up"
      else getStatusFromCode c) = getStatusFromCode c := by
    split_ifs with h
    · simp [getStatusFromCode, h.2]
    · rfl
  rw [hst, ← hraw]

/-- The status and the count that `outcomeWith` yields depend on the raw state only
through the status logic. -/
theorem outcomeWith_fields (classify : Int → String) (env : CycleEnv) (m : Monitor) (c : Int) :
    (outcomeWith classify env m c).Status =
      (if pendingTooLong env (defaultPending m).Status (defaultPending m) then "down"
       else (transition (defaultPending m).Status
          (if m.RequestType = "curl" ∧ c ≥ 200 ∧ c < 300 then "up" else classify c)
          m.FailureCount m.FailureThreshold).1) ∧
    (outcomeWith classify env m c).FailureCount =
      (transition (defaultPending m).Status
          (if m.RequestType = "curl" ∧ c ≥ 200 ∧ c < 300 then "up" else classify c)
          m.FailureCount m.FailureThreshold).2 := by
  unfold outcomeWith
  simp

/-- Outside 300 to 399 the reference classifier leads to the same status and count as
the scheduler's classifier. -/
theorem outcomeWith_reference (env : CycleEnv) (m : Monitor) (c : Int)
    (h : ¬ (300 ≤ c ∧ c < 400)) :
    (outcomeWith referenceClassifier env m c).Status =
        (outcomeWith getStatusFromCode env m c).Status ∧
    (outcomeWith referenceClassifier env m c).FailureCount =
        (outcomeWith getStatusFromCode env m c).FailureCount := by
  rw [(outcomeWith_fields referenceClassifier env m c).1,
    (outcomeWith_fields referenceClassifier env m c).2,
    (outcomeWith_fields getStatusFromCode env m c).1,
    (outcomeWith_fields getStatusFromCode env m c).2]
  by_cases hcurl : m.RequestType = "curl" ∧ c ≥ 200 ∧ c < 300
  · simp [hcurl]
  · simp only [hcurl, if_false]
    rcases classifiers_agree c h with heq | ⟨h1, h2⟩
    · rw [heq]
      exact ⟨rfl, rfl⟩
    · rw [h1, h2, transition_unauthorized]
      exact ⟨rfl, rfl⟩

@[simp] theorem prepareNew_CredentialID (m : Monitor) :
    (prepareNew m).CredentialID = m.CredentialID := by
  unfold prepareNew
  split <;> simp

@[simp] theorem prepareNew_LastChecked (m : Monitor) :
    (prepareNew m).LastChecked = m.LastChecked := by
  unfold prepareNew
  split <;> simp

/-- A monitor whose status is set keeps it when the scheduler takes it in. -/
theorem prepareNew_Status (m : Monitor) (h : m.Status ≠ "") :
    (prepareNew m).Status = m.Status := by
  unfold prepareNew defaultPending
  split <;> simp [h]

/-- A cycle whose notification methods are fetched and whose status changes calls
`SendNotification` with the new status. -/
theorem status_change_sends (env : CycleEnv) (tm : ThrottleMap) (m : Monitor)
    (ms : List NotificationMethod) (hm : env.methods = Answer.ok ms)
    (hne : (checkMonitor env tm m).monitor.Status ≠ previousStatus m) :
    (checkMonitor env tm m).notifiedWith (checkMonitor env tm m).monitor.Status = true := by
  cases hcred : credentialError env m
  · have hd : (notifyDecision env tm m.ID (previousStatus m)
        (checkMonitor env tm m).monitor.Status
        (checkMonitor env tm m).monitor.FailureCount).1 = true := by
      simp [notifyDecision, hne]
    unfold CycleResult.notifiedWith
    rw [checkMonitor_events env tm m ms hcred hm, hd]
    simp [List.any_append, Event.isSendWith]
  · exfalso
    apply hne
    rw [checkMonitor_credentialError env tm m hcred]
    rfl

theorem defaultMethod_LastChecked (request : Monitor) (cenv : CreateEnv) :
    (stampCreated cenv (defaultMethod request)).LastChecked = request.LastChecked := by
  unfold stampCreated defaultMethod
  split <;> rfl

/-- What creation stores: the status pending, the count 0 and the bound `LastChecked`. -/
theorem CreateMonitor_stored (cenv : CreateEnv) (request m : Monitor)
    (h : CreateMonitor cenv request = Answer.ok m) :
    m.Status = "pending" ∧ m.FailureCount = 0 ∧ m.IsActive = true ∧
      m.LastChecked = request.LastChecked := by
  unfold CreateMonitor at h
  simp only at h
  repeat' split at h
  all_goals (cases h <;> exact ⟨rfl, rfl, rfl, defaultMethod_LastChecked request cenv⟩)

theorem prepareNew_CheckInterval (m : Monitor) :
    (prepareNew m).CheckInterval = if m.CheckInterval < 10 then 60 else m.CheckInterval := by
  unfold prepareNew
  split <;> simp

/-- The first cycle of a freshly created monitor, at a time later than three stored
check intervals (and than 180 s) after the zero time: without credential error and with
the methods fetched it ends "down" and sends the notification. -/
theorem first_cycle_down (env : CycleEnv) (tm : ThrottleMap) (m : Monitor)
    (ms : List NotificationMethod)
    (hs : m.Status = "pending") (hl : m.LastChecked = 0)
    (hcred : credentialError env m = false) (hm : env.methods = Answer.ok ms)
    (hold : (m.CheckInterval * 3) * Second < env.nowGuard)
    (hclock : 180 * Second < env.nowGuard) :
    (checkMonitor env tm (prepareNew m)).monitor.Status = "down" ∧
    (checkMonitor env tm (prepareNew m)).notifiedWith "down" = true := by
  have hne : m.Status ≠ "" := by rw [hs]; decide
  have hps : (prepareNew m).Status = "pending" := by rw [prepareNew_Status m hne, hs]
  have hprev : previousStatus (prepareNew m) = "pending" := by
    rw [previousStatus_of_ne_empty _ (by rw [hps]; decide), hps]
  have hcred2 : credentialError env (prepareNew m) = false := by
    simpa [credentialError] using hcred
  have hguard : guardDuration (prepareNew m).CheckInterval < env.nowGuard := by
    rw [prepareNew_CheckInterval]
    split_ifs with hlow
    · rw [guardDuration_exact 60 (by decide) (by decide)]
      exact hclock
    · have hle := guardDuration_le m.CheckInterval (by omega)
      exact lt_of_le_of_lt hle hold
  have hdown : (checkMonitor env tm (prepareNew m)).monitor.Status = "down" := by
    rw [checkMonitor_Status env tm _ hcred2, if_pos]
    refine ⟨hprev, ?_⟩
    rw [prepareNew_LastChecked, hl, zero_add]
    exact hguard
  refine ⟨hdown, ?_⟩
  have := status_change_sends env tm (prepareNew m) ms hm (by rw [hdown, hprev]; decide)
  rwa [hdown] at this

/-! ## Facts about the form encoding -/

theorem splitForm_sep (rest : List Char) :
    splitForm (formSep ++ rest) = [] :: splitForm rest := by
  simp [formSep, splitForm]

theorem splitForm_other (c : Char) (cs : List Char)
    (h : formSep.isPrefixOf (c :: cs) = false) :
    splitForm (c :: cs) =
      match splitForm cs with
      | [] => [[c]]
      | part :: parts => (c :: part) :: parts := by
  rw [splitForm]
  intro rest hc hcs
  subst hc hcs
  simp [formSep, List.isPrefixOf] at h

/-- A character that `p` does not hold ends every match of `p` at the front. -/
theorem isPrefixOf_append_cons (p a : List Char) (c : Char) (b : List Char) (h : c ∉ p) :
    p.isPrefixOf (a ++ c :: b) = p.isPrefixOf a := by
  induction p generalizing a with
  | nil => simp [List.isPrefixOf]
  | cons y p ih =>
    have hy : y ≠ c := fun e => h (by simp [e])
    have hp : c ∉ p := fun e => h (by simp [e])
    cases a with
    | nil => simp [List.isPrefixOf, hy]
    | cons x a => simp [List.isPrefixOf, ih a hp]

/-- A `--form` in a text around a character that `--form` does not hold lies before or
after that character. -/
theorem containsForm_append_cons (a : List Char) (c : Char) (b : List Char)
    (h : c ∉ formSep) :
    containsForm (a ++ c :: b) = (containsForm a || containsForm b) := by
  induction a with
  | nil =>
    have hp := isPrefixOf_append_cons formSep [] c b h
    simp only [List.nil_append] at hp
    have hn : formSep.isPrefixOf ([] : List Char) = false := by decide
    simp [containsForm, hp, hn]
  | cons x a ih =>
    have hp := isPrefixOf_append_cons formSep (x :: a) c b h
    simp only [List.cons_append] at hp ⊢
    simp [containsForm, hp, ih, Bool.or_assoc]

/-- A text without `--form` is one part. -/
theorem splitForm_single (t : List Char) (h : containsForm t = false) :
    splitForm t = [t] := by
  induction t with
  | nil => rfl
  | cons x t ih =>
    simp only [containsForm, Bool.or_eq_false_iff] at h
    rw [splitForm_other x t h.1, ih h.2]

/-- A text without `--form`, then a character that `--form` does not hold, then
`--form`: the first part ends right before that `--form`. -/
theorem splitForm_part (t : List Char) (c : Char) (rest : List Char)
    (h : containsForm t = false) (hc : c ∉ formSep) :
    splitForm (t ++ c :: (formSep ++ rest)) = (t ++ [c]) :: splitForm rest := by
  induction t with
  | nil =>
    have hp := isPrefixOf_append_cons formSep [] c (formSep ++ rest) hc
    have hn : formSep.isPrefixOf ([] : List Char) = false := by decide
    simp only [List.nil_append] at hp ⊢
    rw [splitForm_other c _ (hp.trans hn), splitForm_sep]
  | cons x t ih =>
    simp only [containsForm, Bool.or_eq_false_iff] at h
    have hp := isPrefixOf_append_cons formSep (x :: t) c (formSep ++ rest) hc
    simp only [List.cons_append] at hp ⊢
    rw [splitForm_other x _ (hp.trans h.1), ih h.2]

theorem dropWhile_keep (p : Char → Bool) (s : List Char) (h : ∀ c ∈ s, p c = false) :
    s.dropWhile p = s := by
  cases s with
  | nil => rfl
  | cons a s => simp [List.dropWhile, h a (by simp)]

/-- Trimming leaves a text alone that holds none of the trimmed characters. -/
theorem trimWith_keep (p : Char → Bool) (s : List Char) (h : ∀ c ∈ s, p c = false) :
    trimWith p s = s := by
  unfold trimWith
  rw [dropWhile_keep p s h, dropWhile_keep p s.reverse (by simpa using h),
    List.reverse_reverse]

theorem trimWith_left (p : Char → Bool) (a : Char) (s : List Char) (ha : p a = true) :
    trimWith p (a :: s) = trimWith p s := by
  simp [trimWith, List.dropWhile, ha]

theorem trimWith_right (p : Char → Bool) (a : Char) (s : List Char) (z : Char)
    (ha : p a = false) (hz : p z = true) :
    trimWith p (a :: s ++ [z]) = trimWith p (a :: s) := by
  simp [trimWith, List.dropWhile, ha, hz]

theorem trimWith_ends (p : Char → Bool) (a : Char) (s : List Char) (z : Char)
    (ha : p a = false) (hz : p z = false) :
    trimWith p (a :: s ++ [z]) = a :: s ++ [z] := by
  simp [trimWith, List.dropWhile, ha, hz]

/-- What `plainText` says of the characters. -/
theorem plainText_chars (s : List Char) (h : plainText s = true) :
    (∀ c ∈ s, isSpace c = false) ∧ (∀ c ∈ s, isQuote c = false) ∧ '=' ∉ s ∧
      containsForm s = false := by
  simp only [plainText, Bool.and_eq_true, List.all_eq_true, Bool.not_eq_true',
    bne_iff_ne, ne_eq] at h
  refine ⟨fun c hc => (h.1 c hc).1.1, fun c hc => (h.1 c hc).1.2, ?_, h.2⟩
  intro he
  exact (h.1 _ he).2 rfl

/-- The part of one field, with or without the space before the next field, sets the
key of the field to its value. -/
theorem parseFormPart_field (formData : FormMap) (k v tail : List Char)
    (hk : k ≠ []) (hpk : plainText k = true) (hpv : plainText v = true)
    (htail : tail = [] ∨ tail = [space]) :
    parseFormPart formData
      (space :: singleQuote :: ((k ++ '=' :: v) ++ [singleQuote]) ++ tail) =
      formSet formData k v := by
  obtain ⟨hks, hkq, hke, _⟩ := plainText_chars k hpk
  obtain ⟨hvs, hvq, _, _⟩ := plainText_chars v hpv
  have hsp : isSpace space = true := by decide
  have hqs : isSpace singleQuote = false := by decide
  have hqq : isQuote singleQuote = true := by decide
  have hes : isSpace '=' = false := by decide
  have heq : isQuote '=' = false := by decide
  have hcs : ∀ c ∈ k ++ '=' :: v, isSpace c = false := by
    intro c hc
    rcases List.mem_append.mp hc with h | h
    · exact hks c h
    · rcases List.mem_cons.mp h with h | h
      · rw [h]; exact hes
      · exact hvs c h
  have hcq : ∀ c ∈ k ++ '=' :: v, isQuote c = false := by
    intro c hc
    rcases List.mem_append.mp hc with h | h
    · exact hkq c h
    · rcases List.mem_cons.mp h with h | h
      · rw [h]; exact heq
      · exact hvq c h
  have h1 : trimSpace (space :: singleQuote :: ((k ++ '=' :: v) ++ [singleQuote]) ++ tail) =
      singleQuote :: ((k ++ '=' :: v) ++ [singleQuote]) := by
    unfold trimSpace
    rw [List.cons_append, trimWith_left _ _ _ hsp]
    rcases htail with ht | ht
    · rw [ht, List.append_nil]
      exact trimWith_ends _ _ _ _ hqs hqs
    · rw [ht, trimWith_right _ _ _ _ hqs hsp]
      exact trimWith_ends _ _ _ _ hqs hqs
  have h2 : trimQuotes (singleQuote :: ((k ++ '=' :: v) ++ [singleQuote])) = k ++ '=' :: v := by
    unfold trimQuotes
    rw [trimWith_left _ _ _ hqq]
    obtain ⟨k0, k1, rfl⟩ := List.exists_cons_of_ne_nil hk
    have hk0 : isQuote k0 = false := hkq k0 (by simp)
    rw [List.cons_append, trimWith_right _ _ _ _ hk0 hqq]
    exact trimWith_keep _ _ hcq
  have h3 : trimSpace (k ++ '=' :: v) = k ++ '=' :: v := trimWith_keep _ _ hcs
  have h4 : stringsIndex '=' (k ++ '=' :: v) = (k.length : Int) := by
    unfold stringsIndex
    rw [if_pos (by simp), List.indexOf_append_of_not_mem hke]
    simp
  have hlen : 0 < k.length := List.length_pos.mpr hk
  have h5 : (k ++ '=' :: v).take k.length = k := by simp
  have h6 : (k ++ '=' :: v).drop (k.length + 1) = v := by
    rw [← List.drop_drop]
    simp
  have h7 : trimQuotes (trimSpace k) = k := by
    unfold trimSpace trimQuotes
    rw [trimWith_keep _ _ hks, trimWith_keep _ _ hkq]
  have h8 : trimQuotes (trimSpace v) = v := by
    unfold trimSpace trimQuotes
    rw [trimWith_keep _ _ hvs, trimWith_keep _ _ hvq]
  unfold parseFormPart
  simp only [h1, h2, h3, h4]
  rw [if_neg (by simp), if_pos (by exact_mod_cast hlen)]
  simp only [Int.toNat_ofNat, h5, h6, h7, h8]

/-- The empty part is skipped (lines 291-293). -/
theorem parseFormPart_nil (formData : FormMap) : parseFormPart formData [] = formData := by
  simp [parseFormPart, trimSpace, trimWith]

/-- The part of a field holds no `--form`. -/
theorem containsForm_field (k v : List Char)
    (hpk : plainText k = true) (hpv : plainText v = true) :
    containsForm (space :: singleQuote :: ((k ++ '=' :: v) ++ [singleQuote])) = false := by
  obtain ⟨_, _, _, hk⟩ := plainText_chars k hpk
  obtain ⟨_, _, _, hv⟩ := plainText_chars v hpv
  have hs : space ∉ formSep := by decide
  have hq : singleQuote ∉ formSep := by decide
  have he : '=' ∉ formSep := by decide
  have e1 := containsForm_append_cons [] space
    (singleQuote :: ((k ++ '=' :: v) ++ [singleQuote])) hs
  have e2 := containsForm_append_cons [] singleQuote ((k ++ '=' :: v) ++ [singleQuote]) hq
  have e3 := containsForm_append_cons (k ++ '=' :: v) singleQuote [] hq
  have e4 := containsForm_append_cons k '=' v he
  simp only [List.nil_append] at e1 e2
  rw [e1, e2, e3, e4, hk, hv]
  rfl

/-- A non-empty encoding starts with `--form`. -/
theorem formEncoding_head (p : List Char × List Char) (rest : List (List Char × List Char)) :
    ∃ x, formEncoding (p :: rest) = formSep ++ x := by
  obtain ⟨k, v⟩ := p
  cases rest with
  | nil => exact ⟨_, rfl⟩
  | cons q rest =>
    refine ⟨space :: singleQuote :: ((k ++ '=' :: v) ++ [singleQuote]) ++
      space :: formEncoding (q :: rest), ?_⟩
    simp [formEncoding, formField]

/-- Parsing the encoding sets the keys of the pairs, in their order. -/
theorem parse_encoding (pairs : List (List Char × List Char))
    (hne : ∀ p ∈ pairs, p.1 ≠ [])
    (hplain : ∀ p ∈ pairs, plainText p.1 = true ∧ plainText p.2 = true)
    (formData : FormMap) :
    (splitForm (formEncoding pairs)).foldl parseFormPart formData =
      pairs.foldl (fun m p => formSet m p.1 p.2) formData := by
  induction pairs generalizing formData with
  | nil => simp [formEncoding, splitForm, parseFormPart_nil]
  | cons p rest ih =>
    obtain ⟨k, v⟩ := p
    have hk : k ≠ [] := hne (k, v) (by simp)
    have hp := hplain (k, v) (by simp)
    have hcf := containsForm_field k v hp.1 hp.2
    cases rest with
    | nil =>
      have henc : formEncoding [(k, v)] =
          formSep ++ (space :: singleQuote :: ((k ++ '=' :: v) ++ [singleQuote])) := rfl
      rw [henc, splitForm_sep, splitForm_single _ hcf]
      have hf := parseFormPart_field formData k v [] hk hp.1 hp.2 (Or.inl rfl)
      rw [List.append_nil] at hf
      simp only [List.foldl_cons, List.foldl_nil, parseFormPart_nil, hf]
    | cons q rest =>
      obtain ⟨x, hx⟩ := formEncoding_head q rest
      have henc : formEncoding ((k, v) :: q :: rest) =
          formSep ++ ((space :: singleQuote :: ((k ++ '=' :: v) ++ [singleQuote])) ++
            space :: (formSep ++ x)) := by
        rw [← hx]
        simp [formEncoding, formField]
      have hs : space ∉ formSep := by decide
      have ih2 := ih (fun p hp => hne p (List.mem_cons_of_mem _ hp))
        (fun p hp => hplain p (List.mem_cons_of_mem _ hp)) (formSet formData k v)
      rw [hx, splitForm_sep, List.foldl_cons, parseFormPart_nil] at ih2
      rw [henc, splitForm_sep, splitForm_part _ space x hcf hs]
      have hf := parseFormPart_field formData k v [space] hk hp.1 hp.2 (Or.inr rfl)
      simp only [List.foldl_cons, parseFormPart_nil, hf]
      exact ih2

/-- Setting a key that the map does not hold appends it. -/
theorem formSet_fresh (formData : FormMap) (k v : List Char)
    (h : k ∉ formData.map Prod.fst) : formSet formData k v = formData ++ [(k, v)] := by
  induction formData with
  | nil => rfl
  | cons e rest ih =>
    obtain ⟨k1, v1⟩ := e
    simp only [List.map_cons, List.mem_cons, not_or] at h
    simp only [formSet, List.cons_append]
    rw [if_neg (fun e => h.1 e.symm), ih h.2]

/-- Setting pairs with distinct new keys one after the other appends them. -/
theorem foldl_formSet (pairs : List (List Char × List Char)) (formData : FormMap)
    (h : ((formData ++ pairs).map Prod.fst).Nodup) :
    pairs.foldl (fun m p => formSet m p.1 p.2) formData = formData ++ pairs := by
  induction pairs generalizing formData with
  | nil => simp
  | cons p rest ih =>
    have hfresh : p.1 ∉ formData.map Prod.fst := by
      intro hmem
      rw [List.map_append, List.map_cons] at h
      exact (List.nodup_append.mp h).2.2 hmem (by simp)
    rw [List.foldl_cons, formSet_fresh formData p.1 p.2 hfresh]
    have := ih (formData ++ [(p.1, p.2)]) (by simpa using h)
    simpa using this

/-! ## Theorems -/

/-- C1 (as amended): for every response code other than 401, `getStatusFromCode` returns
"up" on [200,300), "redirect" on [300,400) and "down" otherwise, which covers 0 and the
negative codes. -/
theorem getStatusFromCode_cases (c : Int) (h : c ≠ 401) :
    getStatusFromCode c =
      if 200 ≤ c ∧ c < 300 then "up"
      else if 300 ≤ c ∧ c < 400 then "redirect" else "down" := by
  unfold getStatusFromCode
  split_ifs <;> rfl

/-- C1, witness: code 0, the transport-error code, is classified "down". -/
theorem getStatusFromCode_cases_witness :
    (0 : Int) ≠ 401 ∧ getStatusFromCode 0 =
      if 200 ≤ (0 : Int) ∧ (0 : Int) < 300 then "up"
      else if 300 ≤ (0 : Int) ∧ (0 : Int) < 400 then "redirect" else "down" :=
  ⟨by decide, getStatusFromCode_cases 0 (by decide)⟩

/-- C1, counterexample: code 302 is not 401 and not in [200,300), yet it is classified
"redirect", not "down". -/
theorem getStatusFromCode_redirect_counterexample :
    (302 : Int) ≠ 401 ∧ ¬ (200 ≤ (302 : Int) ∧ (302 : Int) < 300) ∧
      getStatusFromCode 302 = "redirect" ∧ getStatusFromCode 302 ≠ "down" := by
  decide

/-- C2 (code at the failing input): code 401 is classified "down", and no code at all is
classified "unauthorized", because the case `code >= 400 && code < 500` comes first. -/
theorem getStatusFromCode_401_down :
    getStatusFromCode 401 = "down" ∧ ∀ c : Int, getStatusFromCode c ≠ "unauthorized" := by
  refine ⟨by decide, ?_⟩
  intro c
  unfold getStatusFromCode
  split_ifs <;> first | decide | omega

/-- C3 (as amended): in a cycle without credential error whose raw state is down or
unauthorized, whose `FailureCount` is a Go `int` other than the largest, and in which
the pending-too-long guard does not fire (the previous status is not pending, or
`LastChecked` plus the guard duration of line 475 is not before the current time),
`FailureCount` grows by exactly one and the new `Status` is "down" once the new count
reaches `FailureThreshold`, else "pending" if the previous status was pending, else the
previous status. -/
theorem checkMonitor_failure_step (env : CycleEnv) (tm : ThrottleMap) (m : Monitor)
    (hcred : credentialError env m = false)
    (hraw : rawState env m = "down" ∨ rawState env m = "unauthorized")
    (hguard : previousStatus m ≠ "pending" ∨
      ¬ (m.LastChecked + guardDuration m.CheckInterval < env.nowGuard))
    (hlo : -9223372036854775808 ≤ m.FailureCount)
    (hhi : m.FailureCount < 9223372036854775807) :
    (checkMonitor env tm m).monitor.FailureCount = m.FailureCount + 1 ∧
    (checkMonitor env tm m).monitor.Status =
      if m.FailureCount + 1 ≥ m.FailureThreshold then "down"
      else if previousStatus m = "pending" then "pending" else previousStatus m :=
  failing_step env tm m hcred hraw hguard hlo hhi

/-- C3, witness: the pending sample monitor (threshold 3, count 0, interval 60 s, so a
guard duration of 180 s) gets a 500 one minute after its last check. -/
theorem checkMonitor_failure_step_witness :
    guardDuration sampleMonitor.CheckInterval = 180 * Second ∧
    ((checkMonitor (envWithCode 500) [] sampleMonitor).monitor.FailureCount =
        sampleMonitor.FailureCount + 1 ∧
     (checkMonitor (envWithCode 500) [] sampleMonitor).monitor.Status =
      if sampleMonitor.FailureCount + 1 ≥ sampleMonitor.FailureThreshold then "down"
      else if previousStatus sampleMonitor = "pending" then "pending"
      else previousStatus sampleMonitor) :=
  ⟨by decide,
   checkMonitor_failure_step (envWithCode 500) [] sampleMonitor (by decide)
    (Or.inl (by decide)) (Or.inr (by decide)) (by decide) (by decide)⟩

/-- C3, counterexample: two failing cycles without credential error in which the
previous status is not pending or `LastChecked` is not older than three check
intervals.  An up monitor with count 2^63-1 and threshold 3
gets a 500: the count becomes -2^63 and the `Status` stays "up".  A pending monitor with
a check interval of 4000000000 s, last checked 60 s before, gets a 500: `LastChecked` is
not older than three check intervals, yet the 64-bit guard duration is negative, the
guard fires and the `Status` is "down" at count 1 below the threshold 3. -/
theorem checkMonitor_failure_step_counterexample :
    (credentialError (envWithCode 500) maxCountMonitor = false ∧
      rawState (envWithCode 500) maxCountMonitor = "down" ∧
      previousStatus maxCountMonitor = "up" ∧
      maxCountMonitor.FailureCount = 9223372036854775807 ∧
      (checkMonitor (envWithCode 500) [] maxCountMonitor).monitor.FailureCount =
        -9223372036854775808 ∧
      (checkMonitor (envWithCode 500) [] maxCountMonitor).monitor.Status = "up") ∧
    (credentialError (envWithCode 500) longIntervalMonitor = false ∧
      rawState (envWithCode 500) longIntervalMonitor = "down" ∧
      previousStatus longIntervalMonitor = "pending" ∧
      ¬ (longIntervalMonitor.LastChecked + longIntervalMonitor.CheckInterval * 3 * Second <
          (envWithCode 500).nowGuard) ∧
      guardDuration longIntervalMonitor.CheckInterval = -6446744073709551616 ∧
      (checkMonitor (envWithCode 500) [] longIntervalMonitor).monitor.FailureCount = 1 ∧
      longIntervalMonitor.FailureThreshold = 3 ∧
      (checkMonitor (envWithCode 500) [] longIntervalMonitor).monitor.Status = "down") := by
  decide

/-- C6: in a cycle without credential error whose previous status is pending and whose
`LastChecked` plus three check intervals is before the current time, the new `Status`
is "down" for every probe outcome.  The check interval is taken not to be below
-3074457345 (the scheduler runs no interval below 10): from there on the 64-bit guard
duration of line 475 is at most three check intervals. -/
theorem pendingTooLong_forces_down (env : CycleEnv) (tm : ThrottleMap) (m : Monitor)
    (hcred : credentialError env m = false)
    (hprev : previousStatus m = "pending")
    (hci : -3074457345 ≤ m.CheckInterval)
    (hold : m.LastChecked + (m.CheckInterval * 3) * Second < env.nowGuard) :
    (checkMonitor env tm m).monitor.Status = "down" := by
  have hle := guardDuration_le m.CheckInterval hci
  rw [checkMonitor_Status env tm m hcred, if_pos ⟨hprev, by linarith⟩]

/-- C6, witness: the never-checked pending monitor gets a 200, keeps `FailureCount` 0
and still ends "down". -/
theorem pendingTooLong_forces_down_witness :
    (checkMonitor (envWithCode 200) [] staleMonitor).monitor.Status = "down" ∧
      (checkMonitor (envWithCode 200) [] staleMonitor).monitor.FailureCount = 0 :=
  ⟨pendingTooLong_forces_down (envWithCode 200) [] staleMonitor (by decide) (by decide)
    (by decide) (by decide), by decide⟩

/-- C7 (code at the failing input): a monitor that is up with threshold 1 and whose
credential lookup fails ends the cycle with `ResponseCode` 0 and `FailureCount` 1, which
reaches the threshold, yet its `Status` is still "up"; only the lookup was called. -/
theorem credentialError_keeps_status :
    credentialError (envWithCode 200) credMonitor = true ∧
    (checkMonitor (envWithCode 200) [] credMonitor).monitor.ResponseCode = 0 ∧
    (checkMonitor (envWithCode 200) [] credMonitor).monitor.FailureCount = 1 ∧
    (checkMonitor (envWithCode 200) [] credMonitor).monitor.FailureThreshold = 1 ∧
    (checkMonitor (envWithCode 200) [] credMonitor).monitor.Status = "up" ∧
    (checkMonitor (envWithCode 200) [] credMonitor).events = [Event.getCredential "c9"] := by
  decide

/-- C8: in a cycle whose credential lookup fails no executor is called, neither
`CurlService.ExecuteCurlRequest` nor `http.Client.Do`, whatever the `RequestType`. -/
theorem credentialError_no_executor (env : CycleEnv) (tm : ThrottleMap) (m : Monitor)
    (hcred : credentialError env m = true) :
    ∀ e ∈ (checkMonitor env tm m).events, e.isExecutor = false := by
  rw [checkMonitor_credentialError env tm m hcred]
  intro e he
  simp only [List.mem_singleton] at he
  subst he
  rfl

/-- C8, witness: the curl monitor and the HTTP monitor with an unresolvable credential. -/
theorem credentialError_no_executor_witness :
    (∀ e ∈ (checkMonitor (envWithCode 200) [] credCurlMonitor).events,
        e.isExecutor = false) ∧
    (∀ e ∈ (checkMonitor (envWithCode 200) [] credMonitor).events,
        e.isExecutor = false) :=
  ⟨credentialError_no_executor (envWithCode 200) [] credCurlMonitor (by decide),
   credentialError_no_executor (envWithCode 200) [] credMonitor (by decide)⟩

/-- C4 (as amended): threshold law.  A monitor with `FailureThreshold` at least 1 (a Go
`int`) and `FailureCount` 0 that is pending or up goes through a run of failing cycles
(no credential error, raw state down or unauthorized) in none of which the
pending-too-long guard fires: after each of the first `FailureThreshold - 1` cycles the
`Status` is still the prior one, and after cycle number `FailureThreshold` it is
"down". -/
theorem threshold_law (envs : List CycleEnv) (tm : ThrottleMap) (m : Monitor)
    (hT : 1 ≤ m.FailureThreshold) (hT64 : m.FailureThreshold < 9223372036854775808)
    (hfc : m.FailureCount = 0)
    (hs : m.Status = "pending" ∨ m.Status = "up")
    (hrun : RunAll FailingCycle envs tm m) (k : Nat) (hk : k ≤ envs.length) :
    ((k : Int) < m.FailureThreshold →
        (runCycles (envs.take k) tm m).1.Status = m.Status) ∧
    ((k : Int) = m.FailureThreshold →
        (runCycles (envs.take k) tm m).1.Status = "down") := by
  have hs3 : m.Status = "pending" ∨ m.Status = "up" ∨ m.Status = "down" := by tauto
  have hlen : (envs.take k).length = k := by simp [hk]
  constructor
  · intro hlt
    obtain ⟨h1, _⟩ := failing_run (envs.take k) tm m hs3
      (RunAll_take FailingCycle envs k tm m hrun) (by rw [hfc]; decide)
      (by rw [hlen, hfc]; omega)
    rw [hlen, hfc] at h1
    exact h1 (by omega)
  · intro heq
    obtain ⟨_, h2⟩ := failing_run (envs.take k) tm m hs3
      (RunAll_take FailingCycle envs k tm m hrun) (by rw [hfc]; decide)
      (by rw [hlen, hfc]; omega)
    rw [hlen, hfc] at h2
    exact h2 (by omega) (by omega)

/-- C4, witness: threshold 3, pending, three failing cycles one minute apart give
pending, pending, down. -/
theorem threshold_law_witness :
    (runCycles (failingRun.take 1) [] sampleMonitor).1.Status = sampleMonitor.Status ∧
    (runCycles (failingRun.take 2) [] sampleMonitor).1.Status = sampleMonitor.Status ∧
    (runCycles (failingRun.take 3) [] sampleMonitor).1.Status = "down" ∧
    sampleMonitor.Status = "pending" ∧ sampleMonitor.FailureThreshold = 3 :=
  have hrun : RunAll FailingCycle failingRun [] sampleMonitor :=
    ⟨⟨by decide, Or.inl (by decide), Or.inr (by decide)⟩,
     ⟨by decide, Or.inl (by decide), Or.inr (by decide)⟩,
     ⟨by decide, Or.inl (by decide), Or.inr (by decide)⟩, trivial⟩
  ⟨(threshold_law failingRun [] sampleMonitor (by decide) (by decide) (by decide)
      (Or.inl (by decide)) hrun 1 (by decide)).1 (by decide),
   (threshold_law failingRun [] sampleMonitor (by decide) (by decide) (by decide)
      (Or.inl (by decide)) hrun 2 (by decide)).1 (by decide),
   (threshold_law failingRun [] sampleMonitor (by decide) (by decide) (by decide)
      (Or.inl (by decide)) hrun 3 (by decide)).2 (by decide),
   by decide, by decide⟩

/-- C4, counterexample: threshold 3, count 0, pending.  Last checked at the zero instant:
the first failing cycle (a 500, no credential error) already ends "down".  Last checked
60 s before with a check interval of 4000000000 s, so that `LastChecked` is not older
than three check intervals: the 64-bit guard duration is negative and the first failing
cycle ends "down" as well. -/
theorem threshold_law_counterexample :
    (staleMonitor.FailureThreshold = 3 ∧ staleMonitor.FailureCount = 0 ∧
      staleMonitor.Status = "pending" ∧
      credentialError (envWithCode 500) staleMonitor = false ∧
      rawState (envWithCode 500) staleMonitor = "down" ∧
      (checkMonitor (envWithCode 500) [] staleMonitor).monitor.FailureCount = 1 ∧
      (checkMonitor (envWithCode 500) [] staleMonitor).monitor.Status = "down") ∧
    (longIntervalMonitor.FailureThreshold = 3 ∧ longIntervalMonitor.FailureCount = 0 ∧
      longIntervalMonitor.Status = "pending" ∧
      credentialError (envWithCode 500) longIntervalMonitor = false ∧
      rawState (envWithCode 500) longIntervalMonitor = "down" ∧
      ¬ (longIntervalMonitor.LastChecked + longIntervalMonitor.CheckInterval * 3 * Second <
          (envWithCode 500).nowGuard) ∧
      (checkMonitor (envWithCode 500) [] longIntervalMonitor).monitor.FailureCount = 1 ∧
      (checkMonitor (envWithCode 500) [] longIntervalMonitor).monitor.Status = "down") := by
  decide

/-- C5 (as amended): a cycle whose probe returns a 2xx code and in which the
pending-too-long guard does not fire (the previous status is not pending, or
`LastChecked` plus the guard duration of line 475 is not before the current time) sets
`FailureCount` to 0 and `Status` to "up" from any previous state; and a monitor that is
up with count 0 is still up with count 0 after any run of cycles whose probe returns a
2xx code. -/
theorem success_cycle_up :
    (∀ (env : CycleEnv) (tm : ThrottleMap) (m : Monitor),
      SuccessCycle env m →
      (previousStatus m ≠ "pending" ∨
        ¬ (m.LastChecked + guardDuration m.CheckInterval < env.nowGuard)) →
      (checkMonitor env tm m).monitor.FailureCount = 0 ∧
        (checkMonitor env tm m).monitor.Status = "up") ∧
    (∀ (envs : List CycleEnv) (tm : ThrottleMap) (m : Monitor),
      m.Status = "up" → m.FailureCount = 0 →
      RunAll SuccessCycle envs tm m →
      (runCycles envs tm m).1.Status = "up" ∧ (runCycles envs tm m).1.FailureCount = 0) := by
  refine ⟨success_step, ?_⟩
  intro envs
  induction envs with
  | nil =>
    intro tm m hs hfc _
    exact ⟨hs, hfc⟩
  | cons env rest ih =>
    intro tm m hs _ hrun
    have hprev : previousStatus m ≠ "pending" := by
      rw [previousStatus_of_ne_empty m (by rw [hs]; decide), hs]
      decide
    obtain ⟨h0, hup⟩ := success_step env tm m hrun.1 (Or.inl hprev)
    exact ih _ _ hup h0 hrun.2

/-- C5, witness: the down monitor with count 3 gets a 204 and is up with count 0; the
up monitor stays up with count 0 over three 2xx cycles. -/
theorem success_cycle_up_witness :
    ((checkMonitor (envWithCode 204) [] downMonitor).monitor.FailureCount = 0 ∧
      (checkMonitor (envWithCode 204) [] downMonitor).monitor.Status = "up") ∧
    ((runCycles successRun [] upMonitor).1.Status = "up" ∧
      (runCycles successRun [] upMonitor).1.FailureCount = 0) :=
  ⟨success_cycle_up.1 (envWithCode 204) [] downMonitor
      ⟨by decide, 204, by decide, by decide, by decide⟩ (Or.inl (by decide)),
   success_cycle_up.2 successRun [] upMonitor (by decide) (by decide)
      ⟨⟨by decide, 200, by decide, by decide, by decide⟩,
       ⟨by decide, 204, by decide, by decide, by decide⟩,
       ⟨by decide, 299, by decide, by decide, by decide⟩, trivial⟩⟩

/-- C5, counterexample: a pending monitor with a check interval of 4000000000 s, last
checked 60 s before, gets a 200.  `LastChecked` is not older than three check intervals,
yet the 64-bit guard duration of line 475 is negative, the guard fires, and the cycle
ends with `Status` "down" (and `FailureCount` 0). -/
theorem success_cycle_up_counterexample :
    credentialError (envWithCode 200) longIntervalMonitor = false ∧
    probeCode (envWithCode 200) longIntervalMonitor = some 200 ∧
    previousStatus longIntervalMonitor = "pending" ∧
    ¬ (longIntervalMonitor.LastChecked + longIntervalMonitor.CheckInterval * 3 * Second <
        (envWithCode 200).nowGuard) ∧
    guardDuration longIntervalMonitor.CheckInterval = -6446744073709551616 ∧
    (checkMonitor (envWithCode 200) [] longIntervalMonitor).monitor.FailureCount = 0 ∧
    (checkMonitor (envWithCode 200) [] longIntervalMonitor).monitor.Status = "down" := by
  decide

/-- C9 (as amended): in a cycle whose notification methods are fetched and whose new
`Status` differs from the previous status, `SendNotification` is called with the new
status, whatever the throttle map holds. -/
theorem status_change_notifies (env : CycleEnv) (tm : ThrottleMap) (m : Monitor)
    (ms : List NotificationMethod) (hm : env.methods = Answer.ok ms)
    (hne : (checkMonitor env tm m).monitor.Status ≠ previousStatus m) :
    (checkMonitor env tm m).notifiedWith (checkMonitor env tm m).monitor.Status = true := by
  cases hcred : credentialError env m
  · have hd : (notifyDecision env tm m.ID (previousStatus m)
        (checkMonitor env tm m).monitor.Status
        (checkMonitor env tm m).monitor.FailureCount).1 = true := by
      simp [notifyDecision, hne]
    unfold CycleResult.notifiedWith
    rw [checkMonitor_events env tm m ms hcred hm, hd]
    simp [List.any_append, Event.isSendWith]
  · exfalso
    apply hne
    rw [checkMonitor_credentialError env tm m hcred]
    rfl

/-- C9, witness: the down monitor gets a 200 while the throttle map says it was notified
a second ago; it goes up and the notification is sent with status "up". -/
theorem status_change_notifies_witness :
    previousStatus downMonitor = "down" ∧
    (checkMonitor (envWithCode 200) (notifiedAt 1059) downMonitor).monitor.Status = "up" ∧
    (checkMonitor (envWithCode 200) (notifiedAt 1059) downMonitor).notifiedWith
      (checkMonitor (envWithCode 200) (notifiedAt 1059) downMonitor).monitor.Status = true :=
  ⟨by decide, by decide,
   status_change_notifies (envWithCode 200) (notifiedAt 1059) downMonitor [] (by decide)
     (by decide)⟩

/-- C9, counterexample: the down monitor gets a 200 and goes up, but the notification
methods cannot be fetched, so the cycle returns before `SendNotification`. -/
theorem status_change_notifies_counterexample :
    previousStatus downMonitor = "down" ∧
    (checkMonitor (envNoMethods 200) [] downMonitor).monitor.Status = "up" ∧
    (checkMonitor (envNoMethods 200) [] downMonitor).notified = false ∧
    (checkMonitor (envNoMethods 200) [] downMonitor).ret = some "database is locked" := by
  decide

/-- C10 (as amended): in a cycle without credential error whose notification methods
are fetched, where the new `Status` and the previous status are both "down" and a
last-notified instant `t0` is recorded, `FailureCount` was incremented in this cycle (a
64-bit increment) and `SendNotification` is called exactly when the elapsed time since
`t0` is strictly greater than `calculateNotificationInterval` of the incremented
count. -/
theorem repeated_down_notifies_iff (env : CycleEnv) (tm : ThrottleMap) (m : Monitor)
    (ms : List NotificationMethod) (t0 : Int)
    (hcred : credentialError env m = false) (hm : env.methods = Answer.ok ms)
    (hs : (checkMonitor env tm m).monitor.Status = "down")
    (hp : previousStatus m = "down")
    (ht : tm.get m.ID = some t0) :
    (checkMonitor env tm m).monitor.FailureCount = wrapInt64 (m.FailureCount + 1) ∧
    ((checkMonitor env tm m).notified = true ↔
      env.nowSince - t0 >
        calculateNotificationInterval (checkMonitor env tm m).monitor.FailureCount) := by
  constructor
  · have hst := checkMonitor_Status env tm m hcred
    have hne := rawState_ne_empty env m
    rw [hs, hp] at hst
    rw [checkMonitor_FailureCount env tm m hcred, hp]
    have hg : ¬ ("down" = "pending" ∧
        m.LastChecked + guardDuration m.CheckInterval < env.nowGuard) := by
      intro h
      exact absurd h.1 (by decide)
    rw [if_neg hg] at hst
    unfold transition at hst ⊢
    by_cases hraw : rawState env m = "down" ∨ rawState env m = "unauthorized"
    · rw [if_pos hraw]
      split_ifs <;> rfl
    · exfalso
      rw [if_neg hraw] at hst
      by_cases hup : rawState env m = "up"
      · rw [if_pos hup, hup] at hst
        revert hst
        decide
      · rw [if_neg hup, if_neg hne] at hst
        exact hraw (Or.inl hst.symm)
  · rw [checkMonitor_notified env tm m ms hcred hm, hs, hp]
    simp only [notifyDecision, ne_eq, not_true_eq_false, if_false, if_true, ht, gt_iff_lt]
    split_ifs with h
    · exact ⟨fun _ => h, fun _ => rfl⟩
    · exact ⟨fun hc => absurd hc (by decide), fun hc => absurd hc h⟩

/-- C10, witness: the down monitor (count 3) fails again 900.001 seconds after its last
notification; the interval for count 4 is 900 seconds, so the notification is sent. -/
theorem repeated_down_notifies_iff_witness :
    (checkMonitor (envWithCode 500) [("m1", 160 * Second - 1000000)]
        downMonitor).monitor.FailureCount = wrapInt64 (downMonitor.FailureCount + 1) ∧
    ((checkMonitor (envWithCode 500) [("m1", 160 * Second - 1000000)]
        downMonitor).notified = true ↔
      (envWithCode 500).nowSince - (160 * Second - 1000000) >
        calculateNotificationInterval
          (checkMonitor (envWithCode 500) [("m1", 160 * Second - 1000000)]
            downMonitor).monitor.FailureCount) :=
  repeated_down_notifies_iff (envWithCode 500) [("m1", 160 * Second - 1000000)] downMonitor []
    (160 * Second - 1000000) (by decide) (by decide) (by decide) (by decide) (by decide)

/-- C10, counterexample: three cycles that end with `Status` and previous status "down",
a recorded last-notified instant and an elapsed time that is at least the interval, and
that send no notification: the elapsed time equals the interval exactly (900 s at count
4); the notification methods cannot be fetched; the credential lookup fails. -/
theorem repeated_down_notifies_counterexample :
    (previousStatus downMonitor = "down" ∧
      (checkMonitor (envWithCode 500) (notifiedAt 160) downMonitor).monitor.Status = "down" ∧
      (notifiedAt 160).get downMonitor.ID = some (160 * Second) ∧
      (envWithCode 500).nowSince - 160 * Second =
        calculateNotificationInterval
          (checkMonitor (envWithCode 500) (notifiedAt 160) downMonitor).monitor.FailureCount ∧
      (checkMonitor (envWithCode 500) (notifiedAt 160) downMonitor).notified = false) ∧
    (previousStatus downMonitor = "down" ∧
      (checkMonitor (envNoMethods 500) (notifiedAt 0) downMonitor).monitor.Status = "down" ∧
      (notifiedAt 0).get downMonitor.ID = some (0 * Second) ∧
      (envNoMethods 500).nowSince - 0 * Second ≥
        calculateNotificationInterval
          (checkMonitor (envNoMethods 500) (notifiedAt 0) downMonitor).monitor.FailureCount ∧
      (checkMonitor (envNoMethods 500) (notifiedAt 0) downMonitor).notified = false) ∧
    (previousStatus credDownMonitor = "down" ∧
      (checkMonitor (envWithCode 500) (notifiedAt 0) credDownMonitor).monitor.Status = "down" ∧
      (notifiedAt 0).get credDownMonitor.ID = some (0 * Second) ∧
      (envWithCode 500).nowSince - 0 * Second ≥
        calculateNotificationInterval
          (checkMonitor (envWithCode 500) (notifiedAt 0)
            credDownMonitor).monitor.FailureCount ∧
      (checkMonitor (envWithCode 500) (notifiedAt 0) credDownMonitor).notified = false) := by
  decide

/-- C11: of two consecutive cycles that both end with `Status` "down" and previous
status "down", when the time from the first cycle's notification stamp to the second
cycle's reading of the clock is less than `calculateNotificationInterval` of the second
cycle's `FailureCount`, at most one calls `SendNotification`. -/
theorem debounce_two_cycles (env1 env2 : CycleEnv) (tm : ThrottleMap) (m : Monitor)
    (hp1 : previousStatus m = "down")
    (hs1 : (checkMonitor env1 tm m).monitor.Status = "down")
    (hs2 : (checkMonitor env2 (checkMonitor env1 tm m).lastNotified
      (checkMonitor env1 tm m).monitor).monitor.Status = "down")
    (hgap : env2.nowSince - env1.nowStamp <
      calculateNotificationInterval
        (checkMonitor env2 (checkMonitor env1 tm m).lastNotified
          (checkMonitor env1 tm m).monitor).monitor.FailureCount) :
    ¬ ((checkMonitor env1 tm m).notified = true ∧
       (checkMonitor env2 (checkMonitor env1 tm m).lastNotified
          (checkMonitor env1 tm m).monitor).notified = true) := by
  rintro ⟨hn1, hn2⟩
  have hstamp := notified_down_stamps env1 tm m hs1 hp1 hn1
  have hp2 : previousStatus (checkMonitor env1 tm m).monitor = "down" := by
    rw [previousStatus_of_ne_empty _ (by rw [hs1]; decide), hs1]
  rw [← checkMonitor_ID env1 tm m] at hstamp
  have := notified_down_elapsed env2 _ _ env1.nowStamp hs2 hp2 hstamp hn2
  omega

/-- C11, witness: the down monitor fails at 1060 s with no recorded notification and is
notified; it fails again at 1120 s, inside the 900 s interval, and is not. -/
theorem debounce_two_cycles_witness :
    (checkMonitor (envAt 1060 500) [] downMonitor).notified = true ∧
    ¬ ((checkMonitor (envAt 1060 500) [] downMonitor).notified = true ∧
       (checkMonitor (envAt 1120 500) (checkMonitor (envAt 1060 500) [] downMonitor).lastNotified
          (checkMonitor (envAt 1060 500) [] downMonitor).monitor).notified = true) :=
  ⟨by decide,
   debounce_two_cycles (envAt 1060 500) (envAt 1120 500) [] downMonitor (by decide) (by decide)
     (by decide) (by decide)⟩

/-- C12: `calculateNotificationInterval` is 5 minutes below 3 failures, 15 minutes from 3
to 9, 30 minutes from 10 to 19 and 1 hour from 20 on; it is non-decreasing in the
failure count and always between 5 minutes and 1 hour. -/
theorem calculateNotificationInterval_steps (a : Int) :
    (calculateNotificationInterval a =
      if a < 3 then 5 * Minute
      else if 3 ≤ a ∧ a < 10 then 15 * Minute
      else if 10 ≤ a ∧ a < 20 then 30 * Minute
      else Hour) ∧
    (∀ b : Int, a ≤ b →
      calculateNotificationInterval a ≤ calculateNotificationInterval b) ∧
    5 * Minute ≤ calculateNotificationInterval a ∧
    calculateNotificationInterval a ≤ Hour := by
  refine ⟨?_, ?_, ?_, ?_⟩
  · unfold calculateNotificationInterval
    split_ifs <;> first | rfl | omega
  · intro b hab
    unfold calculateNotificationInterval
    split_ifs <;> simp only [Hour, Minute, Second] <;> omega
  · unfold calculateNotificationInterval
    split_ifs <;> simp only [Hour, Minute, Second] <;> omega
  · unfold calculateNotificationInterval
    split_ifs <;> simp only [Hour, Minute, Second] <;> omega

/-- C12, witness: the four steps in nanoseconds, and one instance of monotonicity. -/
theorem calculateNotificationInterval_steps_witness :
    calculateNotificationInterval 2 = 300000000000 ∧
    calculateNotificationInterval 3 = 900000000000 ∧
    calculateNotificationInterval 10 = 1800000000000 ∧
    calculateNotificationInterval 20 = 3600000000000 ∧
    calculateNotificationInterval (-4) ≤ calculateNotificationInterval 25 :=
  ⟨by decide, by decide, by decide, by decide,
   (calculateNotificationInterval_steps (-4)).2.1 25 (by decide)⟩

/-- C15 (code at the failing inputs): a cycle whose credential lookup fails calls
neither `UpdateMonitor` nor `CreateLog`, although `FailureCount` and `ResponseCode` were
written in memory; and a cycle whose notification methods cannot be fetched changes the
`Status` in memory, returns the error and calls neither of the two. -/
theorem failed_cycles_not_persisted :
    ((checkMonitor (envWithCode 200) [] credMonitor).monitor.FailureCount = 1 ∧
      (checkMonitor (envWithCode 200) [] credMonitor).events.any Event.isUpdate = false ∧
      (checkMonitor (envWithCode 200) [] credMonitor).events.any Event.isCreateLog = false) ∧
    ((checkMonitor (envNoMethods 200) [] downMonitor).monitor.Status = "up" ∧
      (checkMonitor (envNoMethods 200) [] downMonitor).ret = some "database is locked" ∧
      (checkMonitor (envNoMethods 200) [] downMonitor).events.any Event.isUpdate = false ∧
      (checkMonitor (envNoMethods 200) [] downMonitor).events.any Event.isCreateLog = false) := by
  decide

/-- C20 (as amended): a cycle that calls `SendNotification` on a repeated down status
(new `Status` equal to the previous status) leaves this cycle's reading of the clock as
the monitor's entry of `lastNotifiedMap`; a cycle that calls it on a status change
leaves `lastNotifiedMap` as it was. -/
theorem notified_stamp (env : CycleEnv) (tm : ThrottleMap) (m : Monitor)
    (hn : (checkMonitor env tm m).notified = true) :
    ((checkMonitor env tm m).monitor.Status = previousStatus m →
      (checkMonitor env tm m).lastNotified.get m.ID = some env.nowStamp) ∧
    ((checkMonitor env tm m).monitor.Status ≠ previousStatus m →
      (checkMonitor env tm m).lastNotified = tm) := by
  obtain ⟨hcred, ms, hm⟩ := notified_imp env tm m hn
  constructor
  · intro heq
    have hdown : (checkMonitor env tm m).monitor.Status = "down" := by
      by_contra hnd
      have hnp : ¬ previousStatus m = "down" := fun h => hnd (heq.trans h)
      rw [checkMonitor_notified env tm m ms hcred hm] at hn
      simp [notifyDecision, heq, hnp] at hn
    exact notified_down_stamps env tm m hdown (heq.symm.trans hdown) hn
  · intro hne
    rw [checkMonitor_lastNotified env tm m ms hcred hm]
    simp [notifyDecision, hne]

/-- C20, witness: the down monitor fails again with no recorded notification; the
notification is sent and the map holds the instant of this cycle, 1060 s. -/
theorem notified_stamp_witness :
    (checkMonitor (envWithCode 500) [] downMonitor).monitor.Status =
        previousStatus downMonitor ∧
    (checkMonitor (envWithCode 500) [] downMonitor).lastNotified.get downMonitor.ID =
        some (envWithCode 500).nowStamp :=
  ⟨by decide,
   (notified_stamp (envWithCode 500) [] downMonitor (by decide)).1 (by decide)⟩

/-- C20, counterexample: the down monitor, last notified at 100 s, gets a 200 at 1060 s;
the status-change notification is sent, yet the recorded instant is still 100 s. -/
theorem notified_stamp_counterexample :
    (checkMonitor (envWithCode 200) (notifiedAt 100) downMonitor).notified = true ∧
    (checkMonitor (envWithCode 200) (notifiedAt 100) downMonitor).monitor.Status = "up" ∧
    (envWithCode 200).nowStamp = 1060 * Second ∧
    (checkMonitor (envWithCode 200) (notifiedAt 100) downMonitor).lastNotified.get
      downMonitor.ID = some (100 * Second) := by
  decide

/-- C13 (as amended): when the repository read succeeds and returns no ID twice, the IDs
in the live set after `reloadMonitors` are exactly the returned IDs whose monitor has
`IsActive` set or was already live before the call; so a live monitor that is still in
storage stays live when it is no longer active.  This holds for every order of the two
map iterations. -/
theorem reloadMonitors_live_IDs (ordNew ordOld : MapOrder) (monitors live : List Monitor)
    (hn : (monitors.map Monitor.ID).Nodup) (id : String) :
    id ∈ (reloadMonitors ordNew ordOld (Answer.ok monitors) live).monitors.map Monitor.ID ↔
      ∃ x ∈ monitors, x.ID = id ∧ (x.IsActive = true ∨ id ∈ live.map Monitor.ID) :=
  reload_IDs ordNew ordOld monitors live hn id

/-- C13, witness: storage holds `m1` (deactivated, live), `m2` (active, new) and `m3`
(inactive, new), the live set holds `m1` and `m4`; afterwards it holds `m1` and `m2`. -/
theorem reloadMonitors_live_IDs_witness :
    (reloadMonitors insertionOrder insertionOrder
        (Answer.ok [inactiveMonitor, secondMonitor, thirdMonitor])
        [sampleMonitor, fourthMonitor]).monitors.map Monitor.ID = ["m1", "m2"] ∧
    ("m2" ∈ (reloadMonitors insertionOrder insertionOrder
        (Answer.ok [inactiveMonitor, secondMonitor, thirdMonitor])
        [sampleMonitor, fourthMonitor]).monitors.map Monitor.ID ↔
      ∃ x ∈ [inactiveMonitor, secondMonitor, thirdMonitor], x.ID = "m2" ∧
        (x.IsActive = true ∨ "m2" ∈ [sampleMonitor, fourthMonitor].map Monitor.ID)) :=
  ⟨by decide,
   reloadMonitors_live_IDs insertionOrder insertionOrder
     [inactiveMonitor, secondMonitor, thirdMonitor] [sampleMonitor, fourthMonitor]
     (by decide) "m2"⟩

/-- C13, counterexample: `m1` is live and storage returns it with `IsActive` false; no
returned monitor is active, yet `m1` is still in the live set. -/
theorem reloadMonitors_live_IDs_counterexample :
    ([inactiveMonitor].filter (fun x => x.IsActive)).map Monitor.ID = [] ∧
    (reloadMonitors insertionOrder insertionOrder (Answer.ok [inactiveMonitor])
        [sampleMonitor]).monitors.map Monitor.ID = ["m1"] := by
  decide

/-- C14: a step of `runMonitor` whose existence check fails performs no check cycle and
ends the runner; every live monitor with another ID stays, in the same order; and in a
live set without repeated IDs the monitor's ID is gone, the live set being the old one
without that entry. -/
theorem runner_stops_when_gone (env : CycleEnv) (tm : ThrottleMap)
    (monitors : List Monitor) (monitor : Monitor) :
    (runMonitorStep false env tm monitors monitor).cycle = none ∧
    (runMonitorStep false env tm monitors monitor).running = false ∧
    (runMonitorStep false env tm monitors monitor).monitors.filter
        (fun x => x.ID != monitor.ID) =
      monitors.filter (fun x => x.ID != monitor.ID) ∧
    ((monitors.map Monitor.ID).Nodup →
      monitor.ID ∉ (runMonitorStep false env tm monitors monitor).monitors.map Monitor.ID ∧
      (runMonitorStep false env tm monitors monitor).monitors =
        monitors.filter (fun x => x.ID != monitor.ID)) := by
  refine ⟨rfl, rfl, ?_, ?_⟩
  · simp only [runMonitorStep, Bool.false_eq_true, if_false]
    induction monitors with
    | nil => rfl
    | cons m rest ih =>
      by_cases hm : m.ID = monitor.ID
      · simp [RemoveMonitor, hm]
      · simp [RemoveMonitor, hm, ih]
  · intro hn
    simp only [runMonitorStep, Bool.false_eq_true, if_false]
    rw [RemoveMonitor_eq_filter monitors monitor.ID hn]
    refine ⟨?_, rfl⟩
    simp [List.mem_filter]

/-- C14, witness: the live set is `m1`, `m4`, `m2` and the runner of `m4` finds it gone
from storage; the live set becomes `m1`, `m2` and no cycle is run. -/
theorem runner_stops_when_gone_witness :
    (runMonitorStep false (envWithCode 200) []
        [sampleMonitor, fourthMonitor, secondMonitor] fourthMonitor).cycle = none ∧
    (runMonitorStep false (envWithCode 200) []
        [sampleMonitor, fourthMonitor, secondMonitor] fourthMonitor).running = false ∧
    (runMonitorStep false (envWithCode 200) []
        [sampleMonitor, fourthMonitor, secondMonitor] fourthMonitor).monitors =
      [sampleMonitor, secondMonitor] :=
  have h := runner_stops_when_gone (envWithCode 200) []
    [sampleMonitor, fourthMonitor, secondMonitor] fourthMonitor
  ⟨h.1, h.2.1, (h.2.2.2 (by decide)).2.trans (by decide)⟩

/-- C16 (as amended): one call of `SendNotification` hands at most one method of each
type to a delivery, and every method handed to a delivery is the first method of its
type in list order whose config parses. -/
theorem one_attempt_per_type (env : NotifyEnv) (methods : List NotificationMethod) :
    ((attemptsOf (SendNotification env methods).steps).map NotificationMethod.Type_).Nodup ∧
    ∀ a ∈ attemptsOf (SendNotification env methods).steps, FirstParsable env methods a :=
  ⟨(SendNotification_final env methods).nodup, (SendNotification_final env methods).first⟩

/-- C16, witness: of a broken email method, two good email methods, a Slack and a Teams
method, the first good email method, the Slack and the Teams method are used. -/
theorem one_attempt_per_type_witness :
    attemptsOf (SendNotification sampleNotifyEnv
        [emailBroken, emailGood, slackDown, emailSecond, teamsGood]).steps =
      [emailGood, slackDown, teamsGood] ∧
    ((attemptsOf (SendNotification sampleNotifyEnv
        [emailBroken, emailGood, slackDown, emailSecond, teamsGood]).steps).map
          NotificationMethod.Type_).Nodup :=
  ⟨by decide,
   (one_attempt_per_type sampleNotifyEnv
      [emailBroken, emailGood, slackDown, emailSecond, teamsGood]).1⟩

/-- C16, counterexample: the first email method of the list has a config that does not
parse; the email is sent through the second one. -/
theorem one_attempt_per_type_counterexample :
    ([emailBroken, emailGood].find? (fun x => x.Type_ == "email")) = some emailBroken ∧
    attemptsOf (SendNotification sampleNotifyEnv [emailBroken, emailGood]).steps =
      [emailGood] ∧
    emailGood ≠ emailBroken := by
  decide

/-- C17 (code at the failing input): a delivery error and a config parse error do not
stop the loop, but a panic does: the Slack delivery fails with 503, the loop goes on to
the email method, whose config is a JSON object without `smtp_host`, `SendEmail` panics,
the call does not return and the Teams method behind it is never attempted. -/
theorem later_method_not_attempted :
    (SendNotification sampleNotifyEnv [slackDown, emailBroken, teamsGood, emailGood]).steps =
      [SendStep.attempt slackDown (Delivered.err "Slack API returned status code: 503"),
       SendStep.parseError emailBroken "invalid character",
       SendStep.attempt teamsGood Delivered.ok,
       SendStep.attempt emailGood Delivered.ok] ∧
    parses sampleNotifyEnv emailNoHost = true ∧
    SendNotification sampleNotifyEnv [slackDown, emailNoHost, teamsGood] =
      { steps :=
          [SendStep.attempt slackDown (Delivered.err "Slack API returned status code: 503"),
           SendStep.attempt emailNoHost Delivered.panic],
        outcome := SendOutcome.panicked } ∧
    teamsGood ∉ attemptsOf
      (SendNotification sampleNotifyEnv [slackDown, emailNoHost, teamsGood]).steps := by
  decide

/-- C18: `GetHeaderValue` renders "Basic " followed by the token for type basic, the raw
`HeaderValue` for a type other than basic, bearer, oauth2 and api_key, and for type
bearer the token itself when it starts with "Bearer " and "Bearer " followed by the
token otherwise; rendering a bearer credential whose token is an already rendered value
gives that value again. -/
theorem GetHeaderValue_render (cred : Credential) :
    (cred.Type_ = "basic" → GetHeaderValue cred = "Basic " ++ cred.Token) ∧
    (cred.Type_ ≠ "basic" → cred.Type_ ≠ "bearer" → cred.Type_ ≠ "oauth2" →
      cred.Type_ ≠ "api_key" → GetHeaderValue cred = cred.HeaderValue) ∧
    (cred.Type_ = "bearer" → "Bearer ".isPrefixOf cred.Token = true →
      GetHeaderValue cred = cred.Token) ∧
    (cred.Type_ = "bearer" → "Bearer ".isPrefixOf cred.Token = false →
      GetHeaderValue cred = "Bearer " ++ cred.Token) ∧
    (cred.Type_ = "bearer" →
      GetHeaderValue { cred with Token := GetHeaderValue cred } = GetHeaderValue cred) := by
  refine ⟨?_, ?_, ?_, ?_, ?_⟩
  · intro h
    simp [GetHeaderValue, h]
  · intro h1 h2 h3 h4
    simp [GetHeaderValue, h1, h2, h3, h4]
  · intro h hp
    simp [GetHeaderValue, h, hp]
  · intro h hp
    simp [GetHeaderValue, h, hp]
  · intro h
    cases hp : "Bearer ".isPrefixOf cred.Token
    · have hv : GetHeaderValue cred = "Bearer " ++ cred.Token := by
        simp [GetHeaderValue, h, hp]
      rw [hv]
      simp [GetHeaderValue, h, isPrefixOf_append]
    · have hv : GetHeaderValue cred = cred.Token := by
        simp [GetHeaderValue, h, hp]
      rw [hv]
      simp [GetHeaderValue, h, hp]

/-- C18, witness: a basic credential, a credential of an unknown type, and a bearer
credential rendered twice. -/
theorem GetHeaderValue_render_witness :
    GetHeaderValue (credentialOf "basic" "dXNlcjpwdw==") = "Basic " ++ "dXNlcjpwdw==" ∧
    GetHeaderValue (credentialOf "custom" "abc") = "raw" ∧
    GetHeaderValue { credentialOf "bearer" "abc" with
        Token := GetHeaderValue (credentialOf "bearer" "abc") } =
      GetHeaderValue (credentialOf "bearer" "abc") :=
  ⟨(GetHeaderValue_render (credentialOf "basic" "dXNlcjpwdw==")).1 rfl,
   (GetHeaderValue_render (credentialOf "custom" "abc")).2.1 (by decide) (by decide)
     (by decide) (by decide),
   (GetHeaderValue_render (credentialOf "bearer" "abc")).2.2.2.2 rfl⟩

/-- C19: status-line parsing of `executeCurlCommand`.  When the first output line that
starts with `HTTP/` reads `HTTP/<version> <n>`, alone or followed by a space and more,
with `n` a non-zero decimal integer of at most 64 bits, the call returns code `n` and no
error.  Whenever the code found is 0 the call returns an error, so a returned code is
never 0; the code found is 0 when no line starts with `HTTP/` and when the second part
of the first such line does not scan or scans to 0. -/
theorem curl_status_line :
    (∀ (url output : String) (pre post : List (List Char))
        (version digits rest : List Char) (neg : Bool),
      stringsSplit newline output.toList =
        pre ++ ("HTTP/".toList ++ version ++ space :: (numeral neg digits ++ rest)) :: post →
      (∀ l ∈ pre, "HTTP/".toList.isPrefixOf l = false) →
      space ∉ version →
      digits ≠ [] → (∀ c ∈ digits, isDecimalDigit c = true) →
      (rest = [] ∨ ∃ r, rest = space :: r) →
      numeralValue neg digits ≠ 0 →
      -(2 : Int) ^ 63 ≤ numeralValue neg digits → numeralValue neg digits < (2 : Int) ^ 63 →
      parseCurlOutput url output =
        Answer.ok (numeralValue neg digits, statusMessage url (numeralValue neg digits))) ∧
    (∀ (url output : String),
      (findStatusCode (stringsSplit newline output.toList) = 0 →
        parseCurlOutput url output = Answer.err "failed to parse status code") ∧
      (∀ (c : Int) (msg : String), parseCurlOutput url output = Answer.ok (c, msg) → c ≠ 0)) ∧
    (∀ lines : List (List Char),
      (∀ l ∈ lines, "HTTP/".toList.isPrefixOf l = false) → findStatusCode lines = 0) ∧
    (∀ (pre post : List (List Char)) (line first second : List Char)
        (more : List (List Char)),
      (∀ l ∈ pre, "HTTP/".toList.isPrefixOf l = false) →
      "HTTP/".toList.isPrefixOf line = true →
      stringsSplit space line = first :: second :: more →
      (scanInt second = none ∨ scanInt second = some 0) →
      findStatusCode (pre ++ line :: post) = 0) := by
  refine ⟨?_, ?_, ?_, ?_⟩
  · intro url output pre post version digits rest neg hlines hpre hver hne hd hrest hn0 hlo hhi
    have hcode := findStatusCode_of_line pre post version digits rest neg hpre hver hne hd
      hrest hlo hhi
    unfold parseCurlOutput
    rw [hlines, hcode, if_neg hn0]
  · intro url output
    constructor
    · intro h0
      unfold parseCurlOutput
      rw [if_pos h0]
    · intro c msg hok
      unfold parseCurlOutput at hok
      split_ifs at hok with h0
      simp only [Answer.ok.injEq, Prod.mk.injEq] at hok
      rw [← hok.1]
      exact h0
  · intro lines hno
    have h := findStatusCode_skip lines [] hno
    rw [List.append_nil] at h
    rw [h]
    rfl
  · intro pre post line first second more hpre hpfx hparts hscan
    rw [findStatusCode_skip pre _ hpre]
    simp only [findStatusCode, hpfx, if_true, hparts]
    rcases hscan with h | h <;> rw [h] <;> rfl

/-- C19, witness: the output `HTTP/1.1 200 OK` followed by a header line gives code 200
and no error. -/
theorem curl_status_line_witness :
    parseCurlOutput "http://example.test/health" sampleOutput =
      Answer.ok (numeralValue false "200".toList,
        statusMessage "http://example.test/health" (numeralValue false "200".toList)) ∧
    numeralValue false "200".toList = 200 :=
  ⟨curl_status_line.1 "http://example.test/health" sampleOutput []
      ["Content-Type: text/plain".toList, []] "1.1".toList "200".toList " OK".toList false
      (by decide) (by decide) (by decide) (by decide) (by decide)
      (Or.inr ⟨"OK".toList, by decide⟩) (by decide) (by decide) (by decide),
   by decide⟩

/-- C21 (as amended): when `Status` is empty, pending, up, down, unauthorized or
redirect before a check cycle, it is pending, up, down, unauthorized or redirect after
it, for every probe outcome; and it becomes "redirect" only when the executor delivered
a code between 300 and 399. -/
theorem status_stays_known (env : CycleEnv) (tm : ThrottleMap) (m : Monitor)
    (h : m.Status = "" ∨ KnownStatus m.Status) :
    KnownStatus (checkMonitor env tm m).monitor.Status ∧
    ((checkMonitor env tm m).monitor.Status = "redirect" →
      m.Status = "redirect" ∨ ∃ c : Int, probeCode env m = some c ∧ 300 ≤ c ∧ c < 400) :=
  status_known_step env tm m h

/-- C21, witness: a monitor that is up gets a 302. -/
theorem status_stays_known_witness :
    KnownStatus (checkMonitor (envWithCode 302) [] upMonitor).monitor.Status ∧
    ((checkMonitor (envWithCode 302) [] upMonitor).monitor.Status = "redirect" →
      upMonitor.Status = "redirect" ∨
        ∃ c : Int, probeCode (envWithCode 302) upMonitor = some c ∧ 300 ≤ c ∧ c < 400) :=
  status_stays_known (envWithCode 302) [] upMonitor (Or.inr (Or.inr (Or.inl (by decide))))

/-- C21, counterexample: a monitor that is up gets a 302 and its `Status` becomes
"redirect", which is none of pending, up, down, unauthorized. -/
theorem status_stays_known_counterexample :
    upMonitor.Status = "up" ∧
    (checkMonitor (envWithCode 302) [] upMonitor).monitor.Status = "redirect" ∧
    (checkMonitor (envWithCode 302) [] upMonitor).monitor.FailureCount = 0 := by
  decide

/-- C22: `reloadMonitors` leaves a monitor that is live and returned by the repository
untouched: the live entries with its ID are the same values as before, so no field is
changed and the copy read from storage does not replace or join them; and a reload
whose repository read fails changes nothing. -/
theorem reloadMonitors_keeps_common (ordNew ordOld : MapOrder) (live : List Monitor) :
    (∀ (monitors : List Monitor) (id : String),
      id ∈ monitors.map Monitor.ID → id ∈ live.map Monitor.ID →
      (reloadMonitors ordNew ordOld (Answer.ok monitors) live).monitors.filter
          (fun x => x.ID == id) =
        live.filter (fun x => x.ID == id)) ∧
    (∀ e : String, (reloadMonitors ordNew ordOld (Answer.err e) live).monitors = live) :=
  ⟨fun monitors id hrepo hlive => reload_common ordNew ordOld monitors live id hrepo hlive,
   fun _ => rfl⟩

/-- C22, witness: `m1` is live as `downMonitor` (count 3, down) and storage returns it as
`inactiveMonitor` (count 0, pending); the live entry is still `downMonitor`. -/
theorem reloadMonitors_keeps_common_witness :
    (reloadMonitors insertionOrder insertionOrder
        (Answer.ok [inactiveMonitor, secondMonitor]) [downMonitor, fourthMonitor]).monitors.filter
        (fun x => x.ID == "m1") =
      [downMonitor, fourthMonitor].filter (fun x => x.ID == "m1") ∧
    [downMonitor, fourthMonitor].filter (fun x => x.ID == "m1") = [downMonitor] :=
  ⟨(reloadMonitors_keeps_common insertionOrder insertionOrder
      [downMonitor, fourthMonitor]).1 [inactiveMonitor, secondMonitor] "m1"
      (by decide) (by decide),
   by decide⟩

/-- C23: when neither the live set nor the repository result holds an ID twice, the
live set after `reloadMonitors` holds no ID twice, and it is a part of the old live set
followed by exactly the monitors for which a check loop was started. -/
theorem reloadMonitors_no_duplicates (ordNew ordOld : MapOrder) (monitors live : List Monitor)
    (hlive : (live.map Monitor.ID).Nodup) (_hrepo : (monitors.map Monitor.ID).Nodup) :
    ((reloadMonitors ordNew ordOld (Answer.ok monitors) live).monitors.map Monitor.ID).Nodup ∧
    ∃ kept : List Monitor, kept.Sublist live ∧
      (reloadMonitors ordNew ordOld (Answer.ok monitors) live).monitors =
        kept ++ (reloadMonitors ordNew ordOld (Answer.ok monitors) live).started :=
  reload_nodup ordNew ordOld (Answer.ok monitors) live hlive

/-- C23, witness: storage holds `m1`, `m2`, `m3` and the live set `m1`, `m4`; afterwards
the live set is `m1` followed by the started `m2`. -/
theorem reloadMonitors_no_duplicates_witness :
    (reloadMonitors insertionOrder insertionOrder
        (Answer.ok [inactiveMonitor, secondMonitor, thirdMonitor])
        [sampleMonitor, fourthMonitor]).started.map Monitor.ID = ["m2"] ∧
    ((reloadMonitors insertionOrder insertionOrder
        (Answer.ok [inactiveMonitor, secondMonitor, thirdMonitor])
        [sampleMonitor, fourthMonitor]).monitors.map Monitor.ID).Nodup :=
  ⟨by decide,
   (reloadMonitors_no_duplicates insertionOrder insertionOrder
      [inactiveMonitor, secondMonitor, thirdMonitor] [sampleMonitor, fourthMonitor]
      (by decide) (by decide)).1⟩

/-- C24 (code at the failing inputs): a config that is the JSON `null` parses, and the
call of `SendNotification` panics in `SendEmail`; so does a call whose email config is
an object without `smtp_host`, and the Teams method behind it is never reached. -/
theorem sendNotification_panics :
    parses sampleNotifyEnv emailNull = true ∧
    (SendNotification sampleNotifyEnv [emailNull]).outcome = SendOutcome.panicked ∧
    parses sampleNotifyEnv emailNoHost = true ∧
    SendNotification sampleNotifyEnv [emailNoHost, teamsGood] =
      { steps := [SendStep.attempt emailNoHost Delivered.panic],
        outcome := SendOutcome.panicked } := by
  decide

/-- C25 (code at the failing input): the profile's only method is a Slack method with
`Enabled` false; the cycle that takes the monitor from down to up hands it to
`SendNotification`, which attempts the delivery through it. -/
theorem disabled_method_used :
    slackDisabled.Enabled = false ∧
    (checkMonitor (envWithMethods 200 [slackDisabled]) [] downMonitor).notified = true ∧
    cycleAttempts sampleNotifyEnv
        (checkMonitor (envWithMethods 200 [slackDisabled]) [] downMonitor).events =
      [slackDisabled] := by
  decide

/-- C26 (code at the failing input): a POST monitor on the direct-HTTP path with a
non-empty `Body`; the request handed to `client.Do` has the monitor's method, URL and
parsed header, and no body. -/
theorem http_request_without_body :
    postMonitor.RequestType ≠ "curl" ∧ postMonitor.Body ≠ "" ∧
    requestsOf (checkMonitor envWithHeader [] postMonitor).events =
      [{ Method := "POST", URL := "http://example.test/health",
         Header := [("X-Token", "abc")], Body := none }] := by
  decide

/-- C28 (code at the failing input): the notification decision of a repeated down cycle
reads and writes `lastNotifiedMap` and never calls `notifyMutex`; no input makes it
lock. -/
theorem throttle_map_unlocked :
    throttleOps (envWithCode 500) [] "m1" "down" "down" 4 =
      [ThrottleOp.readMap "m1", ThrottleOp.writeMap "m1" (1060 * Second)] ∧
    ∀ (env : CycleEnv) (tm : ThrottleMap) (id prev status : String) (fc : Int),
      ThrottleOp.lock ∉ throttleOps env tm id prev status fc := by
  refine ⟨by decide, ?_⟩
  intro env tm id prev status fc
  unfold throttleOps
  cases tm.get id with
  | none => split_ifs <;> simp
  | some t =>
    simp only [gt_iff_lt]
    by_cases h1 : status ≠ prev
    · simp [h1]
    · by_cases h2 : status = "down"
      · by_cases h3 : calculateNotificationInterval fc < env.nowSince - t <;> simp [h1, h2, h3]
      · simp [h1, h2]

/-- C29: for a response code outside 300 to 399, the check cycle ends with the same
`Status` and `FailureCount` whether the raw state comes from the reference classifier
or from `getStatusFromCode`, which is what `checkMonitor` uses. -/
theorem classifier_refinement (env : CycleEnv) (tm : ThrottleMap) (m : Monitor) (c : Int)
    (hcred : credentialError env m = false) (hc : probeCode env m = some c)
    (h : ¬ (300 ≤ c ∧ c < 400)) :
    outcomeWith getStatusFromCode env m c = (checkMonitor env tm m).monitor ∧
    (outcomeWith referenceClassifier env m c).Status = (checkMonitor env tm m).monitor.Status ∧
    (outcomeWith referenceClassifier env m c).FailureCount =
      (checkMonitor env tm m).monitor.FailureCount := by
  have hown := outcomeWith_own env tm m c hcred hc
  have href := outcomeWith_reference env m c h
  rw [← hown]
  exact ⟨rfl, href.1, href.2⟩

/-- C29, witness: code 401 on an up monitor with threshold 3; the reference classifier
says "unauthorized", the scheduler's says "down", and both cycles end up with count 1. -/
theorem classifier_refinement_witness :
    referenceClassifier 401 = "unauthorized" ∧ getStatusFromCode 401 = "down" ∧
    (outcomeWith getStatusFromCode (envWithCode 401) upMonitor 401 =
        (checkMonitor (envWithCode 401) [] upMonitor).monitor ∧
     (outcomeWith referenceClassifier (envWithCode 401) upMonitor 401).Status =
        (checkMonitor (envWithCode 401) [] upMonitor).monitor.Status ∧
     (outcomeWith referenceClassifier (envWithCode 401) upMonitor 401).FailureCount =
        (checkMonitor (envWithCode 401) [] upMonitor).monitor.FailureCount) :=
  ⟨by decide, by decide,
   classifier_refinement (envWithCode 401) [] upMonitor 401 (by decide) (by decide)
     (by decide)⟩

/-- C30 (as amended): a monitor created by `CreateMonitor` from a request without
`last_checked` is stored with `Status` pending, `FailureCount` 0 and the zero
`LastChecked`; and its first check cycle, when it has no credential error and fetches
the notification methods, at every current time later than three check intervals after
the zero time (a reading of the clock being later than 180 s after the zero time), ends
with `Status` "down" and sends the notification with status "down", whatever the probe
returns. -/
theorem created_monitor_first_cycle (cenv : CreateEnv) (request m : Monitor)
    (hreq : request.LastChecked = 0)
    (hcreated : CreateMonitor cenv request = Answer.ok m) :
    m.Status = "pending" ∧ m.FailureCount = 0 ∧ m.LastChecked = 0 ∧
    ∀ (env : CycleEnv) (tm : ThrottleMap) (ms : List NotificationMethod),
      credentialError env m = false → env.methods = Answer.ok ms →
      (m.CheckInterval * 3) * Second < env.nowGuard →
      180 * Second < env.nowGuard →
      (checkMonitor env tm (prepareNew m)).monitor.Status = "down" ∧
      (checkMonitor env tm (prepareNew m)).notifiedWith "down" = true := by
  obtain ⟨hs, hfc, _, hl⟩ := CreateMonitor_stored cenv request m hcreated
  rw [hreq] at hl
  exact ⟨hs, hfc, hl, fun env tm ms hcred hm hold hclock =>
    first_cycle_down env tm m ms hs hl hcred hm hold hclock⟩

/-- C30, witness: the sample request is stored pending with count 0, and its first
cycle, a 200 at 1060 s, ends "down" with count 0 and a notification. -/
theorem created_monitor_first_cycle_witness :
    CreateMonitor sampleCreateEnv sampleRequest =
      Answer.ok (stampCreated sampleCreateEnv sampleRequest) ∧
    (checkMonitor (envWithCode 200) []
        (prepareNew (stampCreated sampleCreateEnv sampleRequest))).monitor.Status = "down" ∧
    (checkMonitor (envWithCode 200) []
        (prepareNew (stampCreated sampleCreateEnv sampleRequest))).notifiedWith "down" = true ∧
    (checkMonitor (envWithCode 200) []
        (prepareNew (stampCreated sampleCreateEnv sampleRequest))).monitor.FailureCount = 0 :=
  have h := (created_monitor_first_cycle sampleCreateEnv sampleRequest
    (stampCreated sampleCreateEnv sampleRequest) (by decide) (by decide)).2.2.2
    (envWithCode 200) [] [] (by decide) (by decide) (by decide) (by decide)
  ⟨by decide, h.1, h.2, by decide⟩

/-- C30, counterexample: two first cycles of freshly created monitors, each later than
three check intervals after the zero time, that do not end "down" with a notification:
the credential lookup fails (status still pending, nothing sent); the notification
methods cannot be fetched (status "down", nothing sent). -/
theorem created_monitor_first_cycle_counterexample :
    (CreateMonitor sampleCreateEnv credRequest =
        Answer.ok (stampCreated sampleCreateEnv credRequest) ∧
      (stampCreated sampleCreateEnv credRequest).LastChecked = 0 ∧
      (stampCreated sampleCreateEnv credRequest).CheckInterval * 3 * Second <
        (envWithCode 200).nowGuard ∧
      (checkMonitor (envWithCode 200) []
        (prepareNew (stampCreated sampleCreateEnv credRequest))).monitor.Status = "pending" ∧
      (checkMonitor (envWithCode 200) []
        (prepareNew (stampCreated sampleCreateEnv credRequest))).notified = false) ∧
    (CreateMonitor sampleCreateEnv sampleRequest =
        Answer.ok (stampCreated sampleCreateEnv sampleRequest) ∧
      (stampCreated sampleCreateEnv sampleRequest).CheckInterval * 3 * Second <
        (envNoMethods 200).nowGuard ∧
      (checkMonitor (envNoMethods 200) []
        (prepareNew (stampCreated sampleCreateEnv sampleRequest))).monitor.Status = "down" ∧
      (checkMonitor (envNoMethods 200) []
        (prepareNew (stampCreated sampleCreateEnv sampleRequest))).notified = false) := by
  decide

/-- C27: `parseFormData` inverts the documented form encoding: for pairs with distinct,
non-empty keys whose keys and values hold no quote, no white space, no `=` and no
`--form`, parsing the encoding of the pairs yields the map of exactly these pairs. -/
theorem parseFormData_inverts (pairs : List (List Char × List Char))
    (hdistinct : (pairs.map Prod.fst).Nodup)
    (hne : ∀ p ∈ pairs, p.1 ≠ [])
    (hplain : ∀ p ∈ pairs, plainText p.1 = true ∧ plainText p.2 = true) :
    parseFormData (formEncoding pairs) = pairs := by
  unfold parseFormData
  rw [parse_encoding pairs hne hplain [], foldl_formSet pairs [] (by simpa using hdistinct)]
  rfl

/-- C27, witness: the encoding of user=bob and id=7 is the text of the source comment
with these fields, and it is parsed back to the two pairs. -/
theorem parseFormData_inverts_witness :
    String.mk (formEncoding samplePairs) = "--form 'user=bob' --form 'id=7'" ∧
    parseFormData (formEncoding samplePairs) = samplePairs :=
  ⟨by decide,
   parseFormData_inverts samplePairs (by decide) (by decide) (by decide)⟩

end Heimdall
